import Mathlib

/-!
# Marketplace backend: orders, payments and products

A shallow embedding of the routes of the backend (`backend/routes/orders.js`,
`backend/routes/products.js`, `backend/routes/auth.js`, `backend/routes/users.js`), of the
middleware (`backend/middleware/auth.js`) and of the Mongoose models they use
(`backend/models/Order.js`, `backend/models/Product.js`, `backend/models/User.js`).

Conventions of the embedding

* A collection is a list of documents; `findById` returns the first document with the
  identifier, `save` of an existing document replaces it.
* A route handler is a function from the store to a response and the store afterwards.
  A rejected promise (a failed `save`, a dereference of a reference that `populate`
  left `null`) is caught by the handler's `catch` block and answered with status 500.
* A JavaScript number is the rational it denotes (every finite double is a rational). The
  product of two numbers is the exact product rounded to the nearest double, a tie to the
  even one, as IEEE 754 multiplication gives it (`toDouble`), so a stored total is the
  double the code stores and not the exact product; 2 ^ 1024, which is no double, stands
  for `Infinity`. Quantities and ratings are integers (every route that writes one
  validates it with `isInt`); the mean of the ratings is kept as the exact quotient.
* The clock readings, the random part of an order number and the identifier given to a
  new document are inputs (`Env`); adding 30 minutes or 2 hours to a date adds that many
  milliseconds.
* A string is a list of characters (Unicode scalar values). The route validators
  (`isLength` of validator.js) count characters; the schema validators (`maxlength`) and
  the property `length` count UTF-16 code units, two for a character outside the basic
  plane (`utf16Length`).
* A path that a document does not have is `none`. The status of an order is such a path:
  the status route can unset it, and Mongoose fills in the schema default, `pending`,
  when it builds a document from a stored one (`Order.hydrate`), so the collection keeps
  the order as stored and `findById` and `find` return it as read.
* Mongoose bookkeeping (`createdAt`/`updatedAt` of an order, `__v`) and the order's
  `rating`, which no route writes, are left out; a collection lists its documents in the
  order of their creation, which is the order of `createdAt`.
-/

set_option autoImplicit false

namespace Marketplace

/-- Mongo document identifier (an ObjectId); only equality of identifiers is used. -/
abbrev ObjectId := Nat

/-- Milliseconds since the epoch: the value of `Date.now()` and of a stored `Date`. -/
abbrev Timestamp := Nat

/-! ## Schema enumerations -/

/-- Values of `status` in the order schema. -/
inductive OrderStatus
  | pending | confirmed | preparing | ready | delivered | cancelled
  deriving DecidableEq, Repr

/-- Values of `paymentStatus` in the order schema. -/
inductive PaymentStatus
  | pending | completed | failed | refunded
  deriving DecidableEq, Repr

/-- Values of `paymentMethod` in the order schema. -/
inductive PaymentMethod
  | upi | card | wallet | cod | netbanking
  deriving DecidableEq, Repr

/-- Values of `deliveryType` in the order schema. -/
inductive DeliveryType
  | pickup | delivery
  deriving DecidableEq, Repr

/-- Values of `status` in the product schema. -/
inductive ProductStatus
  | active | inactive | out_of_stock | discontinued
  deriving DecidableEq, Repr

/-- Values of `role` in the user schema. -/
inductive Role
  | buyer | seller
  deriving DecidableEq, Repr

/-! ## Documents -/

/-- The part of a user document the routes look at; `password` is the stored hash,
`businessName` is `businessInfo.businessName`. -/
structure User where
  _id : ObjectId
  role : Role := Role.buyer
  isActive : Bool := true
  email : String := ""
  password : String := ""
  businessName : Option String := none
  lastLogin : Option Timestamp := none
  deriving DecidableEq

/-- An element of `reviews` in the product schema. -/
structure Review where
  user : ObjectId
  rating : Int
  comment : Option String := none
  createdAt : Timestamp := 0
  deriving DecidableEq

/-- An element of `images` in the product schema. -/
structure Image where
  url : String
  publicId : String
  isPrimary : Bool := false
  deriving DecidableEq

/-- A product document (`stockQuantity` is `stock.quantity`). -/
structure Product where
  _id : ObjectId
  name : String
  description : String
  price : ℚ
  stockQuantity : Int
  images : List Image := []
  seller : ObjectId
  status : ProductStatus := ProductStatus.active
  reviews : List Review := []
  averageRating : ℚ := 0
  totalReviews : Nat := 0
  slug : String := ""
  views : Nat := 0
  updatedAt : Timestamp := 0
  deriving DecidableEq

/-- The `paymentDetails` sub-document of an order. -/
structure PaymentDetails where
  transactionId : Option String := none
  paymentGateway : Option String := none
  upiId : Option String := none
  cardLast4 : Option String := none
  deriving DecidableEq

/-- The `deliveryAddress` sub-document of an order. -/
structure Address where
  street : Option String := none
  city : Option String := none
  state : Option String := none
  pincode : Option String := none
  landmark : Option String := none
  deriving DecidableEq

/-- An order document; `status` is `none` when the document has no such path. -/
structure Order where
  _id : ObjectId
  orderNumber : String
  buyer : ObjectId
  seller : ObjectId
  product : ObjectId
  quantity : Int
  unitPrice : ℚ
  totalAmount : ℚ
  currency : String := "INR"
  status : Option OrderStatus := some OrderStatus.pending
  paymentStatus : PaymentStatus := PaymentStatus.pending
  paymentMethod : PaymentMethod
  paymentDetails : PaymentDetails := {}
  deliveryAddress : Option Address := none
  deliveryType : DeliveryType := DeliveryType.pickup
  estimatedDeliveryTime : Option Timestamp := none
  actualDeliveryTime : Option Timestamp := none
  notes : Option String := none
  deriving DecidableEq

/-- The persisted store: the three collections. -/
structure Db where
  users : List User := []
  products : List Product := []
  orders : List Order := []
  deriving DecidableEq

/-- What a handler takes from its environment. -/
structure Env where
  /-- The reading of `new Date()` in the handler or in a model method. -/
  now : Timestamp
  /-- The reading of `Date.now()` when the route builds its order number. -/
  stamp : Timestamp
  /-- The reading of `Date.now()` inside the pre-save hooks. -/
  hookNow : Timestamp
  /-- The value of `Math.random().toString(36).substr(2, 9).toUpperCase()`. -/
  random : String
  /-- The identifier Mongoose gives to a newly constructed document. -/
  newId : ObjectId
  /-- The value of `bcrypt.genSalt(12)` in the pre-save hook of a user. -/
  salt : String := ""
  deriving DecidableEq

/-- The JSON envelope of a response together with its HTTP status; `order` is `data.order`,
`product` is `data.product`, `token` is `data.token`. -/
structure Response where
  status : Nat
  success : Bool
  message : Option String
  order : Option Order := none
  product : Option Product := none
  token : Option String := none
  deriving DecidableEq

/-! ## JavaScript and validator helpers -/

/-- JavaScript truthiness of an optional string: `undefined` and the empty string are falsy. -/
def truthy : Option String → Bool
  | some s => decide (s ≠ "")
  | none => false

/-- The value of `String(x).padStart(n, c)`. -/
def padStart (n : Nat) (c : Char) (s : String) : String :=
  String.mk (List.replicate (n - s.length) c) ++ s

/-- Rounding of the quotient `num / den` to the nearest integer, a tie to the even one. -/
def roundHalfEven (num den : Nat) : Nat :=
  let q := num / den
  let r := num % den
  if 2 * r < den then q
  else if den < 2 * r then q + 1
  else if q % 2 = 0 then q else q + 1

/-- The number of binary digits of `n`, counted in `fuel` steps; `n` steps are enough. -/
def binaryDigits : Nat → Nat → Nat
  | 0, _ => 0
  | fuel + 1, n => if n = 0 then 0 else binaryDigits fuel (n / 2) + 1

/-- The exponent `e` with `2 ^ e ≤ n / d < 2 ^ (e + 1)`, for positive `n` and `d`. -/
def floorLog2 (n d : Nat) : Int :=
  let e0 : Int := (binaryDigits n n : Int) - (binaryDigits d d : Int)
  if d * 2 ^ e0.toNat ≤ n * 2 ^ (-e0).toNat then e0 else e0 - 1

/-- The double nearest to the positive rational `n / d`. The significand has 53 bits, so
the spacing of the doubles around `n / d` is `2 ^ k` with `k` the exponent of `n / d` less
52, and never below `2 ^ (-1074)`, the spacing of the subnormal doubles. A result of
`2 ^ 1024` or more is beyond the largest double: the operation gives `Infinity`, which
`2 ^ 1024` stands for. -/
def doubleOfPos (n d : Nat) : ℚ :=
  let k : Int := max (floorLog2 n d) (-1022) - 52
  let m := roundHalfEven (n * 2 ^ (-k).toNat) (d * 2 ^ k.toNat)
  if m * 2 ^ k.toNat < 2 ^ 1024 * 2 ^ (-k).toNat then
    mkRat (m * 2 ^ k.toNat : Nat) (2 ^ (-k).toNat)
  else 2 ^ 1024

/-- The number a JavaScript operation returns when its exact result is `x`: the nearest
double (IEEE 754 binary64, round to nearest, ties to even). It is also the number that a
decimal literal such as `18.99` denotes. -/
def toDouble (x : ℚ) : ℚ :=
  if x = 0 then 0
  else if 0 < x then doubleOfPos x.num.natAbs x.den
  else - doubleOfPos x.num.natAbs x.den

/-- The property `length` of a JavaScript string: its number of UTF-16 code units. A
character outside the basic plane is a surrogate pair and takes two. -/
def utf16Length (s : String) : Nat :=
  (s.toList.map fun c => if c.toNat < 0x10000 then 1 else 2).sum

/-- The validator `.isLength` with both bounds; it counts a surrogate pair once, so its
length is the number of characters. -/
def isLength (min max : Nat) (s : String) : Bool :=
  decide (min ≤ s.length) && decide (s.length ≤ max)

/-- The modifier `.optional()`: an absent field passes, a present one is checked. -/
def optional (check : String → Bool) : Option String → Bool
  | none => true
  | some s => check s

/-- White space as the sanitizer `.trim()` sees it: the class `\s` of JavaScript patterns. -/
def isSpace (c : Char) : Bool :=
  c = ' ' || c = '\t' || c = '\n' || c = '\r' || c.val = 0x0B || c.val = 0x0C
    || c.val = 0xA0 || c.val = 0x1680 || (0x2000 ≤ c.val && c.val ≤ 0x200A)
    || c.val = 0x2028 || c.val = 0x2029 || c.val = 0x202F || c.val = 0x205F
    || c.val = 0x3000 || c.val = 0xFEFF

/-- The sanitizer `.trim()`: white space is removed at both ends. -/
def trim (s : String) : String :=
  String.mk ((s.toList.dropWhile isSpace).reverse.dropWhile isSpace).reverse

/-- The sanitizer `.trim()` on an optional field. -/
def trimField : Option String → Option String
  | none => none
  | some s => some (trim s)

/-- The pattern `^[1-9][0-9]{5}$` of the pincode rule. -/
def matchesPincode (s : String) : Bool :=
  match s.toList with
  | [] => false
  | c :: cs => decide ('1' ≤ c ∧ c ≤ '9') && decide (cs.length = 5) && cs.all Char.isDigit

/-- The pattern `^\d{4}$` of the card rule. -/
def matchesCardLast4 (s : String) : Bool :=
  decide (s.toList.length = 4) && s.toList.all Char.isDigit

/-- The character class `[\w.-]`. -/
def isUpiChar (c : Char) : Bool :=
  c.isAlphanum || c = '_' || c = '.' || c = '-'

/-- The pattern `^[\w.-]+@[\w.-]+$` of the UPI rule. -/
def matchesUpiId (s : String) : Bool :=
  let l := s.toList
  let name := l.takeWhile isUpiChar
  match l.dropWhile isUpiChar with
  | '@' :: handle => !name.isEmpty && !handle.isEmpty && handle.all isUpiChar
  | _ => false

/-! ## Request bodies and their validation rules -/

/-- The body of `POST /api/orders`. -/
structure CreateOrderBody where
  productId : ObjectId
  quantity : Int
  paymentMethod : PaymentMethod
  deliveryAddress : Option Address := none
  deliveryType : Option DeliveryType := none
  notes : Option String := none
  deriving DecidableEq

/-- The body of `PUT /api/orders/:orderId/status`; both fields are optional, and `status`
is `none` in a body without one. -/
structure UpdateOrderBody where
  status : Option OrderStatus := none
  notes : Option String := none
  deriving DecidableEq

/-- The body of `POST /api/orders/:orderId/cancel`. -/
structure CancelBody where
  reason : Option String := none
  deriving DecidableEq

/-- A field of the optional `deliveryAddress` object. -/
def addressField (f : Address → Option String) : Option Address → Option String
  | none => none
  | some a => f a

/-- The rules of `createOrderValidation`: `validationResult(req).isEmpty()`. The rules on
`productId`, `paymentMethod` and `deliveryType` hold by typing. -/
def createOrderValidation (b : CreateOrderBody) : Bool :=
  decide (1 ≤ b.quantity)
    && optional (fun s => isLength 5 200 (trim s)) (addressField Address.street b.deliveryAddress)
    && optional (fun s => isLength 2 50 (trim s)) (addressField Address.city b.deliveryAddress)
    && optional (fun s => isLength 2 50 (trim s)) (addressField Address.state b.deliveryAddress)
    && optional matchesPincode (addressField Address.pincode b.deliveryAddress)
    && optional (fun s => isLength 0 500 (trim s)) b.notes

/-- The body after the sanitizers of `createOrderValidation` have run. -/
def CreateOrderBody.sanitize (b : CreateOrderBody) : CreateOrderBody :=
  { b with
    deliveryAddress := b.deliveryAddress.map fun a =>
      { a with street := trimField a.street, city := trimField a.city, state := trimField a.state }
    notes := trimField b.notes }

/-- The rules of `updateOrderValidation`; the rule on `status` (optional, one of the six
values when present) holds by typing. -/
def updateOrderValidation (b : UpdateOrderBody) : Bool :=
  optional (fun s => isLength 0 500 (trim s)) b.notes

/-- The body after the sanitizers of `updateOrderValidation` have run. -/
def UpdateOrderBody.sanitize (b : UpdateOrderBody) : UpdateOrderBody :=
  { b with notes := trimField b.notes }

/-- The rules of `paymentValidation` (the body of the payment route has the shape of
`paymentDetails`); `transactionId` is not optional. -/
def paymentValidation (b : PaymentDetails) : Bool :=
  (match b.transactionId with
    | none => false
    | some s => isLength 5 100 (trim s))
    && optional (fun s => isLength 0 50 (trim s)) b.paymentGateway
    && optional matchesUpiId b.upiId
    && optional matchesCardLast4 b.cardLast4

/-- The body after the sanitizers of `paymentValidation` have run. -/
def PaymentDetails.sanitize (b : PaymentDetails) : PaymentDetails :=
  { b with transactionId := trimField b.transactionId, paymentGateway := trimField b.paymentGateway }

/-! ## Collections -/

/-- The query `User.findById`. -/
def Db.findUser (db : Db) (id : ObjectId) : Option User :=
  db.users.find? fun u => decide (u._id = id)

/-- The query `Product.findById`. -/
def Db.findProduct (db : Db) (id : ObjectId) : Option Product :=
  db.products.find? fun p => decide (p._id = id)

/-- The order with the identifier, as the collection stores it. -/
def Db.storedOrder (db : Db) (id : ObjectId) : Option Order :=
  db.orders.find? fun o => decide (o._id = id)

/-- The document Mongoose builds from a stored order: the schema defaults are applied when
the document is constructed and the stored values are set over them, so a path with a
default that the stored document lacks has the default, and an order stored without
`status` reads as `pending`. -/
def Order.hydrate (o : Order) : Order :=
  match o.status with
  | none => { o with status := some OrderStatus.pending }
  | some _ => o

/-- The query `Order.findById`. -/
def Db.findOrder (db : Db) (id : ObjectId) : Option Order :=
  (db.storedOrder id).map Order.hydrate

/-- The write of an existing order document. -/
def Db.replaceOrder (db : Db) (o : Order) : Db :=
  { db with orders := db.orders.map fun x => if x._id = o._id then o else x }

/-- The write of an existing product document. -/
def Db.replaceProduct (db : Db) (p : Product) : Db :=
  { db with products := db.products.map fun x => if x._id = p._id then p else x }

/-- The insert of a new order document. -/
def Db.insertOrder (db : Db) (o : Order) : Db :=
  { db with orders := db.orders ++ [o] }

/-! ## The order model (`models/Order.js`) -/

/-- The `maxlength` validator of a string path: an unset path passes, a string is tested
on its `length`, the number of UTF-16 code units. -/
def maxlength (n : Nat) : Option String → Bool
  | none => true
  | some s => decide (utf16Length s ≤ n)

/-- The validators of the order schema that a value of type `Order` can fail:
`orderNumber` required, `quantity` min 1, `unitPrice` min 0, `totalAmount` min 0,
`notes` maxlength 500. -/
def Order.validate (o : Order) : Bool :=
  decide (o.orderNumber ≠ "") && decide (1 ≤ o.quantity) && decide (0 ≤ o.unitPrice)
    && decide (0 ≤ o.totalAmount) && maxlength 500 o.notes

/-- The order number of the first `pre('save')` hook: the text `ORD`, the clock reading and
the count of stored orders plus one, padded to four digits. -/
def hookOrderNumber (hookNow : Timestamp) (count : Nat) : String :=
  "ORD" ++ toString hookNow ++ padStart 4 '0' (toString (count + 1))

/-- The two `pre('save')` hooks of the order schema, in registration order: a new
document gets its order number from the clock and the document count; the total is
recomputed when `quantity` or `unitPrice` is modified, by a multiplication of doubles. -/
def Order.preSave (isNew modified : Bool) (hookNow : Timestamp) (count : Nat) (o : Order) :
    Order :=
  let o1 := if isNew then { o with orderNumber := hookOrderNumber hookNow count } else o
  if modified then
    { o1 with totalAmount := toDouble ((o1.quantity : ℚ) * o1.unitPrice) }
  else o1

/-- The method `save` of an order document: validation, then the pre-save hooks, then the
write. `isNew` says whether the document was built by `new Order`, `modified` whether
`quantity` or `unitPrice` is modified. The result is `none` when the promise is rejected:
by a validator, or by the unique indexes on `_id` and `orderNumber` at the insert. -/
def Order.save (isNew modified : Bool) (env : Env) (o : Order) (db : Db) : Option (Order × Db) :=
  if !o.validate then none
  else
    let o1 := o.preSave isNew modified env.hookNow db.orders.length
    if isNew then
      if db.orders.any fun x => decide (x._id = o1._id) || decide (x.orderNumber = o1.orderNumber)
      then none
      else some (o1, db.insertOrder o1)
    else some (o1, db.replaceOrder o1)

/-- The assignments of the instance method `updateStatus`, before its `save`; `newStatus`
is `none` when the argument is `undefined`, and the assignment then unsets the path. -/
def Order.withStatus (now : Timestamp) (newStatus : Option OrderStatus) (notes : Option String)
    (o : Order) : Order :=
  let o1 := { o with status := newStatus }
  let o2 := if truthy notes then { o1 with notes := notes } else o1
  if newStatus = some OrderStatus.delivered ∧ o2.actualDeliveryTime = none then
    { o2 with actualDeliveryTime := some now }
  else o2

/-- The instance method `updateStatus(newStatus, notes = '')`. -/
def Order.updateStatus (env : Env) (newStatus : Option OrderStatus) (notes : Option String)
    (o : Order) (db : Db) : Option (Order × Db) :=
  (o.withStatus env.now newStatus notes).save false false env db

/-- One field of the object spread `{...this.paymentDetails, ...paymentDetails}`. -/
def spreadField (old new : Option String) : Option String :=
  match new with
  | some v => some v
  | none => old

/-- The assignments of the instance method `processPayment`, before its `save`. -/
def Order.withPayment (paymentDetails : PaymentDetails) (o : Order) : Order :=
  let o1 := { o with paymentStatus := PaymentStatus.completed }
  let o2 := { o1 with paymentDetails :=
    { transactionId := spreadField o1.paymentDetails.transactionId paymentDetails.transactionId
      paymentGateway := spreadField o1.paymentDetails.paymentGateway paymentDetails.paymentGateway
      upiId := spreadField o1.paymentDetails.upiId paymentDetails.upiId
      cardLast4 := spreadField o1.paymentDetails.cardLast4 paymentDetails.cardLast4 } }
  if o2.status = some OrderStatus.pending then { o2 with status := some OrderStatus.confirmed }
  else o2

/-- The instance method `processPayment(paymentDetails)`. -/
def Order.processPayment (env : Env) (paymentDetails : PaymentDetails) (o : Order) (db : Db) :
    Option (Order × Db) :=
  (o.withPayment paymentDetails).save false false env db

/-! ## The product model (`models/Product.js`) -/

/-- The validators of the product schema that a value of type `Product` can fail. -/
def Product.validate (p : Product) : Bool :=
  decide (p.name ≠ "") && maxlength 100 (some p.name)
    && decide (p.description ≠ "") && maxlength 2000 (some p.description)
    && decide (0 ≤ p.price) && decide (0 ≤ p.stockQuantity)
    && p.images.all (fun i => decide (i.url ≠ "") && decide (i.publicId ≠ ""))
    && p.reviews.all (fun r => decide (1 ≤ r.rating) && decide (r.rating ≤ 5)
        && maxlength 500 r.comment)
    && decide (0 ≤ p.averageRating) && decide (p.averageRating ≤ 5)

/-- The second replacement of the slug hook (pattern: one or more hyphens, global): every
run of hyphens becomes one hyphen. -/
def collapseHyphens : List Char → List Char
  | '-' :: '-' :: cs => collapseHyphens ('-' :: cs)
  | c :: cs => c :: collapseHyphens cs
  | [] => []

/-- The third replacement of the slug hook (pattern: a hyphen at the start or at the end,
global): one leading and one trailing hyphen are removed. -/
def stripHyphens (cs : List Char) : List Char :=
  let cs1 := match cs with
    | '-' :: rest => rest
    | other => other
  match cs1.reverse with
  | '-' :: rest => rest.reverse
  | _ => cs1

/-- The value of `toLowerCase()` on one character, as far as the slug can tell. The capitals
of ASCII become small letters. Outside ASCII two characters have a lower case with an ASCII
letter in it: the Kelvin sign (k) and the capital I with a dot above (i, then a combining
dot). The lower case of every other character outside ASCII lies outside ASCII and becomes
one or more hyphens at the next step, which the step after it collapses into one; such a
character is kept as it is. -/
def toLowerCase (c : Char) : List Char :=
  if c.val = 0x212A then ['k']
  else if c.val = 0x0130 then ['i', Char.ofNat 0x0307]
  else [c.toLower]

/-- The name part of the slug: lower case, every character outside `[a-zA-Z0-9]` replaced
by a hyphen, runs of hyphens collapsed, the hyphens at both ends removed. -/
def slugify (name : String) : String :=
  String.mk (stripHyphens (collapseHyphens
    ((name.toList.flatMap toLowerCase).map fun c => if c.isAlphanum then c else '-')))

/-- The first `pre('save')` hook of the product schema: slug and `updatedAt`. -/
def Product.preSaveSlug (nameModified : Bool) (hookNow : Timestamp) (p : Product) : Product :=
  let p1 := if nameModified then { p with slug := slugify p.name ++ "-" ++ toString p._id } else p
  { p1 with updatedAt := hookNow }

/-- The second `pre('save')` hook of the product schema: average rating and review count. -/
def Product.preSaveRating (p : Product) : Product :=
  if 0 < p.reviews.length then
    let totalRating : Int := p.reviews.foldl (fun sum review => sum + review.rating) 0
    { p with averageRating := (totalRating : ℚ) / (p.reviews.length : ℚ)
             totalReviews := p.reviews.length }
  else { p with averageRating := 0, totalReviews := 0 }

/-- The third `pre('save')` hook of the product schema: stock status. -/
def Product.preSaveStock (p : Product) : Product :=
  if p.stockQuantity = 0 ∧ p.status = ProductStatus.active then
    { p with status := ProductStatus.out_of_stock }
  else if 0 < p.stockQuantity ∧ p.status = ProductStatus.out_of_stock then
    { p with status := ProductStatus.active }
  else p

/-- The assignment `product.stock.quantity = quantity`. -/
def Product.withStock (quantity : Int) (p : Product) : Product :=
  { p with stockQuantity := quantity }

/-- The three pre-save hooks of the product schema, in registration order. -/
def Product.preSave (nameModified : Bool) (hookNow : Timestamp) (p : Product) : Product :=
  ((p.preSaveSlug nameModified hookNow).preSaveRating).preSaveStock

/-- The method `save` of a stored product document: validation, then the hooks, then the
write; `none` when a validator rejects the document. The unique index on `slug` is left
out: a slug ends in the identifier of its document. -/
def Product.save (nameModified : Bool) (env : Env) (p : Product) (db : Db) :
    Option (Product × Db) :=
  if !p.validate then none
  else
    let p1 := p.preSave nameModified env.hookNow
    some (p1, db.replaceProduct p1)

/-! ## The order routes (`routes/orders.js`) -/

/-- An error envelope: `res.status(code).json` with `success: false` and a message. -/
def Response.error (code : Nat) (message : String) : Response :=
  { status := code, success := false, message := some message }

/-- The envelope every route answers when `validationResult(req)` is not empty. -/
def validationFailed : Response := Response.error 400 "Validation failed"

/-- The document `new Order` builds in the create route, from the sanitized body, the
product and its populated seller: estimated delivery time (30 minutes for pickup, 2 hours
for delivery), order number, total amount (`product.price * quantity`, a multiplication of
doubles), and the schema defaults for the rest. -/
def newOrder (env : Env) (user : User) (body : CreateOrderBody) (product : Product)
    (seller : User) : Order :=
  let deliveryType := body.deliveryType.getD DeliveryType.pickup
  let estimatedDeliveryTime :=
    if deliveryType = DeliveryType.pickup then env.now + 30 * 60 * 1000
    else env.now + 2 * 60 * 60 * 1000
  let orderNumber := "ORD-" ++ toString env.stamp ++ "-" ++ env.random
  let totalAmount := toDouble (product.price * (body.quantity : ℚ))
  { _id := env.newId
    orderNumber := orderNumber
    buyer := user._id
    seller := seller._id
    product := body.productId
    quantity := body.quantity
    unitPrice := product.price
    totalAmount := totalAmount
    paymentMethod := body.paymentMethod
    deliveryAddress := if deliveryType = DeliveryType.delivery then body.deliveryAddress else none
    deliveryType := deliveryType
    estimatedDeliveryTime := some estimatedDeliveryTime
    notes := body.notes }

/-- The handler of `POST /api/orders` (create new order), run for the authenticated
principal `user`. -/
def createOrder (env : Env) (user : User) (body : CreateOrderBody) (db : Db) : Response × Db :=
  if !createOrderValidation body then (validationFailed, db)
  else
    let body := body.sanitize
    match db.findProduct body.productId with
    | none => (Response.error 404 "Product not found", db)
    | some product =>
      if product.status ≠ ProductStatus.active then
        (Response.error 400 "Product is not available for order", db)
      else if product.stockQuantity < body.quantity then
        (Response.error 400
          ("Only " ++ toString product.stockQuantity ++ " items available in stock"), db)
      else
        -- `populate('seller')` leaves `null` when the user is gone; `product.seller._id` throws
        match db.findUser product.seller with
        | none => (Response.error 500 "Server error while creating order", db)
        | some seller =>
          if seller._id = user._id then
            (Response.error 400 "You cannot order your own product", db)
          else
            match (newOrder env user body product seller).save true true env db with
            | none => (Response.error 500 "Server error while creating order", db)
            | some (saved, db1) =>
              ({ status := 201, success := true, message := some "Order created successfully"
                 order := some saved }, db1)

/-- The handler of `GET /api/orders/:orderId` (single order details). -/
def getOrder (user : User) (orderId : ObjectId) (db : Db) : Response × Db :=
  match db.findOrder orderId with
  | none => (Response.error 404 "Order not found", db)
  | some order =>
    -- `order.buyer._id` and `order.seller._id` are read on the populated references
    match db.findUser order.buyer with
    | none => (Response.error 500 "Server error while fetching order", db)
    | some buyer =>
      if buyer._id = user._id then
        ({ status := 200, success := true, message := none, order := some order }, db)
      else
        match db.findUser order.seller with
        | none => (Response.error 500 "Server error while fetching order", db)
        | some seller =>
          if seller._id = user._id then
            ({ status := 200, success := true, message := none, order := some order }, db)
          else (Response.error 403 "Access denied", db)

/-- The handler of `PUT /api/orders/:orderId/status` (update order status, seller only). -/
def updateStatus (env : Env) (user : User) (orderId : ObjectId) (body : UpdateOrderBody)
    (db : Db) : Response × Db :=
  if !updateOrderValidation body then (validationFailed, db)
  else
    let body := body.sanitize
    match db.findOrder orderId with
    | none => (Response.error 404 "Order not found", db)
    | some order =>
      if order.seller ≠ user._id then
        (Response.error 403 "Only the seller can update order status", db)
      else
        match order.updateStatus env body.status body.notes db with
        | none => (Response.error 500 "Server error while updating order status", db)
        | some (saved, db1) =>
          ({ status := 200, success := true
             message := some "Order status updated successfully", order := some saved }, db1)

/-- The handler of `POST /api/orders/:orderId/payment` (process payment for order). -/
def processPayment (env : Env) (user : User) (orderId : ObjectId) (body : PaymentDetails)
    (db : Db) : Response × Db :=
  if !paymentValidation body then (validationFailed, db)
  else
    let paymentDetails := body.sanitize
    match db.findOrder orderId with
    | none => (Response.error 404 "Order not found", db)
    | some order =>
      if order.buyer ≠ user._id then
        (Response.error 403 "Only the buyer can process payment", db)
      else if order.paymentStatus = PaymentStatus.completed then
        (Response.error 400 "Payment already completed for this order", db)
      else
        match order.processPayment env paymentDetails db with
        | none => (Response.error 500 "Server error while processing payment", db)
        | some (saved, db1) =>
          let paid : Response :=
            { status := 200, success := true
              message := some "Payment processed successfully", order := some saved }
          match db1.findProduct saved.product with
          | none => (paid, db1)
          | some product =>
            match (product.withStock (max 0 (product.stockQuantity - saved.quantity))).save
              false env db1 with
            | none => (Response.error 500 "Server error while processing payment", db1)
            | some (_, db2) => (paid, db2)

/-- The argument `reason || 'Order cancelled by user'` of the cancel route: the given
reason, or the default text when the reason is absent or empty. -/
def cancelNotes (reason : Option String) : Option String :=
  if truthy reason then reason else some "Order cancelled by user"

/-- The handler of `POST /api/orders/:orderId/cancel` (cancel order). -/
def cancelOrder (env : Env) (user : User) (orderId : ObjectId) (body : CancelBody) (db : Db) :
    Response × Db :=
  match db.findOrder orderId with
  | none => (Response.error 404 "Order not found", db)
  | some order =>
    let canCancel := decide (order.buyer = user._id) || decide (order.seller = user._id)
    if !canCancel then (Response.error 403 "Access denied", db)
    else if order.status = some OrderStatus.delivered
        ∨ order.status = some OrderStatus.cancelled then
      (Response.error 400 "Order cannot be cancelled", db)
    else
      match order.updateStatus env (some OrderStatus.cancelled) (cancelNotes body.reason) db with
      | none => (Response.error 500 "Server error while cancelling order", db)
      | some (saved, db1) =>
        ({ status := 200, success := true, message := some "Order cancelled successfully"
           order := some saved }, db1)

/-! ## Requests and runs -/

/-- A request to one of the order routes. -/
inductive Request
  | createOrder (body : CreateOrderBody)
  | getOrder (orderId : ObjectId)
  | updateStatus (orderId : ObjectId) (body : UpdateOrderBody)
  | processPayment (orderId : ObjectId) (body : PaymentDetails)
  | cancelOrder (orderId : ObjectId) (body : CancelBody)
  deriving DecidableEq

/-- The router: the handler of the request, run for the authenticated principal. -/
def handle (env : Env) (user : User) (req : Request) (db : Db) : Response × Db :=
  match req with
  | Request.createOrder body => createOrder env user body db
  | Request.getOrder orderId => getOrder user orderId db
  | Request.updateStatus orderId body => updateStatus env user orderId body db
  | Request.processPayment orderId body => processPayment env user orderId body db
  | Request.cancelOrder orderId body => cancelOrder env user orderId body db

/-- The store after a sequence of requests, served one after the other. -/
def run (db : Db) : List (Env × User × Request) → Db
  | [] => db
  | (env, user, req) :: rest => run (handle env user req db).2 rest

/-! ## The product model, continued: stock and reviews -/

/-- Values of the `operation` argument of `updateStock` that the stock route lets through;
`other` stands for any text that is neither `add` nor `subtract` nor `set`. -/
inductive StockOperation
  | set | add | subtract | other
  deriving DecidableEq, Repr

/-- The assignment of the instance method `updateStock`, before its `save`. -/
def Product.withUpdatedStock (quantity : Int) (operation : StockOperation) (p : Product) :
    Product :=
  if operation = StockOperation.add then p.withStock (p.stockQuantity + quantity)
  else if operation = StockOperation.subtract then
    p.withStock (max 0 (p.stockQuantity - quantity))
  else p.withStock (max 0 quantity)

/-- The instance method `updateStock(quantity, operation = 'set')`. -/
def Product.updateStock (env : Env) (quantity : Int) (operation : StockOperation) (p : Product)
    (db : Db) : Option (Product × Db) :=
  (p.withUpdatedStock quantity operation).save false env db

/-- The in-place update of `existingReview`, the first review of the user. -/
def updateFirstReview (userId : ObjectId) (f : Review → Review) : List Review → List Review
  | [] => []
  | r :: rs => if r.user = userId then f r :: rs else r :: updateFirstReview userId f rs

/-- The assignments of the instance method `addReview`, before its `save`: the first review
of the user, when there is one, gets the new rating, comment and date; otherwise a review
is pushed. -/
def Product.withReview (now : Timestamp) (userId : ObjectId) (rating : Int)
    (comment : Option String) (p : Product) : Product :=
  match p.reviews.find? (fun review => decide (review.user = userId)) with
  | some _ =>
    let reviews := updateFirstReview userId
      (fun review => { review with rating := rating, comment := comment, createdAt := now })
      p.reviews
    { p with reviews := reviews }
  | none =>
    let review : Review := { user := userId, rating := rating, comment := comment, createdAt := now }
    { p with reviews := p.reviews ++ [review] }

/-- The instance method `addReview(userId, rating, comment)`. -/
def Product.addReview (env : Env) (userId : ObjectId) (rating : Int) (comment : Option String)
    (p : Product) (db : Db) : Option (Product × Db) :=
  (p.withReview env.now userId rating comment).save false env db

/-! ## The middleware (`middleware/auth.js`) -/

/-- What a middleware does with a request: it answers, or it calls `next`, handing on what
it attached to the request. -/
inductive Outcome (α : Type)
  | respond (r : Response)
  | next (attached : α)
  deriving DecidableEq

/-- The parts of a request the authentication middleware reads: the header
`req.headers.authorization` and the value of `req.cookies && req.cookies.token`. -/
structure AuthRequest where
  authorization : Option String := none
  cookieToken : Option String := none
  deriving DecidableEq

/-- The parts of `s.split(' ')`, on lists of characters. -/
def splitOnSpace : List Char → List (List Char)
  | [] => [[]]
  | c :: cs =>
    if c = ' ' then [] :: splitOnSpace cs
    else
      match splitOnSpace cs with
      | [] => [[c]]
      | part :: parts => (c :: part) :: parts

/-- The test `s.startsWith('Bearer')`. -/
def startsWithBearer (s : String) : Bool :=
  decide (s.toList.take 6 = "Bearer".toList)

/-- The variable `token` after the two checks: the second part of the Authorization
header when the header starts with `Bearer`, and the token of the cookie otherwise. -/
def requestToken (req : AuthRequest) : Option String :=
  match req.authorization with
  | some header =>
    if startsWithBearer header then ((splitOnSpace header.toList).get? 1).map String.mk
    else req.cookieToken
  | none => req.cookieToken

/-- The middleware `authenticate`. The argument `verify` is `jwt.verify` with the secret of
the server, followed by the field `id` of the decoded payload: `none` when it throws. -/
def authenticate (verify : String → Option ObjectId) (req : AuthRequest) (db : Db) :
    Outcome User :=
  match requestToken req with
  | none => Outcome.respond (Response.error 401 "Access denied. No token provided.")
  | some token =>
    if token = "" then
      Outcome.respond (Response.error 401 "Access denied. No token provided.")
    else
      match verify token with
      | none => Outcome.respond (Response.error 401 "Invalid token")
      | some id =>
        match db.findUser id with
        | none => Outcome.respond (Response.error 401 "Token is valid but user not found")
        | some user =>
          if !user.isActive then
            Outcome.respond (Response.error 401 "Account has been deactivated")
          else Outcome.next user

/-- The middleware `optionalAuth`; what it hands on is `req.user`, set or not. -/
def optionalAuth (verify : String → Option ObjectId) (req : AuthRequest) (db : Db) :
    Outcome (Option User) :=
  match requestToken req with
  | none => Outcome.next none
  | some token =>
    if token = "" then Outcome.next none
    else
      match verify token with
      | none => Outcome.next none
      | some id =>
        match db.findUser id with
        | none => Outcome.next none
        | some user => if user.isActive then Outcome.next (some user) else Outcome.next none

/-- The text of a role, as stored in `role`. -/
def Role.text : Role → String
  | Role.buyer => "buyer"
  | Role.seller => "seller"

/-- The middleware `authorize(...roles)`, given `req.user`. -/
def authorize (roles : List String) (user : Option User) : Outcome Unit :=
  match user with
  | none => Outcome.respond (Response.error 401 "Access denied. Please authenticate first.")
  | some u =>
    if !roles.contains u.role.text then
      Outcome.respond (Response.error 403
        ("Access denied. Required role: " ++ " or ".intercalate roles ++ ". Your role: "
          ++ u.role.text))
    else Outcome.next ()

/-- The middleware `requireSeller`. -/
def requireSeller : Option User → Outcome Unit := authorize ["seller"]

/-- The middleware `requireBuyer`. -/
def requireBuyer : Option User → Outcome Unit := authorize ["buyer"]

/-- A Mongoose model as `checkOwnership` uses it: the query `findById`, and the fields `_id`
and `seller` of a document (`seller` is `none` where the schema has no such path). -/
structure Model (α : Type) where
  findById : Db → ObjectId → Option α
  _id : α → ObjectId
  seller : α → Option ObjectId

/-- The model `Product`. -/
def productModel : Model Product :=
  { findById := Db.findProduct, _id := Product._id, seller := fun p => some p.seller }

/-- The model `User`. -/
def userModel : Model User :=
  { findById := Db.findUser, _id := User._id, seller := fun _ => none }

/-- The model `Order`. -/
def orderModel : Model Order :=
  { findById := Db.findOrder, _id := Order._id, seller := fun o => some o.seller }

/-- The middleware `checkOwnership(Model)`, run for the authenticated principal on the
route parameter `id`; what it hands on is `req.resource`. -/
def checkOwnership {α : Type} (model : Model α) (user : User) (resourceId : ObjectId) (db : Db) :
    Outcome α :=
  match model.findById db resourceId with
  | none => Outcome.respond (Response.error 404 "Resource not found")
  | some resource =>
    if (match model.seller resource with
        | some seller => decide (seller ≠ user._id)
        | none => false) then
      Outcome.respond
        (Response.error 403 "Access denied. You can only access your own resources.")
    else if decide (model._id resource ≠ user._id) && (model.seller resource).isNone then
      Outcome.respond
        (Response.error 403 "Access denied. You can only access your own profile.")
    else Outcome.next resource

/-- The reply of the rate limiter when it refuses: the envelope and `retryAfter`. -/
structure RateLimitReply where
  status : Nat
  success : Bool
  message : String
  retryAfter : Nat
  deriving DecidableEq

/-- The map `requests` of one `rateLimit` instance: for an identifier, the times recorded
for it, `none` when the map has no entry. -/
abbrev RequestLog := String → Option (List Timestamp)

/-- The map of a new `rateLimit` instance. -/
def RequestLog.empty : RequestLog := fun _ => none

/-- The middleware returned by `rateLimit(maxRequests, windowMs)`, on the map `requests`,
for a request of the identity `identifier` (the id of `req.user`, or `req.ip`) at the
clock reading `now`: `none` in the first component when it calls `next`. -/
def rateLimit (maxRequests windowMs : Nat) (requests : RequestLog) (identifier : String)
    (now : Timestamp) : Option RateLimitReply × RequestLog :=
  let windowStart : Int := (now : Int) - (windowMs : Int)
  -- clean old entries
  let requests1 : RequestLog :=
    match requests identifier with
    | some times =>
      Function.update requests identifier
        (some (times.filter fun time => decide ((time : Int) > windowStart)))
    | none => requests
  -- check current request count
  let currentRequests := (requests1 identifier).getD []
  if currentRequests.length ≥ maxRequests then
    (some { status := 429, success := false
            message := "Too many requests. Please try again later."
            retryAfter := (windowMs + 999) / 1000 }, requests1)
  else
    (none, Function.update requests1 identifier (some (currentRequests ++ [now])))

/-- A sequence of requests, each with its identifier and clock reading, served one after
the other by one `rateLimit` instance: for each request whether it was passed on, and the
map afterwards. -/
def rateLimitRun (maxRequests windowMs : Nat) :
    RequestLog → List (String × Timestamp) → List Bool × RequestLog
  | requests, [] => ([], requests)
  | requests, (identifier, now) :: rest =>
    let step := rateLimit maxRequests windowMs requests identifier now
    let later := rateLimitRun maxRequests windowMs step.2 rest
    (step.1.isNone :: later.1, later.2)

/-! ## The product routes (`routes/products.js`) -/

/-- The remote media host: the public ids of the images it holds, and the public ids for
which its `destroy` call is rejected. -/
structure Cloud where
  images : List String := []
  failing : List String := []
  deriving DecidableEq

/-- What the product routes act on: the store and the remote media host. -/
structure World where
  db : Db
  cloud : Cloud := {}
  deriving DecidableEq

/-- The helper `deleteImage(publicId)` of `config/cloudinary.js`: `none` when `destroy` is
rejected and the error is thrown on. -/
def deleteImage (publicId : String) (cloud : Cloud) : Option Cloud :=
  if cloud.failing.contains publicId then none
  else some { cloud with images := cloud.images.filter fun i => decide (i ≠ publicId) }

/-- The body of `POST /api/products/:id/reviews`. -/
structure ReviewBody where
  rating : Int
  comment : Option String := none
  deriving DecidableEq

/-- The rules of `reviewValidation`. -/
def reviewValidation (b : ReviewBody) : Bool :=
  decide (1 ≤ b.rating) && decide (b.rating ≤ 5)
    && optional (fun s => isLength 0 500 (trim s)) b.comment

/-- The body after the sanitizers of `reviewValidation` have run. -/
def ReviewBody.sanitize (b : ReviewBody) : ReviewBody :=
  { b with comment := trimField b.comment }

/-- The handler of `POST /api/products/:id/reviews` (add product review), behind
`authenticate`. -/
def addReview (env : Env) (user : User) (productId : ObjectId) (body : ReviewBody) (db : Db) :
    Response × Db :=
  if !reviewValidation body then (validationFailed, db)
  else
    let body := body.sanitize
    match db.findProduct productId with
    | none => (Response.error 404 "Product not found", db)
    | some product =>
      if product.seller = user._id then
        (Response.error 400 "You cannot review your own product", db)
      else
        match product.addReview env user._id body.rating body.comment db with
        | none => (Response.error 500 "Server error while adding review", db)
        | some (saved, db1) =>
          ({ status := 201, success := true, message := some "Review added successfully"
             product := some saved }, db1)

/-- The body of `PUT /api/products/:id/stock`. -/
structure StockBody where
  quantity : Int
  operation : Option StockOperation := none
  deriving DecidableEq

/-- The rules of the stock route: a non-negative integer, and an operation that, when
given, is one of `set`, `add`, `subtract`. -/
def stockValidation (b : StockBody) : Bool :=
  decide (0 ≤ b.quantity) && decide (b.operation ≠ some StockOperation.other)

/-- The handler of `PUT /api/products/:id/stock` (update product stock) with its
middleware `requireSeller` and `checkOwnership(Product)`, behind `authenticate`. The
product of the answer stands for the fields `_id`, `name`, `stock`, `status` it lists. -/
def updateStock (env : Env) (user : User) (id : ObjectId) (body : StockBody) (w : World) :
    Response × World :=
  match requireSeller (some user) with
  | Outcome.respond r => (r, w)
  | Outcome.next _ =>
    match checkOwnership productModel user id w.db with
    | Outcome.respond r => (r, w)
    | Outcome.next product =>
      if !stockValidation body then (validationFailed, w)
      else
        let operation := body.operation.getD StockOperation.set
        match product.updateStock env body.quantity operation w.db with
        | none => (Response.error 500 "Server error while updating stock", w)
        | some (saved, db1) =>
          ({ status := 200, success := true, message := some "Stock updated successfully"
             product := some saved }, { w with db := db1 })

/-- The removal of a product document (`Product.findByIdAndDelete`). -/
def Db.deleteProduct (db : Db) (id : ObjectId) : Db :=
  { db with products := db.products.filter fun p => decide (p._id ≠ id) }

/-- A loop of `deleteImage` calls over public ids, in order: the media host afterwards, and
whether every call succeeded (the loop stops at the first call that throws). -/
def deleteImages : List String → Cloud → Bool × Cloud
  | [], cloud => (true, cloud)
  | publicId :: rest, cloud =>
    match deleteImage publicId cloud with
    | none => (false, cloud)
    | some cloud1 => deleteImages rest cloud1

/-- The handler of `DELETE /api/products/:id` (delete product) with its middleware
`requireSeller` and `checkOwnership(Product)`, behind `authenticate`. -/
def deleteProduct (user : User) (id : ObjectId) (w : World) : Response × World :=
  match requireSeller (some user) with
  | Outcome.respond r => (r, w)
  | Outcome.next _ =>
    match checkOwnership productModel user id w.db with
    | Outcome.respond r => (r, w)
    | Outcome.next product =>
      match deleteImages (product.images.map Image.publicId) w.cloud with
      | (false, cloud1) =>
        (Response.error 500 "Server error while deleting product", { w with cloud := cloud1 })
      | (true, cloud1) =>
        ({ status := 200, success := true, message := some "Product deleted successfully" },
          { db := w.db.deleteProduct product._id, cloud := cloud1 })

/-- A file of `req.files`, already stored by the upload middleware: its `path` (the URL)
and its `filename` (the public id). -/
structure UploadedFile where
  path : String
  filename : String
  deriving DecidableEq

/-- The body of `PUT /api/products/:id`, with the numbers and the list of `removeImages`
already parsed (`parseFloat`, `parseInt`, `JSON.parse`); the fields of paths the product
model here does not carry are left out. -/
structure UpdateProductBody where
  name : Option String := none
  description : Option String := none
  price : Option ℚ := none
  status : Option ProductStatus := none
  stockQuantity : Option Int := none
  removeImages : Option (List String) := none
  deriving DecidableEq

/-- The field updates of the update route; the schema trims `name` when it is set. -/
def Product.withFields (body : UpdateProductBody) (p : Product) : Product :=
  let p1 := if truthy body.name then { p with name := trim (body.name.getD "") } else p
  let p2 := if truthy body.description then { p1 with description := body.description.getD "" }
    else p1
  let p3 := match body.price with
    | some price => { p2 with price := price }
    | none => p2
  let p4 := match body.status with
    | some status => { p3 with status := status }
    | none => p3
  match body.stockQuantity with
  | some quantity => { p4 with stockQuantity := quantity }
  | none => p4

/-- The loop over `imagesToRemove` of the update route: each public id is released at the
media host and then filtered out of the images of the product; `none` in the first
component when a release throws. -/
def removeImages : List String → List Image → Cloud → Option (List Image) × Cloud
  | [], images, cloud => (some images, cloud)
  | publicId :: rest, images, cloud =>
    match deleteImage publicId cloud with
    | none => (none, cloud)
    | some cloud1 =>
      removeImages rest (images.filter fun img => decide (img.publicId ≠ publicId)) cloud1

/-- The assignment `product.images[0].isPrimary = true`. -/
def markFirstPrimary : List Image → List Image
  | [] => []
  | img :: rest => { img with isPrimary := true } :: rest

/-- The handler of `PUT /api/products/:id` (update product) with its middleware
`requireSeller`, `checkOwnership(Product)` and the upload of `newImages`, behind
`authenticate`. -/
def updateProduct (env : Env) (user : User) (id : ObjectId) (body : UpdateProductBody)
    (files : List UploadedFile) (w : World) : Response × World :=
  match requireSeller (some user) with
  | Outcome.respond r => (r, w)
  | Outcome.next _ =>
    match checkOwnership productModel user id w.db with
    | Outcome.respond r => (r, w)
    | Outcome.next product =>
      -- `upload.array('newImages', 5)` has stored the files at the media host
      let cloud0 := { w.cloud with images := w.cloud.images ++ files.map UploadedFile.filename }
      let product1 := product.withFields body
      match removeImages (body.removeImages.getD []) product1.images cloud0 with
      | (none, cloud1) =>
        (Response.error 500 "Server error while updating product", { w with cloud := cloud1 })
      | (some kept, cloud1) =>
        let newImages : List Image := files.map fun file =>
          { url := file.path, publicId := file.filename, isPrimary := decide (kept.length = 0) }
        let images := kept ++ newImages
        if images.length = 0 then
          (Response.error 400 "Product must have at least one image", { w with cloud := cloud1 })
        else
          let hasPrimary := images.any fun img => img.isPrimary
          let images1 := if !hasPrimary then markFirstPrimary images else images
          let product2 := { product1 with images := images1 }
          match product2.save (decide (product1.name ≠ product.name)) env w.db with
          | none =>
            (Response.error 500 "Server error while updating product", { w with cloud := cloud1 })
          | some (saved, db1) =>
            ({ status := 200, success := true, message := some "Product updated successfully"
               product := some saved }, { db := db1, cloud := cloud1 })

/-! ## Notions of the specification -/

/-- The status lifecycle as the specification draws it: the four forward steps, and
cancellation from every status but `delivered` and `cancelled`. -/
def specTransition (a b : OrderStatus) : Bool :=
  match a, b with
  | OrderStatus.pending, OrderStatus.confirmed => true
  | OrderStatus.confirmed, OrderStatus.preparing => true
  | OrderStatus.preparing, OrderStatus.ready => true
  | OrderStatus.ready, OrderStatus.delivered => true
  | x, OrderStatus.cancelled => decide (x ≠ OrderStatus.delivered ∧ x ≠ OrderStatus.cancelled)
  | _, _ => false

/-- The arithmetic mean as the specification uses it: the sum over the count, and 0 for
the empty list. -/
def specMean (ratings : List Int) : ℚ :=
  if ratings = [] then 0 else ((ratings.sum : Int) : ℚ) / (ratings.length : ℚ)

/-! ## The scenario of the specification

Seller A lists a pizza at 18.99 with 50 pieces in stock; buyer B orders 3 and pays. -/

/-- Seller A. -/
def sellerA : User := { _id := 1, role := Role.seller }

/-- Buyer B. -/
def buyerB : User := { _id := 2 }

/-- A third principal, party to no order. -/
def buyerC : User := { _id := 3 }

/-- The listing of seller A. -/
def pizza : Product :=
  { _id := 10, name := "Margherita Pizza", description := "Classic pizza"
    price := toDouble 18.99
    stockQuantity := 50, seller := 1 }

/-- The store before any order. -/
def shop : Db := { users := [sellerA, buyerB, buyerC], products := [pizza] }

/-- An environment: clock readings, random text and fresh identifier. -/
def env1 : Env := { now := 1000, stamp := 1001, hookNow := 1002, random := "K3J9X2A1B", newId := 100 }

/-- A later environment. -/
def env2 : Env := { now := 2000, stamp := 2001, hookNow := 2002, random := "Z8Y7W6V5U", newId := 101 }

/-- The order of buyer B: three pizzas. -/
def orderBody : CreateOrderBody :=
  { productId := 10, quantity := 3, paymentMethod := PaymentMethod.upi }

/-- The payment of buyer B. -/
def payBody : PaymentDetails := { transactionId := some "TXN-0001", paymentGateway := some "demo" }

/-- The store once buyer B has ordered. -/
def shopOrdered : Db := (createOrder env1 buyerB orderBody shop).2

/-- The order buyer B has placed, as stored. -/
def placedOrder : Order :=
  { _id := 100, orderNumber := "ORD10020001", buyer := 2, seller := 1, product := 10
    quantity := 3, unitPrice := toDouble 18.99, totalAmount := toDouble 56.97
    paymentMethod := PaymentMethod.upi, estimatedDeliveryTime := some 1801000 }

/-- Notes of 300 characters outside the basic plane (U+1F600): 600 UTF-16 code units. -/
def astralNotes : String := String.mk (List.replicate 300 (Char.ofNat 0x1F600))

/-- The order of buyer B for three pizzas, with the long notes. -/
def orderWithNotes : CreateOrderBody := { orderBody with notes := some astralNotes }

/-- A reason of 501 characters. -/
def longReason : String := String.mk (List.replicate 501 'x')

/-- The store once seller A has marked the order of buyer B as delivered. -/
def shopDelivered : Db :=
  (updateStatus env2 sellerA 100 { status := OrderStatus.delivered } shopOrdered).2

/-- The order of buyer B once delivered, as stored. -/
def deliveredOrder : Order :=
  { placedOrder with status := OrderStatus.delivered, actualDeliveryTime := some 2000 }

/-- The pizza with three reviews and an average rating not yet recomputed. -/
def reviewedPizza : Product :=
  { pizza with
    reviews := [{ user := 2, rating := 5 }, { user := 3, rating := 4 }, { user := 4, rating := 4 }] }

/-- The store with the reviewed pizza. -/
def shopReviewed : Db := { shop with products := [reviewedPizza] }

/-- The pizza sold out, its status not yet derived. -/
def soldOutPizza : Product := { pizza with stockQuantity := 0 }

/-- The store with the sold-out pizza. -/
def shopSoldOut : Db := { shop with products := [soldOutPizza] }

/-- The shop and a media host that holds the image of the pizza. -/
def shopWorld : World := { db := shop, cloud := { images := ["pizza-1"] } }

/-- A request of seller A to take 70 pieces off the stock of 50. -/
def takeSeventy : StockBody := { quantity := 70, operation := some StockOperation.subtract }

/-- A later review of buyer B. -/
def secondThoughts : Product := reviewedPizza.withReview 3000 2 1 (some "cold on arrival")

/-- Seller D, a second seller, who has no listing. -/
def sellerD : User := { _id := 4, role := Role.seller }

/-- A review with five stars. -/
def fiveStars : ReviewBody := { rating := 5, comment := some "great" }

/-- Buyer E, whose account has been deactivated. -/
def buyerE : User := { _id := 5, role := Role.buyer, isActive := false }

/-- The shop with the deactivated account of buyer E among its users. -/
def shopWithE : Db := { shop with users := shop.users ++ [buyerE] }

/-- The tokens the server has signed in the scenario: one for buyer B, one for buyer E and
one for a user with id 9, who is not stored; every other text fails the verification. -/
def sessionTokens (token : String) : Option ObjectId :=
  if token = "token-of-B" then some 2
  else if token = "token-of-E" then some 5
  else if token = "token-of-nobody" then some 9
  else none

/-- A request of buyer B, with the token in the Authorization header. -/
def requestOfB : AuthRequest := { authorization := some "Bearer token-of-B" }

/-! ## Notions for the rate limiter -/

/-- The test `time > windowStart` of the limiter, for a request at the clock reading `t`. -/
def recent (windowMs : Nat) (t : Timestamp) (time : Timestamp) : Bool :=
  decide ((time : Int) > (t : Int) - (windowMs : Int))

/-- Whether a clock reading lies in the interval that ends at `t`, closed there, and is
`windowMs` long, open at its start. -/
def inWindow (windowMs : Nat) (t : Int) (time : Timestamp) : Bool :=
  decide (t - (windowMs : Int) < (time : Int)) && decide ((time : Int) ≤ t)

/-- The clock readings of the requests that were passed on, given the clock readings of the
requests and, for each, whether it was passed on. -/
def acceptedTimes : List Timestamp → List Bool → List Timestamp
  | t :: ts, true :: flags => t :: acceptedTimes ts flags
  | _ :: ts, false :: flags => acceptedTimes ts flags
  | _, _ => []

/-- The decisions on the requests of one identifier, picked from the decisions on all
requests of a run. -/
def decisionsOf (identifier : String) : List (String × Timestamp) → List Bool → List Bool
  | (j, _) :: reqs, flag :: flags =>
    if j = identifier then flag :: decisionsOf identifier reqs flags
    else decisionsOf identifier reqs flags
  | _, _ => []

/-- The clock readings of the requests of one identifier in a run. -/
def timesOf (identifier : String) (reqs : List (String × Timestamp)) : List Timestamp :=
  (reqs.filter fun r => decide (r.1 = identifier)).map Prod.snd

/-- The decisions as the specification states them: with `accepted` the clock readings of
the requests passed on so far, a request at `t` is refused when at least `maxRequests` of
them are later than `t - windowMs`, and passed on and counted otherwise. -/
def specDecisions (maxRequests windowMs : Nat) : List Timestamp → List Timestamp → List Bool
  | _, [] => []
  | accepted, t :: ts =>
    if maxRequests ≤ (accepted.filter (recent windowMs t)).length then
      false :: specDecisions maxRequests windowMs accepted ts
    else true :: specDecisions maxRequests windowMs (accepted ++ [t]) ts

/-- Five requests of one client, the third within a second of the first two. -/
def burst : List Timestamp := [0, 100, 200, 1000, 1100]

/-- An order of thirty pizzas. -/
def thirtyPizzas : CreateOrderBody :=
  { productId := 10, quantity := 30, paymentMethod := PaymentMethod.card }

/-- The store once buyer B and then buyer C have each ordered thirty pizzas. -/
def shopTwoOrders : Db :=
  (createOrder env2 buyerC thirtyPizzas (createOrder env1 buyerB thirtyPizzas shop).2).2

/-- The store once buyer B and then buyer C have paid their thirty pizzas. -/
def shopTwoPaid : Db :=
  (processPayment env2 buyerC 101 payBody (processPayment env1 buyerB 100 payBody shopTwoOrders).2).2

/-- The store with the order of buyer B cancelled before any payment. -/
def shopCancelled : Db := (cancelOrder env2 buyerB 100 {} shopOrdered).2

/-- The pizza with its one picture, the primary image. -/
def picturedPizza : Product :=
  { pizza with
    images := [{ url := "https://media.example/pizza-1.jpg", publicId := "pizza-1", isPrimary := true }] }

/-- The shop with the pictured pizza, and the media host that holds the picture. -/
def picturedWorld : World :=
  { db := { shop with products := [picturedPizza] }, cloud := { images := ["pizza-1"] } }

/-- An update that removes the picture of the pizza. -/
def replacePictures : UpdateProductBody := { removeImages := some ["pizza-1"] }

/-- Two new pictures, as the upload middleware hands them on. -/
def twoPictures : List UploadedFile :=
  [{ path := "https://media.example/pizza-2.jpg", filename := "pizza-2" },
   { path := "https://media.example/pizza-3.jpg", filename := "pizza-3" }]

/-- The pizza with three pictures. -/
def galleryPizza : Product :=
  { pizza with
    images := [{ url := "https://media.example/a.jpg", publicId := "a", isPrimary := true },
               { url := "https://media.example/b.jpg", publicId := "b" },
               { url := "https://media.example/c.jpg", publicId := "c" }] }

/-- The shop with the gallery pizza, and a media host that holds its three pictures and
refuses to release the second. -/
def galleryWorld : World :=
  { db := { shop with products := [galleryPizza] }
    cloud := { images := ["a", "b", "c"], failing := ["b"] } }

/-- A character of a slug: a small letter of ASCII, a digit or a hyphen. -/
def isSlugChar (c : Char) : Bool :=
  c.isLower || c.isDigit || decide (c = '-')

/-- No two hyphens follow one another in the list. -/
def NoTwoHyphens (l : List Char) : Prop :=
  List.Chain' (fun a b => ¬ (a = '-' ∧ b = '-')) l

/-! ## The list routes (`GET /api/products`, `GET /api/orders`) -/

/-- The value of `Math.ceil(total / limit)` for a limit of at least 1. -/
def ceilDiv (total limit : Nat) : Nat :=
  (total + limit - 1) / limit

/-- The object `pagination` of a list answer; `total` is `totalProducts` or `totalOrders`. -/
structure Pagination where
  currentPage : Nat
  totalPages : Nat
  total : Nat
  hasNextPage : Bool
  hasPrevPage : Bool
  deriving DecidableEq

/-- The object `pagination` both list routes build from the page, the limit and the count
of the matching documents. -/
def paginate (page limit total : Nat) : Pagination :=
  { currentPage := page
    totalPages := ceilDiv total limit
    total := total
    hasNextPage := decide (page < ceilDiv total limit)
    hasPrevPage := decide (page > 1) }

/-- The answer of a list route: the envelope, the documents of the page and the pagination
object. -/
structure Listing (α : Type) where
  status : Nat
  success : Bool
  message : Option String := none
  items : List α := []
  pagination : Option Pagination := none

/-- Values of the query parameter `sort`. -/
inductive ProductSort
  | price_asc | price_desc | rating_desc | newest | oldest | name_asc
  deriving DecidableEq, Repr

/-- The query of `GET /api/products`, its numbers parsed; `sort` is typed by the list of
values its validator accepts. The filters on paths this model does not carry (category,
the flags of `details`, the search pattern) are a predicate given to the route. -/
structure ProductQuery where
  page : Option Int := none
  limit : Option Int := none
  sort : Option ProductSort := none
  seller : Option ObjectId := none
  minPrice : Option ℚ := none
  maxPrice : Option ℚ := none
  deriving DecidableEq

/-- The validators of `GET /api/products` on the fields carried here. -/
def productQueryValidation (q : ProductQuery) : Bool :=
  (match q.page with
    | none => true
    | some page => decide (1 ≤ page))
    && (match q.limit with
      | none => true
      | some limit => decide (1 ≤ limit) && decide (limit ≤ 50))
    && (match q.minPrice with
      | none => true
      | some price => decide (0 ≤ price))
    && (match q.maxPrice with
      | none => true
      | some price => decide (0 ≤ price))

/-- The filter object of `GET /api/products` as a test on a product. -/
def productFilter (q : ProductQuery) (rest : Product → Bool) (p : Product) : Bool :=
  decide (p.status = ProductStatus.active)
    && (match q.seller with
      | none => true
      | some seller => decide (p.seller = seller))
    && (match q.minPrice with
      | none => true
      | some price => decide (price ≤ p.price))
    && (match q.maxPrice with
      | none => true
      | some price => decide (p.price ≤ price))
    && rest p

/-- The sort of `GET /api/products`. A collection lists its documents in the order of their
creation, so `createdAt` ascending keeps the list and `createdAt` descending reverses it. -/
def sortProducts : ProductSort → List Product → List Product
  | ProductSort.price_asc, l => l.insertionSort fun a b => a.price ≤ b.price
  | ProductSort.price_desc, l => l.insertionSort fun a b => b.price ≤ a.price
  | ProductSort.rating_desc, l =>
    l.insertionSort fun a b =>
      b.averageRating < a.averageRating
        ∨ (b.averageRating = a.averageRating ∧ b.totalReviews ≤ a.totalReviews)
  | ProductSort.newest, l => l.reverse
  | ProductSort.oldest, l => l
  | ProductSort.name_asc, l => l.insertionSort fun a b => a.name ≤ b.name

/-- The value of `parseInt(page)`, 1 when the query has no page. -/
def ProductQuery.pageNumber (q : ProductQuery) : Nat :=
  (q.page.getD 1).toNat

/-- The value of `parseInt(limit)`, 12 when the query has no limit. -/
def ProductQuery.pageSize (q : ProductQuery) : Nat :=
  (q.limit.getD 12).toNat

/-- The documents of `Product.find(filters).sort(sortOption)`, before `skip` and `limit`. -/
def foundProducts (q : ProductQuery) (rest : Product → Bool) (db : Db) : List Product :=
  sortProducts (q.sort.getD ProductSort.newest) (db.products.filter (productFilter q rest))

/-- The handler of `GET /api/products` (all products with filtering and pagination). -/
def listProducts (q : ProductQuery) (rest : Product → Bool) (db : Db) : Listing Product :=
  if !productQueryValidation q then
    { status := 400, success := false, message := some "Invalid query parameters" }
  else
    let skip := (q.pageNumber - 1) * q.pageSize
    let products := ((foundProducts q rest db).drop skip).take q.pageSize
    let totalProducts := (db.products.filter (productFilter q rest)).length
    { status := 200, success := true, items := products
      pagination := some (paginate q.pageNumber q.pageSize totalProducts) }

/-- The query of `GET /api/orders`, its numbers parsed. -/
structure OrderQuery where
  status : Option OrderStatus := none
  page : Option Int := none
  limit : Option Int := none
  deriving DecidableEq

/-- The validators of `GET /api/orders`; the rule on `status` holds by typing. -/
def orderQueryValidation (q : OrderQuery) : Bool :=
  (match q.page with
    | none => true
    | some page => decide (1 ≤ page))
    && (match q.limit with
      | none => true
      | some limit => decide (1 ≤ limit) && decide (limit ≤ 50))

/-- The query object of `findBySeller`, `findByBuyer` and of the count in `GET /api/orders`,
as a test on an order. -/
def orderFilter (user : User) (status : Option OrderStatus) (o : Order) : Bool :=
  (if user.role = Role.seller then decide (o.seller = user._id) else decide (o.buyer = user._id))
    && (match status with
      | none => true
      | some s => decide (o.status = some s))

/-- The value of `parseInt(page)`, 1 when the query has no page. -/
def OrderQuery.pageNumber (q : OrderQuery) : Nat :=
  (q.page.getD 1).toNat

/-- The value of `parseInt(limit)`, 20 when the query has no limit. -/
def OrderQuery.pageSize (q : OrderQuery) : Nat :=
  (q.limit.getD 20).toNat

/-- The documents of the query of `findBySeller` and `findByBuyer`, sorted by `createdAt`
descending, before `skip` and `limit`. A collection lists its documents in the order of
their creation; the query tests the stored documents. -/
def foundOrders (user : User) (q : OrderQuery) (db : Db) : List Order :=
  ((db.orders.filter (orderFilter user q.status)).reverse).map Order.hydrate

/-- The handler of `GET /api/orders` (the orders of the principal, as seller or as buyer),
with the static methods `findBySeller` and `findByBuyer`. -/
def listOrders (user : User) (q : OrderQuery) (db : Db) : Listing Order :=
  if !orderQueryValidation q then
    { status := 400, success := false, message := some "Validation failed" }
  else
    let skip := (q.pageNumber - 1) * q.pageSize
    let orders := ((foundOrders user q db).drop skip).take q.pageSize
    let totalOrders := (db.orders.filter (orderFilter user q.status)).length
    { status := 200, success := true, items := orders
      pagination := some (paginate q.pageNumber q.pageSize totalOrders) }

/-- The second page of the orders of buyer B, two a page. -/
def secondPage : OrderQuery := { page := some 2, limit := some 2 }

/-- A store with five orders of buyer B. -/
def shopFiveOrders : Db :=
  { shop with orders := (List.range 5).map fun i => { placedOrder with _id := 100 + i } }

/-! ## The vendor search (`GET /api/users/search/vendors`) -/

/-- The static method `findSellerByBusinessName` of the user schema: the first active seller
whose business name matches the pattern. `regexTest pattern text` is the match of
`new RegExp(pattern, 'i')` on `text`. -/
def findSellerByBusinessName (regexTest : String → String → Bool) (db : Db)
    (businessName : String) : Option User :=
  db.users.find? fun u =>
    decide (u.role = Role.seller)
      && (match u.businessName with
        | some name => regexTest businessName name
        | none => false)
      && u.isActive

/-- The property `User[name]` for a name that is not a method of a Mongoose model: the
schema defines one static method that takes a business name, `findSellerByBusinessName`,
and every other such name is `undefined` on the model. -/
def userStatic (regexTest : String → String → Bool) (name : String) :
    Option (Db → String → Option User) :=
  if name = "findSellerByBusinessName" then some (findSellerByBusinessName regexTest) else none

/-- The handler of `GET /api/users/search/vendors` (search vendors by business name). It
calls `User.findByBusinessName`; the call of an undefined property throws a TypeError,
which the `catch` block answers with 500. -/
def searchVendors (regexTest : String → String → Bool) (q : Option String) (db : Db) :
    Listing User :=
  if !truthy q || decide (utf16Length (trim (q.getD "")) < 2) then
    { status := 400, success := false
      message := some "Search query must be at least 2 characters long" }
  else
    match userStatic regexTest "findByBusinessName" with
    | none =>
      { status := 500, success := false, message := some "Server error while searching vendors" }
    | some find =>
      { status := 200, success := true, items := (find db (trim (q.getD ""))).toList }

/-- Seller F, with a business name. -/
def sellerF : User := { _id := 6, role := Role.seller, businessName := some "Green Valley Farm" }

/-- The shop with seller F among its users. -/
def shopWithF : Db := { shop with users := shop.users ++ [sellerF] }

/-- A stand-in for the pattern match: the pattern is the text. -/
def sameText (pattern text : String) : Bool :=
  decide (pattern = text)

/-! ## The account routes (`routes/auth.js`, `routes/users.js`) and the user model -/

/-- The library functions the account routes call and the validators of the user schema, as
functions of their arguments; the routes are modelled for every choice of them. -/
structure Lib where
  /-- The call `jwt.verify` with the secret of the server, followed by the field `id` of the
  decoded payload: `none` when it throws. -/
  verify : String → Option ObjectId
  /-- The method `generateAuthToken` of a user, at a clock reading. -/
  sign : User → Timestamp → String
  /-- The call `bcrypt.hash(password, salt)`, the salt first. -/
  hash : String → String → String
  /-- The call `bcrypt.compare(candidate, hash)`. -/
  compare : String → String → Bool
  /-- The validator `isEmail()`. -/
  isEmail : String → Bool
  /-- The sanitizer `normalizeEmail()`. -/
  normalizeEmail : String → String
  /-- The setter `lowercase: true` of the path `email`. -/
  lowercase : String → String
  /-- The validators of the user schema on a document, for the paths carried here. -/
  validUser : User → Bool

/-- The query `User.findOne({ email })`. -/
def Db.findByEmail (db : Db) (email : String) : Option User :=
  db.users.find? fun u => decide (u.email = email)

/-- The write of an existing user document. -/
def Db.replaceUser (db : Db) (u : User) : Db :=
  { db with users := db.users.map fun x => if x._id = u._id then u else x }

/-- The insert of a new user document. -/
def Db.insertUser (db : Db) (u : User) : Db :=
  { db with users := db.users ++ [u] }

/-- The method `save` of a user document: validation, then the pre-save hook that hashes a
modified password, then the write. The result is `none` when the promise is rejected: by a
validator, or by the unique indexes on `_id` and `email` at the insert. -/
def User.save (lib : Lib) (isNew passwordModified : Bool) (env : Env) (u : User) (db : Db) :
    Option (User × Db) :=
  if !lib.validUser u then none
  else
    let u1 := if passwordModified then { u with password := lib.hash env.salt u.password } else u
    if isNew then
      if db.users.any fun x => decide (x._id = u1._id) || decide (x.email = u1.email) then none
      else some (u1, db.insertUser u1)
    else some (u1, db.replaceUser u1)

/-- The rules on a new password: at least 6 characters, and a small letter, a capital
letter and a digit, each before the first line end of the text (the pattern is three
lookaheads that start with a dot-star). -/
def passwordRule (s : String) : Bool :=
  let firstLine := s.toList.takeWhile fun c =>
    !(c = '\n' || c = '\r' || c.val = 0x2028 || c.val = 0x2029)
  decide (6 ≤ s.length) && firstLine.any Char.isLower && firstLine.any Char.isUpper
    && firstLine.any Char.isDigit

/-- The body of `POST /api/auth/register`; `profileValid` says whether the rules on the
fields not carried here (first name, last name, phone, business type) hold. -/
structure RegisterBody where
  email : String
  password : String
  role : Role := Role.buyer
  businessName : Option String := none
  profileValid : Bool := true
  deriving DecidableEq

/-- The rules of `registerValidation`. -/
def registerValidation (lib : Lib) (b : RegisterBody) : Bool :=
  b.profileValid && lib.isEmail b.email && passwordRule b.password
    && (decide (b.role ≠ Role.seller) || truthy b.businessName)

/-- The handler of `POST /api/auth/register` (register a new user), behind its rate
limiter. -/
def register (lib : Lib) (env : Env) (body : RegisterBody) (db : Db) : Response × Db :=
  if !registerValidation lib body then (validationFailed, db)
  else
    let email := lib.normalizeEmail body.email
    match db.findByEmail email with
    | some _ => (Response.error 400 "User with this email already exists", db)
    | none =>
      let user : User :=
        { _id := env.newId, role := body.role, email := lib.lowercase email
          password := body.password
          businessName := if body.role = Role.seller then body.businessName else none }
      match user.save lib true true env db with
      | none => (Response.error 500 "Server error during registration", db)
      | some (saved, db1) =>
        let token := lib.sign saved env.now
        let seen : User := { saved with lastLogin := some env.now }
        match seen.save lib false false env db1 with
        | none => (Response.error 500 "Server error during registration", db1)
        | some (_, db2) =>
          ({ status := 201, success := true, message := some "User registered successfully"
             token := some token }, db2)

/-- The body of `POST /api/auth/login`. -/
structure LoginBody where
  email : String
  password : String
  deriving DecidableEq

/-- The rules of `loginValidation`. -/
def loginValidation (lib : Lib) (b : LoginBody) : Bool :=
  lib.isEmail b.email && decide (b.password ≠ "")

/-- The handler of `POST /api/auth/login` (login user), behind its rate limiter. -/
def login (lib : Lib) (env : Env) (body : LoginBody) (db : Db) : Response × Db :=
  if !loginValidation lib body then (validationFailed, db)
  else
    match db.findByEmail (lib.normalizeEmail body.email) with
    | none => (Response.error 401 "Invalid email or password", db)
    | some user =>
      if !user.isActive then
        (Response.error 401 "Account has been deactivated. Please contact support.", db)
      else if !lib.compare body.password user.password then
        (Response.error 401 "Invalid email or password", db)
      else
        let token := lib.sign user env.now
        let seen : User := { user with lastLogin := some env.now }
        match seen.save lib false false env db with
        | none => (Response.error 500 "Server error during login", db)
        | some (_, db1) =>
          ({ status := 200, success := true, message := some "Login successful"
             token := some token }, db1)

/-- The body of `PUT /api/auth/profile`: the business name of `businessInfo`, and whether
the new values of the paths not carried here pass the validators of the schema. -/
structure ProfileBody where
  businessName : Option String := none
  valid : Bool := true
  deriving DecidableEq

/-- The handler of `PUT /api/auth/profile` (update user profile), behind `authenticate`. -/
def updateProfile (lib : Lib) (env : Env) (user : User) (body : ProfileBody) (db : Db) :
    Response × Db :=
  match db.findUser user._id with
  | none => (Response.error 404 "User not found", db)
  | some doc =>
    let doc1 : User :=
      if doc.role = Role.seller then
        { doc with businessName := spreadField doc.businessName body.businessName }
      else doc
    if !body.valid then (Response.error 500 "Server error while updating profile", db)
    else
      match doc1.save lib false false env db with
      | none => (Response.error 500 "Server error while updating profile", db)
      | some (_, db1) =>
        ({ status := 200, success := true, message := some "Profile updated successfully" }, db1)

/-- The body of `PUT /api/auth/change-password`. -/
structure ChangePasswordBody where
  currentPassword : String
  newPassword : String
  deriving DecidableEq

/-- The handler of `PUT /api/auth/change-password` (change user password), behind
`authenticate`. -/
def changePassword (lib : Lib) (env : Env) (user : User) (body : ChangePasswordBody) (db : Db) :
    Response × Db :=
  if !(decide (body.currentPassword ≠ "") && passwordRule body.newPassword) then
    (validationFailed, db)
  else
    match db.findUser user._id with
    | none => (Response.error 404 "User not found", db)
    | some doc =>
      if !lib.compare body.currentPassword doc.password then
        (Response.error 400 "Current password is incorrect", db)
      else
        let doc1 : User := { doc with password := body.newPassword }
        match doc1.save lib false (decide (body.newPassword ≠ doc.password)) env db with
        | none => (Response.error 500 "Server error while changing password", db)
        | some (_, db1) =>
          ({ status := 200, success := true, message := some "Password changed successfully" },
            db1)

/-- The body of `DELETE /api/auth/account`. -/
structure DeleteAccountBody where
  password : String
  deriving DecidableEq

/-- The handler of `DELETE /api/auth/account` (deactivate user account), behind
`authenticate`. -/
def deleteAccount (lib : Lib) (env : Env) (user : User) (body : DeleteAccountBody) (db : Db) :
    Response × Db :=
  if !decide (body.password ≠ "") then (validationFailed, db)
  else
    match db.findUser user._id with
    | none => (Response.error 404 "User not found", db)
    | some doc =>
      if !lib.compare body.password doc.password then
        (Response.error 400 "Password is incorrect", db)
      else
        let doc1 : User := { doc with isActive := false }
        match doc1.save lib false false env db with
        | none => (Response.error 500 "Server error while deactivating account", db)
        | some (_, db1) =>
          ({ status := 200, success := true, message := some "Account deactivated successfully" },
            db1)

/-- The body of `PUT /api/users/profile`, which the route hands to `findByIdAndUpdate` as
it is: the paths carried here that it may set, whether the rules of
`updateProfileValidation` hold, and whether the update validators accept the new values. -/
structure VendorProfileBody where
  role : Option Role := none
  isActive : Option Bool := none
  email : Option String := none
  password : Option String := none
  businessName : Option String := none
  valid : Bool := true
  accepted : Bool := true
  deriving DecidableEq

/-- The handler of `PUT /api/users/profile` (update vendor profile) with its middleware
`requireSeller`, behind `authenticate`. The update does not run the pre-save hooks. -/
def updateVendorProfile (lib : Lib) (user : User) (body : VendorProfileBody) (db : Db) :
    Response × Db :=
  match requireSeller (some user) with
  | Outcome.respond r => (r, db)
  | Outcome.next _ =>
    if !body.valid then (validationFailed, db)
    else if !body.accepted then (Response.error 500 "Server error while updating profile", db)
    else
      match db.findUser user._id with
      | none => (Response.error 404 "User not found", db)
      | some doc =>
        let doc1 : User :=
          { doc with
            role := body.role.getD doc.role
            isActive := body.isActive.getD doc.isActive
            email := (body.email.map lib.lowercase).getD doc.email
            password := body.password.getD doc.password
            businessName := spreadField doc.businessName body.businessName }
        if db.users.any fun x => decide (x._id ≠ doc1._id) && decide (x.email = doc1.email) then
          (Response.error 500 "Server error while updating profile", db)
        else
          ({ status := 200, success := true, message := some "Profile updated successfully" },
            db.replaceUser doc1)

/-! ## The create route of products (`POST /api/products`) -/

/-- The body of `POST /api/products`, its numbers parsed; `othersValid` says whether the
rules on the fields not carried here (category, unit, stock unit) hold. -/
structure CreateProductBody where
  name : String
  description : String
  price : ℚ
  stockQuantity : Int
  othersValid : Bool := true
  deriving DecidableEq

/-- The rules of `productValidation`. -/
def productValidation (b : CreateProductBody) : Bool :=
  isLength 2 100 (trim b.name) && isLength 10 2000 (trim b.description)
    && decide (0 ≤ b.price) && decide (0 ≤ b.stockQuantity) && b.othersValid

/-- The insert of a new product document. -/
def Db.insertProduct (db : Db) (p : Product) : Db :=
  { db with products := db.products ++ [p] }

/-- The method `save` of a product built by `new Product`: validation, the hooks (the name
of a new document is modified), the insert; `none` when a validator or the unique index on
`_id` rejects it. -/
def Product.saveNew (env : Env) (p : Product) (db : Db) : Option (Product × Db) :=
  if !p.validate then none
  else
    let p1 := p.preSave true env.hookNow
    if db.products.any fun x => decide (x._id = p1._id) then none
    else some (p1, db.insertProduct p1)

/-- The handler of `POST /api/products` (create new product) with its middleware
`requireSeller` and the upload of `images`, behind `authenticate`. The upload runs before
the validation. -/
def createProduct (env : Env) (user : User) (body : CreateProductBody)
    (files : List UploadedFile) (w : World) : Response × World :=
  match requireSeller (some user) with
  | Outcome.respond r => (r, w)
  | Outcome.next _ =>
    let w0 : World :=
      { w with cloud := { w.cloud with
          images := w.cloud.images ++ files.map UploadedFile.filename } }
    if !productValidation body then (validationFailed, w0)
    else if files.length = 0 then
      (Response.error 400 "At least one product image is required", w0)
    else
      let images : List Image := files.enum.map fun entry =>
        { url := entry.2.path, publicId := entry.2.filename, isPrimary := decide (entry.1 = 0) }
      let product : Product :=
        { _id := env.newId, name := trim body.name, description := trim body.description
          price := body.price, stockQuantity := body.stockQuantity, images := images
          seller := user._id }
      match product.saveNew env w0.db with
      | none => (Response.error 500 "Server error while creating product", w0)
      | some (saved, db1) =>
        ({ status := 201, success := true, message := some "Product created successfully"
           product := some saved }, { w0 with db := db1 })

/-- The handler of `GET /api/products/:id` (single product), which counts the view and saves
the product; the route is public. -/
def viewProduct (env : Env) (id : ObjectId) (db : Db) : Response × Db :=
  match db.findProduct id with
  | none => (Response.error 404 "Product not found", db)
  | some product =>
    let viewed : Product := { product with views := product.views + 1 }
    match viewed.save false env db with
    | none => (Response.error 500 "Server error while fetching product", db)
    | some (saved, db1) =>
      ({ status := 200, success := true, message := none, product := some saved }, db1)

/-! ## The routes that write, as one interface -/

/-- A request to a route that writes to the store or to the media host. A private route
carries the parts of the request that `authenticate` reads. -/
inductive Call
  | orders (auth : AuthRequest) (request : Request)
  | viewProduct (id : ObjectId)
  | createProduct (auth : AuthRequest) (body : CreateProductBody) (files : List UploadedFile)
  | updateProduct (auth : AuthRequest) (id : ObjectId) (body : UpdateProductBody)
      (files : List UploadedFile)
  | deleteProduct (auth : AuthRequest) (id : ObjectId)
  | updateStock (auth : AuthRequest) (id : ObjectId) (body : StockBody)
  | addReview (auth : AuthRequest) (id : ObjectId) (body : ReviewBody)
  | register (body : RegisterBody)
  | login (body : LoginBody)
  | updateProfile (auth : AuthRequest) (body : ProfileBody)
  | changePassword (auth : AuthRequest) (body : ChangePasswordBody)
  | deleteAccount (auth : AuthRequest) (body : DeleteAccountBody)
  | updateVendorProfile (auth : AuthRequest) (body : VendorProfileBody)

/-- A private route: `authenticate` answers, or hands the principal to the handler. -/
def withAuth (lib : Lib) (auth : AuthRequest) (w : World)
    (handler : User → Response × World) : Response × World :=
  match authenticate lib.verify auth w.db with
  | Outcome.respond r => (r, w)
  | Outcome.next user => handler user

/-- A handler that acts on the store alone. -/
def onDb (handler : Db → Response × Db) (w : World) : Response × World :=
  ((handler w.db).1, { w with db := (handler w.db).2 })

/-- The server: each request goes through the middleware chain and the handler of its
route. -/
def serve (lib : Lib) (env : Env) (call : Call) (w : World) : Response × World :=
  match call with
  | Call.orders auth request => withAuth lib auth w fun user => onDb (handle env user request) w
  | Call.viewProduct id => onDb (viewProduct env id) w
  | Call.createProduct auth body files =>
    withAuth lib auth w fun user => createProduct env user body files w
  | Call.updateProduct auth id body files =>
    withAuth lib auth w fun user => updateProduct env user id body files w
  | Call.deleteProduct auth id => withAuth lib auth w fun user => deleteProduct user id w
  | Call.updateStock auth id body => withAuth lib auth w fun user => updateStock env user id body w
  | Call.addReview auth id body =>
    withAuth lib auth w fun user => onDb (addReview env user id body) w
  | Call.register body => onDb (register lib env body) w
  | Call.login body => onDb (login lib env body) w
  | Call.updateProfile auth body =>
    withAuth lib auth w fun user => onDb (updateProfile lib env user body) w
  | Call.changePassword auth body =>
    withAuth lib auth w fun user => onDb (changePassword lib env user body) w
  | Call.deleteAccount auth body =>
    withAuth lib auth w fun user => onDb (deleteAccount lib env user body) w
  | Call.updateVendorProfile auth body =>
    withAuth lib auth w fun user => onDb (updateVendorProfile lib user body) w

/-- The world after a sequence of requests, served one after the other. -/
def serveAll (lib : Lib) (w : World) : List (Env × Call) → World
  | [] => w
  | (env, call) :: rest => serveAll lib (serve lib env call w).2 rest

/-- The state of the users collection in which the account with the identifier `id` is
deactivated: identifiers are unique, and the user with `id` is stored with `isActive`
false. -/
def Deactivated (id : ObjectId) (db : Db) : Prop :=
  (db.users.map User._id).Nodup ∧ ∃ u, db.findUser id = some u ∧ u.isActive = false

/-- The terms of an order: `b` has the order number, the parties, the product, the quantity,
the unit price and the total amount of `a`. -/
def Order.sameTerms (a b : Order) : Prop :=
  b.orderNumber = a.orderNumber ∧ b.buyer = a.buyer ∧ b.seller = a.seller
    ∧ b.product = a.product ∧ b.quantity = a.quantity ∧ b.unitPrice = a.unitPrice
    ∧ b.totalAmount = a.totalAmount

/-- Buyer G, with an email and a stored password hash. -/
def buyerG : User := { _id := 7, email := "g@example.org", password := "hash:Secret1" }

/-- Library functions for the scenario: tokens for seller A, buyer B and buyer G; a hash
that marks the password, and the comparison that goes with it; emails left as they are. -/
def demoLib : Lib :=
  { verify := fun token =>
      if token = "token-of-A" then some 1
      else if token = "token-of-B" then some 2
      else if token = "token-of-G" then some 7
      else none
    sign := fun u now => "token-" ++ toString u._id ++ "-" ++ toString now
    hash := fun _ password => "hash:" ++ password
    compare := fun candidate stored => decide ("hash:" ++ candidate = stored)
    isEmail := fun s => s.toList.contains '@'
    normalizeEmail := fun s => s
    lowercase := fun s => s
    validUser := fun u => decide (u.email ≠ "") }

/-- The shop with the order of buyer B placed, and buyer G among the users. -/
def marketWorld : World :=
  { db := { shopOrdered with users := shopOrdered.users ++ [buyerG] } }

/-- A request with the token of seller A. -/
def requestOfA : AuthRequest := { authorization := some "Bearer token-of-A" }

/-- A request with the token of buyer G. -/
def requestOfG : AuthRequest := { authorization := some "Bearer token-of-G" }

/-- Seller A raises the price of the pizza to 25 and adds a picture; then buyer B pays the
order placed at 18.99. -/
def priceThenPay : List (Env × Call) :=
  [(env2, Call.updateProduct requestOfA 10 { price := some 25 }
      [{ path := "https://media.example/pizza-2.jpg", filename := "pizza-2" }]),
   (env2, Call.orders requestOfB (Request.processPayment 100 payBody))]

/-- Buyer G tries to log in, and a new user registers. -/
def afterwards : List (Env × Call) :=
  [(env2, Call.login { email := "g@example.org", password := "Secret1" }),
   (env2, Call.register { email := "h@example.org", password := "Secret2" })]

/-- A new listing of seller A. -/
def garlicBread : CreateProductBody :=
  { name := "Garlic Bread", description := "Warm bread with garlic butter", price := 4.5
    stockQuantity := 20 }

/-! ## Lemmas on numbers and lengths -/

theorem doubleOfPos_nonneg (n d : Nat) : 0 ≤ doubleOfPos n d := by
  unfold doubleOfPos
  dsimp only
  split
  · exact Rat.mkRat_nonneg (Int.natCast_nonneg _) _
  · positivity

/-- A multiplication of doubles that is not negative in exact arithmetic is not negative. -/
theorem toDouble_nonneg {x : ℚ} (h : 0 ≤ x) : 0 ≤ toDouble x := by
  unfold toDouble
  split
  · exact le_refl 0
  · split
    · exact doubleOfPos_nonneg _ _
    · rename_i h0 hpos
      exact absurd (lt_of_le_of_ne h (Ne.symm h0)) hpos

/-- Values of `toDouble` that are known from JavaScript: the literal 0.1; the sum
0.1 + 0.2, printed as 0.30000000000000004; ties at 2 ^ 53 going to the even neighbour; an
integer and a binary fraction, which are doubles; the smallest subnormal and half of it;
the largest double, and the least magnitude that gives `Infinity`. -/
theorem toDouble_examples :
    toDouble 0.1 = 3602879701896397 / 2 ^ 55
      ∧ toDouble (toDouble 0.1 + toDouble 0.2) = 1351079888211149 / 2 ^ 52
      ∧ toDouble (2 ^ 53 + 1) = 2 ^ 53 ∧ toDouble (2 ^ 53 + 3) = 2 ^ 53 + 4
      ∧ toDouble 25 = 25 ∧ toDouble 4.5 = 4.5 ∧ toDouble (-4.5) = -4.5
      ∧ toDouble (1 / 2 ^ 1074) = 1 / 2 ^ 1074 ∧ toDouble (1 / 2 ^ 1075) = 0
      ∧ toDouble (2 ^ 1024 - 2 ^ 971) = 2 ^ 1024 - 2 ^ 971
      ∧ toDouble (2 ^ 1024 - 2 ^ 970 - 1) = 2 ^ 1024 - 2 ^ 971
      ∧ toDouble (2 ^ 1024 - 2 ^ 970) = 2 ^ 1024 := by
  decide!

/-- A string has at least as many code units as characters. -/
theorem length_le_utf16Length (s : String) : s.length ≤ utf16Length s := by
  unfold utf16Length
  show s.toList.length ≤ _
  induction s.toList with
  | nil => simp
  | cons c cs ih =>
    simp only [List.length_cons, List.map_cons, List.sum_cons]
    split <;> omega

/-! ## Lemmas on collections -/

theorem find_replace {α : Type} (key : α → Nat) (l : List α) (a : α) (id : Nat) :
    (l.map fun x => if key x = key a then a else x).find? (fun x => decide (key x = id))
      = if key a = id then (l.find? fun x => decide (key x = id)).map (fun _ => a)
        else l.find? fun x => decide (key x = id) := by
  induction l with
  | nil => simp
  | cons x xs ih =>
    rw [List.map_cons, List.find?_cons, List.find?_cons, ih]
    by_cases hx : key x = id
    · subst hx
      by_cases hxa : key x = key a
      · simp [hxa]
      · have ha : ¬ key a = key x := fun h => hxa h.symm
        simp [hxa, ha]
    · by_cases hxa : key x = key a
      · have ha : ¬ key a = id := fun h => hx (hxa.trans h)
        simp [hxa, ha, hx]
      · simp [hxa, hx]

theorem Order.hydrate_of_status {o : Order} {s : OrderStatus} (h : o.status = some s) :
    o.hydrate = o := by
  simp [Order.hydrate, h]

theorem Order.hydrate_status (o : Order) :
    o.hydrate.status = some (o.status.getD OrderStatus.pending) := by
  unfold Order.hydrate
  cases h : o.status <;> simp [h]

theorem Order.hydrate_frame (o : Order) :
    o.hydrate._id = o._id ∧ o.hydrate.orderNumber = o.orderNumber
      ∧ o.hydrate.buyer = o.buyer ∧ o.hydrate.seller = o.seller
      ∧ o.hydrate.product = o.product ∧ o.hydrate.quantity = o.quantity
      ∧ o.hydrate.unitPrice = o.unitPrice ∧ o.hydrate.totalAmount = o.totalAmount
      ∧ o.hydrate.paymentStatus = o.paymentStatus ∧ o.hydrate.notes = o.notes
      ∧ o.hydrate.actualDeliveryTime = o.actualDeliveryTime
      ∧ o.hydrate.paymentDetails = o.paymentDetails := by
  unfold Order.hydrate
  cases h : o.status <;> simp

theorem Order.hydrate_hydrate (o : Order) : o.hydrate.hydrate = o.hydrate := by
  obtain ⟨s, hs⟩ : ∃ s, o.hydrate.status = some s := ⟨_, Order.hydrate_status o⟩
  exact Order.hydrate_of_status hs

theorem Db.storedOrder_id {db : Db} {id : ObjectId} {o : Order}
    (h : db.storedOrder id = some o) : o._id = id := by
  have := List.find?_some h
  simpa using this

theorem Db.storedOrder_mem {db : Db} {id : ObjectId} {o : Order}
    (h : db.storedOrder id = some o) : o ∈ db.orders :=
  List.mem_of_find?_eq_some h

/-- A document that `findById` returns is the hydrated form of a stored one. -/
theorem Db.findOrder_stored {db : Db} {id : ObjectId} {o : Order}
    (h : db.findOrder id = some o) :
    ∃ x, db.storedOrder id = some x ∧ x ∈ db.orders ∧ o = x.hydrate := by
  unfold Db.findOrder at h
  cases hx : db.storedOrder id with
  | none => simp [hx] at h
  | some x =>
    rw [hx] at h
    exact ⟨x, rfl, Db.storedOrder_mem hx, (Option.some.inj h).symm⟩

/-- A document that `findById` returns has a status. -/
theorem Db.findOrder_status {db : Db} {id : ObjectId} {o : Order}
    (h : db.findOrder id = some o) : ∃ s, o.status = some s := by
  obtain ⟨x, _, _, rfl⟩ := Db.findOrder_stored h
  exact ⟨_, Order.hydrate_status x⟩

theorem Db.findOrder_hydrate {db : Db} {id : ObjectId} {o : Order}
    (h : db.findOrder id = some o) : o.hydrate = o := by
  obtain ⟨s, hs⟩ := Db.findOrder_status h
  exact Order.hydrate_of_status hs

theorem Db.findOrder_id {db : Db} {id : ObjectId} {o : Order} (h : db.findOrder id = some o) :
    o._id = id := by
  obtain ⟨x, hx, _, rfl⟩ := Db.findOrder_stored h
  exact (Order.hydrate_frame x).1.trans (Db.storedOrder_id hx)

theorem Db.findProduct_id {db : Db} {id : ObjectId} {p : Product}
    (h : db.findProduct id = some p) : p._id = id := by
  have := List.find?_some h
  simpa using this

theorem Db.findUser_id {db : Db} {id : ObjectId} {u : User} (h : db.findUser id = some u) :
    u._id = id := by
  have := List.find?_some h
  simpa using this

theorem Db.storedOrder_replaceOrder (db : Db) (o : Order) (id : ObjectId) :
    (db.replaceOrder o).storedOrder id
      = if o._id = id then (db.storedOrder id).map (fun _ => o) else db.storedOrder id :=
  find_replace Order._id db.orders o id

theorem Db.findOrder_replaceOrder (db : Db) (o : Order) (id : ObjectId) :
    (db.replaceOrder o).findOrder id
      = if o._id = id then (db.findOrder id).map (fun _ => o.hydrate) else db.findOrder id := by
  unfold Db.findOrder
  rw [Db.storedOrder_replaceOrder]
  split
  · cases db.storedOrder id <;> rfl
  · rfl

theorem Db.storedOrder_replaceOrder_self {db : Db} {o x : Order} {id : ObjectId}
    (h : db.findOrder id = some x) (ho : o._id = id) :
    (db.replaceOrder o).storedOrder id = some o := by
  obtain ⟨y, hy, _, _⟩ := Db.findOrder_stored h
  rw [Db.storedOrder_replaceOrder, if_pos ho, hy]; rfl

theorem Db.findProduct_replaceProduct (db : Db) (p : Product) (id : ObjectId) :
    (db.replaceProduct p).findProduct id
      = if p._id = id then (db.findProduct id).map (fun _ => p) else db.findProduct id :=
  find_replace Product._id db.products p id

theorem Db.findOrder_replaceOrder_self {db : Db} {o x : Order} {id : ObjectId}
    (h : db.findOrder id = some x) (ho : o._id = id) :
    (db.replaceOrder o).findOrder id = some o.hydrate := by
  rw [Db.findOrder_replaceOrder, if_pos ho, h]; rfl

theorem Db.findOrder_replaceOrder_ne {db : Db} {o : Order} {id : ObjectId} (ho : o._id ≠ id) :
    (db.replaceOrder o).findOrder id = db.findOrder id := by
  rw [Db.findOrder_replaceOrder, if_neg ho]

theorem Db.findProduct_replaceProduct_self {db : Db} {p x : Product} {id : ObjectId}
    (h : db.findProduct id = some x) (hp : p._id = id) :
    (db.replaceProduct p).findProduct id = some p := by
  rw [Db.findProduct_replaceProduct, if_pos hp, h]; rfl

theorem Db.findOrder_replaceProduct (db : Db) (p : Product) (id : ObjectId) :
    (db.replaceProduct p).findOrder id = db.findOrder id := rfl

theorem Db.findProduct_replaceOrder (db : Db) (o : Order) (id : ObjectId) :
    (db.replaceOrder o).findProduct id = db.findProduct id := rfl

theorem Db.findOrder_insertOrder {db : Db} {o x : Order} {id : ObjectId}
    (h : db.findOrder id = some x) : (db.insertOrder o).findOrder id = some x := by
  obtain ⟨y, hy, _, rfl⟩ := Db.findOrder_stored h
  unfold Db.findOrder Db.storedOrder Db.insertOrder at *
  simp [List.find?_append, hy]

/-! ## Lemmas on `save` -/

theorem Order.preSave_existing (hookNow : Timestamp) (count : Nat) (o : Order) :
    o.preSave false false hookNow count = o := by
  simp [Order.preSave]

theorem Order.save_existing_eq (env : Env) (o : Order) (db : Db) :
    o.save false false env db = if o.validate then some (o, db.replaceOrder o) else none := by
  unfold Order.save
  cases h : o.validate <;> simp [Order.preSave_existing]

theorem Product.save_eq (nameModified : Bool) (env : Env) (p : Product) (db : Db) :
    p.save nameModified env db
      = if p.validate then
          some (p.preSave nameModified env.hookNow,
            db.replaceProduct (p.preSave nameModified env.hookNow))
        else none := by
  unfold Product.save
  cases h : p.validate <;> simp

/-! ## Lemmas on the model methods -/

@[simp] theorem Response.error_status (c : Nat) (m : String) : (Response.error c m).status = c :=
  rfl

@[simp] theorem Response.error_success (c : Nat) (m : String) :
    (Response.error c m).success = false := rfl

@[simp] theorem Response.error_order (c : Nat) (m : String) : (Response.error c m).order = none :=
  rfl

@[simp] theorem validationFailed_order : validationFailed.order = none := rfl

@[simp] theorem validationFailed_status : validationFailed.status = 400 := rfl

@[simp] theorem validationFailed_success : validationFailed.success = false := rfl

theorem Order.withPayment_frame (d : PaymentDetails) (o : Order) :
    (o.withPayment d)._id = o._id ∧ (o.withPayment d).orderNumber = o.orderNumber
      ∧ (o.withPayment d).buyer = o.buyer ∧ (o.withPayment d).seller = o.seller
      ∧ (o.withPayment d).product = o.product ∧ (o.withPayment d).quantity = o.quantity
      ∧ (o.withPayment d).unitPrice = o.unitPrice ∧ (o.withPayment d).totalAmount = o.totalAmount
      ∧ (o.withPayment d).notes = o.notes
      ∧ (o.withPayment d).actualDeliveryTime = o.actualDeliveryTime
      ∧ (o.withPayment d).paymentStatus = PaymentStatus.completed
      ∧ (o.withPayment d).status
          = if o.status = some OrderStatus.pending then some OrderStatus.confirmed
            else o.status := by
  by_cases h : o.status = some OrderStatus.pending <;> simp [Order.withPayment, h]

/-- A paid order has a status when the order had one. -/
theorem Order.withPayment_hydrate {o : Order} (d : PaymentDetails) (h : o.hydrate = o) :
    (o.withPayment d).hydrate = o.withPayment d := by
  obtain ⟨s, hs⟩ : ∃ s, o.status = some s := ⟨_, by rw [← h]; exact Order.hydrate_status o⟩
  have hst := (Order.withPayment_frame d o).2.2.2.2.2.2.2.2.2.2.2
  by_cases hp : o.status = some OrderStatus.pending
  · rw [if_pos hp] at hst
    exact Order.hydrate_of_status hst
  · rw [if_neg hp, hs] at hst
    exact Order.hydrate_of_status hst

theorem Order.withStatus_frame (now : Timestamp) (s : Option OrderStatus) (n : Option String)
    (o : Order) :
    (o.withStatus now s n)._id = o._id ∧ (o.withStatus now s n).orderNumber = o.orderNumber
      ∧ (o.withStatus now s n).buyer = o.buyer ∧ (o.withStatus now s n).seller = o.seller
      ∧ (o.withStatus now s n).product = o.product ∧ (o.withStatus now s n).quantity = o.quantity
      ∧ (o.withStatus now s n).unitPrice = o.unitPrice
      ∧ (o.withStatus now s n).totalAmount = o.totalAmount
      ∧ (o.withStatus now s n).paymentStatus = o.paymentStatus
      ∧ (o.withStatus now s n).status = s
      ∧ (o.withStatus now s n).notes = (if truthy n then n else o.notes)
      ∧ (o.withStatus now s n).actualDeliveryTime
          = if s = some OrderStatus.delivered ∧ o.actualDeliveryTime = none then some now
            else o.actualDeliveryTime := by
  by_cases h1 : truthy n = true <;> by_cases h2 : s = some OrderStatus.delivered
    <;> by_cases h3 : o.actualDeliveryTime = none <;> simp [Order.withStatus, h1, h2, h3]

/-- An order that is given a status has one. -/
theorem Order.withStatus_hydrate (now : Timestamp) (s : OrderStatus) (n : Option String)
    (o : Order) : (o.withStatus now (some s) n).hydrate = o.withStatus now (some s) n :=
  Order.hydrate_of_status (Order.withStatus_frame now (some s) n o).2.2.2.2.2.2.2.2.2.1

theorem Order.withPayment_validate (d : PaymentDetails) (o : Order) :
    (o.withPayment d).validate = o.validate := by
  obtain ⟨_, h2, _, _, _, h6, h7, h8, h9, _⟩ := Order.withPayment_frame d o
  simp only [Order.validate, h2, h6, h7, h8, h9]

/-! ## Lemmas on the payment route -/

/-- The payment route once the order is found, the body valid, the caller the buyer and the
payment still open. -/
theorem processPayment_eq {env : Env} {user : User} {id : ObjectId} {body : PaymentDetails}
    {db : Db} {o : Order} (hv : paymentValidation body = true) (hf : db.findOrder id = some o)
    (hb : o.buyer = user._id) (hp : o.paymentStatus ≠ PaymentStatus.completed) :
    processPayment env user id body db =
      if o.validate then
        match db.findProduct o.product with
        | none =>
          ({ status := 200, success := true, message := some "Payment processed successfully"
             order := some (o.withPayment body.sanitize) },
            db.replaceOrder (o.withPayment body.sanitize))
        | some p =>
          if (p.withStock (max 0 (p.stockQuantity - o.quantity))).validate then
            ({ status := 200, success := true, message := some "Payment processed successfully"
               order := some (o.withPayment body.sanitize) },
              (db.replaceOrder (o.withPayment body.sanitize)).replaceProduct
                ((p.withStock (max 0 (p.stockQuantity - o.quantity))).preSave false env.hookNow))
          else
            (Response.error 500 "Server error while processing payment",
              db.replaceOrder (o.withPayment body.sanitize))
      else (Response.error 500 "Server error while processing payment", db) := by
  obtain ⟨_, _, _, _, hpr, hq, _⟩ := Order.withPayment_frame body.sanitize o
  unfold processPayment
  simp only [hv, hf, hb, hp, Order.processPayment, Order.save_existing_eq, Bool.not_true,
    Bool.false_eq_true, if_false, ne_eq, not_true_eq_false, Order.withPayment_validate]
  cases hval : o.validate
  · simp
  · simp only [if_true, hq, hpr, Db.findProduct_replaceOrder]
    cases hfp : db.findProduct o.product with
    | none => simp
    | some p =>
      simp only [Product.save_eq]
      cases hpv : (p.withStock (max 0 (p.stockQuantity - o.quantity))).validate <;> simp

/-- A payment answered 200 was made with a valid body by the buyer of a stored order whose
payment was still open. -/
theorem processPayment_ok {env : Env} {user : User} {id : ObjectId} {body : PaymentDetails}
    {db : Db} (h : (processPayment env user id body db).1.status = 200) :
    paymentValidation body = true ∧ ∃ o, db.findOrder id = some o ∧ o.buyer = user._id
      ∧ o.paymentStatus ≠ PaymentStatus.completed := by
  unfold processPayment at h
  cases hv : paymentValidation body
  · simp [hv] at h
  · refine ⟨rfl, ?_⟩
    cases hf : db.findOrder id with
    | none => simp [hv, hf] at h
    | some o =>
      refine ⟨o, rfl, ?_, ?_⟩
      · by_contra hb
        simp [hv, hf, hb] at h
      · intro hp
        by_cases hb : o.buyer = user._id <;> simp [hv, hf, hb, hp] at h

theorem Product.preSave_frame (nameModified : Bool) (hookNow : Timestamp) (p : Product) :
    (p.preSave nameModified hookNow)._id = p._id
      ∧ (p.preSave nameModified hookNow).stockQuantity = p.stockQuantity
      ∧ (p.preSave nameModified hookNow).reviews = p.reviews
      ∧ (p.preSave nameModified hookNow).price = p.price
      ∧ (p.preSave nameModified hookNow).seller = p.seller := by
  unfold Product.preSave Product.preSaveStock Product.preSaveRating Product.preSaveSlug
  cases nameModified <;> dsimp only <;> split_ifs <;> simp

/-- The payment route on an order whose payment is completed, called by its buyer. -/
theorem processPayment_paid {env : Env} {user : User} {id : ObjectId} {body : PaymentDetails}
    {db : Db} {o : Order} (hf : db.findOrder id = some o) (hb : o.buyer = user._id)
    (hp : o.paymentStatus = PaymentStatus.completed) :
    processPayment env user id body db =
      (if paymentValidation body then Response.error 400 "Payment already completed for this order"
        else validationFailed, db) := by
  unfold processPayment
  cases hv : paymentValidation body <;> simp [hf, hb, hp]

/-- The store after a payment answered 200: the order carries the payment, and the stock of
its product, when the product is stored, is lowered by the quantity and floored at 0. -/
theorem processPayment_after {env : Env} {user : User} {id : ObjectId} {body : PaymentDetails}
    {db : Db} {o : Order} (hf : db.findOrder id = some o)
    (h : (processPayment env user id body db).1.status = 200) :
    (processPayment env user id body db).2.findOrder id = some (o.withPayment body.sanitize)
      ∧ ∀ p, db.findProduct o.product = some p →
          ∃ p1, (processPayment env user id body db).2.findProduct o.product = some p1
            ∧ p1.stockQuantity = max 0 (p.stockQuantity - o.quantity) := by
  obtain ⟨hv, o2, hf2, hb, hp⟩ := processPayment_ok h
  have e : o = o2 := by rw [hf] at hf2; exact Option.some.inj hf2
  subst e
  have hid : (o.withPayment body.sanitize)._id = id :=
    (Order.withPayment_frame body.sanitize o).1.trans (Db.findOrder_id hf)
  have hself : (db.replaceOrder (o.withPayment body.sanitize)).findOrder id
      = some (o.withPayment body.sanitize) := by
    rw [Db.findOrder_replaceOrder_self hf hid,
      Order.withPayment_hydrate _ (Db.findOrder_hydrate hf)]
  rw [processPayment_eq hv hf hb hp] at h ⊢
  cases hval : o.validate
  · simp [hval] at h
  · simp only [hval, if_true] at h ⊢
    cases hfp : db.findProduct o.product with
    | none =>
      simp only []
      exact ⟨hself, fun p hp => by simp at hp⟩
    | some p =>
      simp only [hfp] at h
      simp only []
      cases hpv : (p.withStock (max 0 (p.stockQuantity - o.quantity))).validate
      · simp [hpv] at h
      · simp only [if_true, Db.findOrder_replaceProduct]
        refine ⟨hself, fun p' hp' => ?_⟩
        have e : p = p' := Option.some.inj hp'
        subst e
        refine ⟨_, Db.findProduct_replaceProduct_self
          (x := p) (by rw [Db.findProduct_replaceOrder]; exact hfp) ?_, ?_⟩
        · rw [(Product.preSave_frame _ _ _).1]; exact Db.findProduct_id (p := p) hfp
        · rw [(Product.preSave_frame _ _ _).2.1]; rfl

theorem Product.withStock_validate {p : Product} (h : p.validate = true) (q : Int) :
    (p.withStock (max 0 q)).validate = true := by
  simp only [Product.validate, Product.withStock, Bool.and_eq_true, decide_eq_true_eq] at h ⊢
  obtain ⟨⟨⟨⟨⟨⟨⟨⟨⟨h1, h2⟩, h3⟩, h4⟩, h5⟩, _⟩, h7⟩, h8⟩, h9⟩, h10⟩ := h
  exact ⟨⟨⟨⟨⟨⟨⟨⟨⟨h1, h2⟩, h3⟩, h4⟩, h5⟩, le_max_left 0 q⟩, h7⟩, h8⟩, h9⟩, h10⟩

/-! ## Lemmas on the create route -/

theorem Order.save_new {env : Env} {o o1 : Order} {db db1 : Db}
    (h : o.save true true env db = some (o1, db1)) :
    o.validate = true ∧ o1 = o.preSave true true env.hookNow db.orders.length
      ∧ db1 = db.insertOrder o1
      ∧ ∀ x ∈ db.orders, x._id ≠ o1._id ∧ x.orderNumber ≠ o1.orderNumber := by
  unfold Order.save at h
  cases hv : o.validate
  · simp [hv] at h
  · simp only [hv, Bool.not_true, Bool.false_eq_true, if_false, if_true] at h
    split at h
    · simp at h
    · rename_i hany
      simp only [Option.some.injEq, Prod.mk.injEq] at h
      obtain ⟨h1, h2⟩ := h
      subst h1
      refine ⟨rfl, rfl, h2.symm, ?_⟩
      intro x hx
      simp only [List.any_eq_true, Bool.or_eq_true, decide_eq_true_eq, not_exists, not_and,
        not_or] at hany
      exact hany x hx

theorem Order.save_new_of {env : Env} {o : Order} {db : Db} (hv : o.validate = true)
    (hfresh : ∀ x ∈ db.orders, x._id ≠ o._id
      ∧ x.orderNumber ≠ hookOrderNumber env.hookNow db.orders.length) :
    o.save true true env db
      = some (o.preSave true true env.hookNow db.orders.length,
          db.insertOrder (o.preSave true true env.hookNow db.orders.length)) := by
  unfold Order.save
  have hany : (db.orders.any fun x =>
      decide (x._id = (o.preSave true true env.hookNow db.orders.length)._id)
        || decide (x.orderNumber
            = (o.preSave true true env.hookNow db.orders.length).orderNumber)) = false := by
    rw [List.any_eq_false]
    intro x hx
    have := hfresh x hx
    simp [Order.preSave, this.1, this.2]
  simp [hv, hany]

/-- The create route answers a body that fails validation with 400 and writes nothing. -/
theorem createOrder_invalid {env : Env} {user : User} {body : CreateOrderBody} {db : Db}
    (hv : createOrderValidation body = false) :
    createOrder env user body db = (validationFailed, db) := by
  simp [createOrder, hv]

/-- The create route on a valid body, by cases on the product. -/
theorem createOrder_eq {env : Env} {user : User} {body : CreateOrderBody} {db : Db}
    (hv : createOrderValidation body = true) :
    createOrder env user body db =
      match db.findProduct body.productId with
      | none => (Response.error 404 "Product not found", db)
      | some product =>
        if product.status ≠ ProductStatus.active then
          (Response.error 400 "Product is not available for order", db)
        else if product.stockQuantity < body.quantity then
          (Response.error 400
            ("Only " ++ toString product.stockQuantity ++ " items available in stock"), db)
        else
          match db.findUser product.seller with
          | none => (Response.error 500 "Server error while creating order", db)
          | some seller =>
            if seller._id = user._id then
              (Response.error 400 "You cannot order your own product", db)
            else
              match (newOrder env user body.sanitize product seller).save true true env db with
              | none => (Response.error 500 "Server error while creating order", db)
              | some (saved, db1) =>
                ({ status := 201, success := true, message := some "Order created successfully"
                   order := some saved }, db1) := by
  simp only [createOrder, hv, Bool.not_true, Bool.false_eq_true, if_false]
  rfl

theorem newOrder_validate {env : Env} {user : User} {body : CreateOrderBody} {p : Product}
    {s : User} (hv : createOrderValidation body = true) (hp : 0 ≤ p.price)
    (hnotes : maxlength 500 (trimField body.notes) = true) :
    (newOrder env user body.sanitize p s).validate = true := by
  simp only [createOrderValidation, Bool.and_eq_true, decide_eq_true_eq] at hv
  obtain ⟨⟨⟨⟨⟨hq, _⟩, _⟩, _⟩, _⟩, hn⟩ := hv
  have hq' : (0 : ℚ) ≤ (body.quantity : ℚ) := by
    have : (0 : Int) ≤ body.quantity := by omega
    exact_mod_cast this
  have hnum : "ORD-" ++ toString env.stamp ++ "-" ++ env.random ≠ "" := by
    intro h
    have := congrArg String.length h
    simp only [String.length_append] at this
    have h4 : "ORD-".length = 4 := rfl
    have h0 : "".length = 0 := rfl
    omega
  simp only [Order.validate, newOrder, CreateOrderBody.sanitize, Bool.and_eq_true,
    decide_eq_true_eq]
  exact ⟨⟨⟨⟨hnum, hq⟩, hp⟩, toDouble_nonneg (mul_nonneg hp hq')⟩, hnotes⟩

/-! ## Lemmas on the status, cancel and read routes -/

/-- The status route on a valid body and a stored order. -/
theorem updateStatus_eq {env : Env} {user : User} {id : ObjectId} {body : UpdateOrderBody}
    {db : Db} {o : Order} (hv : updateOrderValidation body = true)
    (hf : db.findOrder id = some o) :
    updateStatus env user id body db =
      if o.seller ≠ user._id then
        (Response.error 403 "Only the seller can update order status", db)
      else if (o.withStatus env.now body.status (trimField body.notes)).validate then
        ({ status := 200, success := true
           message := some "Order status updated successfully"
           order := some (o.withStatus env.now body.status (trimField body.notes)) },
          db.replaceOrder (o.withStatus env.now body.status (trimField body.notes)))
      else (Response.error 500 "Server error while updating order status", db) := by
  unfold updateStatus
  simp only [hv, hf, Order.updateStatus, Order.save_existing_eq, UpdateOrderBody.sanitize,
    Bool.not_true, Bool.false_eq_true, if_false]
  by_cases hs : o.seller = user._id
  · cases hval : (o.withStatus env.now body.status (trimField body.notes)).validate
      <;> simp [hs, hval]
  · simp [hs]

/-- The cancel route on a stored order. -/
theorem cancelOrder_eq {env : Env} {user : User} {id : ObjectId} {body : CancelBody}
    {db : Db} {o : Order} (hf : db.findOrder id = some o) :
    cancelOrder env user id body db =
      if ¬ (o.buyer = user._id ∨ o.seller = user._id) then (Response.error 403 "Access denied", db)
      else if o.status = OrderStatus.delivered ∨ o.status = OrderStatus.cancelled then
        (Response.error 400 "Order cannot be cancelled", db)
      else if (o.withStatus env.now OrderStatus.cancelled (cancelNotes body.reason)).validate then
        ({ status := 200, success := true, message := some "Order cancelled successfully"
           order := some (o.withStatus env.now OrderStatus.cancelled (cancelNotes body.reason)) },
          db.replaceOrder (o.withStatus env.now OrderStatus.cancelled (cancelNotes body.reason)))
      else (Response.error 500 "Server error while cancelling order", db) := by
  unfold cancelOrder
  simp only [hf, Order.updateStatus, Order.save_existing_eq]
  by_cases hb : o.buyer = user._id <;> by_cases hs : o.seller = user._id
    <;> by_cases ht : o.status = OrderStatus.delivered ∨ o.status = OrderStatus.cancelled
    <;> cases hval :
      (o.withStatus env.now OrderStatus.cancelled (cancelNotes body.reason)).validate
    <;> simp [hb, hs, ht, hval]

/-- The read route on a stored order whose buyer and seller are stored users. -/
theorem getOrder_eq {user : User} {id : ObjectId} {db : Db} {o : Order} {b s : User}
    (hf : db.findOrder id = some o) (hb : db.findUser o.buyer = some b)
    (hs : db.findUser o.seller = some s) :
    getOrder user id db =
      if o.buyer = user._id ∨ o.seller = user._id then
        ({ status := 200, success := true, message := none, order := some o }, db)
      else (Response.error 403 "Access denied", db) := by
  unfold getOrder
  have hbid := Db.findUser_id hb
  have hsid := Db.findUser_id hs
  simp only [hf, hb, hs, hbid, hsid]
  by_cases h1 : o.buyer = user._id <;> by_cases h2 : o.seller = user._id <;> simp [h1, h2]

theorem getOrder_store (user : User) (id : ObjectId) (db : Db) : (getOrder user id db).2 = db := by
  unfold getOrder
  cases db.findOrder id with
  | none => rfl
  | some o =>
    simp only []
    cases db.findUser o.buyer with
    | none => rfl
    | some b =>
      simp only []
      by_cases h1 : b._id = user._id
      · simp [h1]
      · simp only [h1, if_false]
        cases db.findUser o.seller with
        | none => rfl
        | some s => by_cases h2 : s._id = user._id <;> simp [h2]

theorem updateStatus_notFound {env : Env} {user : User} {id : ObjectId} {body : UpdateOrderBody}
    {db : Db} (hf : db.findOrder id = none) :
    (updateStatus env user id body db).2 = db
      ∧ (updateStatus env user id body db).1.success = false := by
  unfold updateStatus
  cases hv : updateOrderValidation body <;> simp [hf]

theorem updateStatus_invalid {env : Env} {user : User} {id : ObjectId} {body : UpdateOrderBody}
    {db : Db} (hv : updateOrderValidation body = false) :
    updateStatus env user id body db = (validationFailed, db) := by
  simp [updateStatus, hv]

theorem processPayment_invalid {env : Env} {user : User} {id : ObjectId}
    {body : PaymentDetails} {db : Db} (hv : paymentValidation body = false) :
    processPayment env user id body db = (validationFailed, db) := by
  simp [processPayment, hv]

theorem processPayment_notFound {env : Env} {user : User} {id : ObjectId}
    {body : PaymentDetails} {db : Db} (hf : db.findOrder id = none) :
    (processPayment env user id body db).2 = db
      ∧ (processPayment env user id body db).1.success = false := by
  unfold processPayment
  cases hv : paymentValidation body <;> simp [hf]

theorem processPayment_forbidden {env : Env} {user : User} {id : ObjectId}
    {body : PaymentDetails} {db : Db} {o : Order} (hv : paymentValidation body = true)
    (hf : db.findOrder id = some o) (hb : o.buyer ≠ user._id) :
    processPayment env user id body db
      = (Response.error 403 "Only the buyer can process payment", db) := by
  simp [processPayment, hv, hf, hb]

theorem cancelOrder_notFound {env : Env} {user : User} {id : ObjectId} {body : CancelBody}
    {db : Db} (hf : db.findOrder id = none) :
    cancelOrder env user id body db = (Response.error 404 "Order not found", db) := by
  simp [cancelOrder, hf]

theorem cancelNotes_cases (reason : Option String) :
    (∀ r, reason = some r → r ≠ "" → cancelNotes reason = some r)
      ∧ (reason = none ∨ reason = some "" → cancelNotes reason = some "Order cancelled by user") := by
  constructor
  · intro r hr hne
    simp [cancelNotes, truthy, hr, hne]
  · rintro (h | h) <;> simp [cancelNotes, truthy, h]

theorem cancelNotes_truthy (reason : Option String) : truthy (cancelNotes reason) = true := by
  unfold cancelNotes
  cases h : truthy reason
  · simp [truthy]
  · simpa using h

theorem Order.withStatus_validate {o : Order} (now : Timestamp) (s : Option OrderStatus)
    (n : Option String) (h : o.validate = true) (hn : maxlength 500 n = true) :
    (o.withStatus now s n).validate = true := by
  obtain ⟨_, h2, _, _, _, h6, h7, h8, _, _, h11, _⟩ := Order.withStatus_frame now s n o
  simp only [Order.validate, h2, h6, h7, h8, h11, Bool.and_eq_true] at h ⊢
  refine ⟨h.1, ?_⟩
  cases truthy n
  · simpa using h.2
  · simpa using hn

/-- The orders other than the one a route is called on are read as before. -/
theorem updateStatus_others (env : Env) (user : User) (id : ObjectId) (body : UpdateOrderBody)
    (db : Db) (id2 : ObjectId) (hne : id2 ≠ id) :
    (updateStatus env user id body db).2.findOrder id2 = db.findOrder id2 := by
  cases hv : updateOrderValidation body
  · rw [updateStatus_invalid hv]
  · cases hf : db.findOrder id with
    | none => rw [(updateStatus_notFound hf).1]
    | some o =>
      rw [updateStatus_eq hv hf]
      have hid : (o.withStatus env.now body.status (trimField body.notes))._id ≠ id2 := by
        rw [(Order.withStatus_frame _ _ _ _).1, Db.findOrder_id hf]; exact fun h => hne h.symm
      by_cases hs : o.seller = user._id
      · cases (o.withStatus env.now body.status (trimField body.notes)).validate
        · simp [hs]
        · simp [hs, Db.findOrder_replaceOrder_ne hid]
      · simp [hs]

theorem cancelOrder_others (env : Env) (user : User) (id : ObjectId) (body : CancelBody)
    (db : Db) (id2 : ObjectId) (hne : id2 ≠ id) :
    (cancelOrder env user id body db).2.findOrder id2 = db.findOrder id2 := by
  cases hf : db.findOrder id with
  | none => rw [cancelOrder_notFound hf]
  | some o =>
    rw [cancelOrder_eq hf]
    have hid : (o.withStatus env.now OrderStatus.cancelled (cancelNotes body.reason))._id ≠ id2 := by
      rw [(Order.withStatus_frame _ _ _ _).1, Db.findOrder_id hf]; exact fun h => hne h.symm
    by_cases hp : o.buyer = user._id ∨ o.seller = user._id
    · by_cases ht : o.status = OrderStatus.delivered ∨ o.status = OrderStatus.cancelled
      · simp [hp, ht]
      · cases (o.withStatus env.now OrderStatus.cancelled (cancelNotes body.reason)).validate
        · simp [hp, ht]
        · simp [hp, ht, Db.findOrder_replaceOrder_ne hid]
    · simp [hp]

theorem processPayment_others (env : Env) (user : User) (id : ObjectId) (body : PaymentDetails)
    (db : Db) (id2 : ObjectId) (hne : id2 ≠ id) :
    (processPayment env user id body db).2.findOrder id2 = db.findOrder id2 := by
  cases hv : paymentValidation body
  · rw [processPayment_invalid hv]
  · cases hf : db.findOrder id with
    | none => rw [(processPayment_notFound hf).1]
    | some o =>
      by_cases hb : o.buyer = user._id
      · by_cases hp : o.paymentStatus = PaymentStatus.completed
        · rw [processPayment_paid hf hb hp]
        · rw [processPayment_eq hv hf hb hp]
          have hid : (o.withPayment body.sanitize)._id ≠ id2 := by
            rw [(Order.withPayment_frame _ _).1, Db.findOrder_id hf]; exact fun h => hne h.symm
          cases o.validate
          · simp
          · simp only [if_true]
            cases db.findProduct o.product with
            | none => simp [Db.findOrder_replaceOrder_ne hid]
            | some p =>
              simp only []
              cases (p.withStock (max 0 (p.stockQuantity - o.quantity))).validate
              · simp [Db.findOrder_replaceOrder_ne hid]
              · simp [Db.findOrder_replaceProduct, Db.findOrder_replaceOrder_ne hid]
      · rw [processPayment_forbidden hv hf hb]

/-- A status update answered 200 stored the order with the assignments of the method; a
later `findById` reads that document, with the default status when the update unset it. -/
theorem updateStatus_after {env : Env} {user : User} {id : ObjectId} {body : UpdateOrderBody}
    {db : Db} {o : Order} (hf : db.findOrder id = some o)
    (h : (updateStatus env user id body db).1.status = 200) :
    o.seller = user._id ∧ (updateStatus env user id body db).2.findOrder id
      = some (o.withStatus env.now body.status (trimField body.notes)).hydrate := by
  cases hv : updateOrderValidation body
  · rw [updateStatus_invalid hv] at h; simp at h
  · rw [updateStatus_eq hv hf] at h ⊢
    by_cases hs : o.seller = user._id
    · cases hval : (o.withStatus env.now body.status (trimField body.notes)).validate
      · simp [hs, hval] at h
      · simp only [hs, ne_eq, not_true_eq_false, if_false, if_true, true_and]
        exact Db.findOrder_replaceOrder_self hf
          (((Order.withStatus_frame _ _ _ _).1).trans (Db.findOrder_id hf))
    · simp [hs] at h

/-- A status update answered 200 stored the order with the assignments of the method. -/
theorem updateStatus_stored {env : Env} {user : User} {id : ObjectId} {body : UpdateOrderBody}
    {db : Db} {o : Order} (hf : db.findOrder id = some o)
    (h : (updateStatus env user id body db).1.status = 200) :
    (updateStatus env user id body db).2.storedOrder id
      = some (o.withStatus env.now body.status (trimField body.notes)) := by
  cases hv : updateOrderValidation body
  · rw [updateStatus_invalid hv] at h; simp at h
  · rw [updateStatus_eq hv hf] at h ⊢
    by_cases hs : o.seller = user._id
    · cases hval : (o.withStatus env.now body.status (trimField body.notes)).validate
      · simp [hs, hval] at h
      · simp only [hs, ne_eq, not_true_eq_false, if_false, if_true]
        exact Db.storedOrder_replaceOrder_self hf
          (((Order.withStatus_frame _ _ _ _).1).trans (Db.findOrder_id hf))
    · simp [hs] at h

/-- A cancellation answered 200 stored the order with the assignments of the method. -/
theorem cancelOrder_after {env : Env} {user : User} {id : ObjectId} {body : CancelBody}
    {db : Db} {o : Order} (hf : db.findOrder id = some o)
    (h : (cancelOrder env user id body db).1.status = 200) :
    (o.buyer = user._id ∨ o.seller = user._id)
      ∧ o.status ≠ OrderStatus.delivered ∧ o.status ≠ OrderStatus.cancelled
      ∧ (cancelOrder env user id body db).2.findOrder id
        = some (o.withStatus env.now OrderStatus.cancelled (cancelNotes body.reason)) := by
  rw [cancelOrder_eq hf] at h ⊢
  by_cases hp : o.buyer = user._id ∨ o.seller = user._id
  · by_cases ht : o.status = OrderStatus.delivered ∨ o.status = OrderStatus.cancelled
    · simp [hp, ht] at h
    · cases hval : (o.withStatus env.now OrderStatus.cancelled (cancelNotes body.reason)).validate
      · simp [hp, ht, hval] at h
      · simp only [hp, ht, not_true_eq_false, if_false, if_true, true_and]
        push_neg at ht
        refine ⟨ht.1, ht.2, ?_⟩
        rw [Db.findOrder_replaceOrder_self hf
          (((Order.withStatus_frame _ _ _ _).1).trans (Db.findOrder_id hf)),
          Order.withStatus_hydrate]
  · simp [hp] at h

/-! ## The shape of the store after each route -/

theorem Db.mem_replaceOrder {db : Db} {o x : Order} (h : x ∈ (db.replaceOrder o).orders) :
    x = o ∨ x ∈ db.orders := by
  simp only [Db.replaceOrder, List.mem_map] at h
  obtain ⟨y, hy, rfl⟩ := h
  by_cases hc : y._id = o._id
  · simp [hc]
  · simp [hc, hy]

/-- The shape of the store after the status route. -/
theorem updateStatus_shape (env : Env) (user : User) (id : ObjectId) (body : UpdateOrderBody)
    (db : Db) :
    ((updateStatus env user id body db).1.status ≠ 200 ∧ (updateStatus env user id body db).2 = db)
      ∨ ∃ o, db.findOrder id = some o ∧ (updateStatus env user id body db).1.status = 200
          ∧ (updateStatus env user id body db).2
            = db.replaceOrder (o.withStatus env.now body.status (trimField body.notes)) := by
  cases hv : updateOrderValidation body
  · rw [updateStatus_invalid hv]; simp
  · cases hf : db.findOrder id with
    | none =>
      left
      have := @updateStatus_notFound env user id body db hf
      refine ⟨?_, this.1⟩
      unfold updateStatus
      simp [hv, hf]
    | some o =>
      rw [updateStatus_eq hv hf]
      by_cases hs : o.seller = user._id
      · cases (o.withStatus env.now body.status (trimField body.notes)).validate <;> simp [hs]
      · simp [hs]

/-- The shape of the store after the cancel route. -/
theorem cancelOrder_shape (env : Env) (user : User) (id : ObjectId) (body : CancelBody)
    (db : Db) :
    ((cancelOrder env user id body db).1.status ≠ 200 ∧ (cancelOrder env user id body db).2 = db)
      ∨ ∃ o, db.findOrder id = some o ∧ (cancelOrder env user id body db).1.status = 200
          ∧ (cancelOrder env user id body db).2
            = db.replaceOrder (o.withStatus env.now OrderStatus.cancelled
                (cancelNotes body.reason)) := by
  cases hf : db.findOrder id with
  | none => rw [cancelOrder_notFound hf]; simp
  | some o =>
    rw [cancelOrder_eq hf]
    by_cases hp : o.buyer = user._id ∨ o.seller = user._id
    · by_cases ht : o.status = OrderStatus.delivered ∨ o.status = OrderStatus.cancelled
      · simp [hp, ht]
      · cases (o.withStatus env.now OrderStatus.cancelled (cancelNotes body.reason)).validate
          <;> simp [hp, ht]
    · simp [hp]

/-- The shape of the store after the payment route. -/
theorem processPayment_shape (env : Env) (user : User) (id : ObjectId) (body : PaymentDetails)
    (db : Db) :
    (processPayment env user id body db).2 = db
      ∨ ∃ o, db.findOrder id = some o
          ∧ ((processPayment env user id body db).2 = db.replaceOrder (o.withPayment body.sanitize)
            ∨ ∃ p, (processPayment env user id body db).2
                = (db.replaceOrder (o.withPayment body.sanitize)).replaceProduct p) := by
  cases hv : paymentValidation body
  · rw [processPayment_invalid hv]; simp
  · cases hf : db.findOrder id with
    | none => exact Or.inl (processPayment_notFound hf).1
    | some o =>
      by_cases hb : o.buyer = user._id
      · by_cases hp : o.paymentStatus = PaymentStatus.completed
        · rw [processPayment_paid hf hb hp]; simp
        · rw [processPayment_eq hv hf hb hp]
          cases o.validate
          · simp
          · simp only [if_true]
            cases db.findProduct o.product with
            | none => simp
            | some p =>
              simp only []
              cases (p.withStock (max 0 (p.stockQuantity - o.quantity))).validate
              · simp
              · right
                exact ⟨o, rfl, Or.inr ⟨_, rfl⟩⟩
      · rw [processPayment_forbidden hv hf hb]; simp

/-- The shape of the store after the create route. -/
theorem createOrder_shape (env : Env) (user : User) (body : CreateOrderBody) (db : Db) :
    ((createOrder env user body db).1.status ≠ 201 ∧ (createOrder env user body db).1.order = none
        ∧ (createOrder env user body db).2 = db)
      ∨ ∃ p s, (createOrder env user body db).1.status = 201
          ∧ (createOrder env user body db).1.order
            = some ((newOrder env user body.sanitize p s).preSave true true env.hookNow
                db.orders.length)
          ∧ (createOrder env user body db).2
            = db.insertOrder ((newOrder env user body.sanitize p s).preSave true true env.hookNow
                db.orders.length) := by
  cases hv : createOrderValidation body
  · rw [createOrder_invalid hv]; simp
  · rw [createOrder_eq hv]
    cases db.findProduct body.productId with
    | none => simp
    | some p =>
      simp only []
      by_cases hst : p.status = ProductStatus.active
      · by_cases hq : p.stockQuantity < body.quantity
        · simp [hst, hq]
        · cases db.findUser p.seller with
          | none => simp [hst, hq]
          | some s =>
            by_cases hself : s._id = user._id
            · simp [hst, hq, hself]
            · cases hsave : (newOrder env user body.sanitize p s).save true true env db with
              | none => simp [hst, hq, hself, hsave]
              | some r =>
                obtain ⟨o, db1⟩ := r
                obtain ⟨_, ho, hdb, _⟩ := Order.save_new hsave
                right
                subst ho
                refine ⟨p, s, ?_, ?_, ?_⟩ <;> simp [hst, hq, hself, hsave, hdb]
      · simp [hst]

/-- A property of orders that the assignments of the two methods keep and that every
newly saved order has is kept by every request. -/
theorem handle_orders (P : Order → Prop)
    (hs : ∀ (now : Timestamp) (s : Option OrderStatus) (n : Option String) (o : Order),
      P o → P (o.withStatus now s n))
    (hp : ∀ (d : PaymentDetails) (o : Order), P o → P (o.withPayment d))
    (hn : ∀ (hookNow : Timestamp) (count : Nat) (o : Order),
      P (o.preSave true true hookNow count))
    (hh : ∀ o : Order, P o → P o.hydrate)
    (env : Env) (user : User) (req : Request) (db : Db) (h : ∀ o ∈ db.orders, P o) :
    ∀ o ∈ (handle env user req db).2.orders, P o := by
  have hfound : ∀ (id : ObjectId) (o : Order), db.findOrder id = some o → P o := by
    intro id o hf
    obtain ⟨y, _, hy, rfl⟩ := Db.findOrder_stored hf
    exact hh y (h y hy)
  intro x hx
  cases req with
  | createOrder body =>
    rcases createOrder_shape env user body db with ⟨_, _, h2⟩ | ⟨p, s, _, _, h2⟩
    · simp only [handle, h2] at hx; exact h x hx
    · simp only [handle, h2, Db.insertOrder, List.mem_append, List.mem_singleton] at hx
      rcases hx with hx | hx
      · exact h x hx
      · rw [hx]; exact hn _ _ _
  | getOrder id =>
    simp only [handle, getOrder_store] at hx; exact h x hx
  | updateStatus id body =>
    rcases updateStatus_shape env user id body db with ⟨_, h2⟩ | ⟨o, hf, _, h2⟩
    · simp only [handle, h2] at hx; exact h x hx
    · simp only [handle, h2] at hx
      rcases Db.mem_replaceOrder hx with hx | hx
      · rw [hx]; exact hs _ _ _ _ (hfound _ o hf)
      · exact h x hx
  | processPayment id body =>
    rcases processPayment_shape env user id body db with h2 | ⟨o, hf, h2 | ⟨p, h2⟩⟩
    · simp only [handle, h2] at hx; exact h x hx
    · simp only [handle, h2] at hx
      rcases Db.mem_replaceOrder hx with hx | hx
      · rw [hx]; exact hp _ _ (hfound _ o hf)
      · exact h x hx
    · simp only [handle, h2] at hx
      rcases @Db.mem_replaceOrder db _ _ hx with hx | hx
      · rw [hx]; exact hp _ _ (hfound _ o hf)
      · exact h x hx
  | cancelOrder id body =>
    rcases cancelOrder_shape env user id body db with ⟨_, h2⟩ | ⟨o, hf, _, h2⟩
    · simp only [handle, h2] at hx; exact h x hx
    · simp only [handle, h2] at hx
      rcases Db.mem_replaceOrder hx with hx | hx
      · rw [hx]; exact hs _ _ _ _ (hfound _ o hf)
      · exact h x hx

/-- The stored order after the payment route: as before, or with the payment. -/
theorem processPayment_find {env : Env} {user : User} {id : ObjectId} {body : PaymentDetails}
    {db : Db} {o : Order} (hf : db.findOrder id = some o) :
    (processPayment env user id body db).2.findOrder id = some o
      ∨ (processPayment env user id body db).2.findOrder id
        = some (o.withPayment body.sanitize) := by
  have hid : (o.withPayment body.sanitize)._id = id :=
    (Order.withPayment_frame _ _).1.trans (Db.findOrder_id hf)
  have hself : (db.replaceOrder (o.withPayment body.sanitize)).findOrder id
      = some (o.withPayment body.sanitize) := by
    rw [Db.findOrder_replaceOrder_self hf hid,
      Order.withPayment_hydrate _ (Db.findOrder_hydrate hf)]
  rcases processPayment_shape env user id body db with h2 | ⟨o2, hf2, h2 | ⟨p, h2⟩⟩
  · rw [h2]; exact Or.inl hf
  · have e : o = o2 := by rw [hf] at hf2; exact Option.some.inj hf2
    subst e
    rw [h2]; exact Or.inr hself
  · have e : o = o2 := by rw [hf] at hf2; exact Option.some.inj hf2
    subst e
    rw [h2, Db.findOrder_replaceProduct]; exact Or.inr hself

/-- The create route leaves every stored order as it was. -/
theorem createOrder_find {env : Env} {user : User} {body : CreateOrderBody} {db : Db}
    {id : ObjectId} {o : Order} (hf : db.findOrder id = some o) :
    (createOrder env user body db).2.findOrder id = some o := by
  rcases createOrder_shape env user body db with ⟨_, _, h2⟩ | ⟨p, s, _, _, h2⟩
  · rw [h2]; exact hf
  · rw [h2]; exact Db.findOrder_insertOrder hf

/-! ## Lemmas on the product hooks -/

theorem foldl_rating (l : List Review) (a : Int) :
    l.foldl (fun sum review => sum + review.rating) a = a + (l.map Review.rating).sum := by
  induction l generalizing a with
  | nil => simp
  | cons r rs ih => simp [ih, add_assoc]

/-- The rating hook writes the mean of the ratings and the count of the reviews. -/
theorem Product.preSaveRating_spec (p : Product) :
    p.preSaveRating.averageRating = specMean (p.reviews.map Review.rating)
      ∧ p.preSaveRating.totalReviews = p.reviews.length
      ∧ p.preSaveRating.reviews = p.reviews := by
  unfold Product.preSaveRating specMean
  cases hr : p.reviews with
  | nil => simp
  | cons r rs =>
    simp only [List.length_cons, Nat.zero_lt_succ, if_true, List.map_cons, reduceCtorEq, if_false,
      List.length_map, and_true]
    rw [foldl_rating]
    simp

theorem Product.preSave_rating (nameModified : Bool) (hookNow : Timestamp) (p : Product) :
    (p.preSave nameModified hookNow).averageRating = specMean (p.reviews.map Review.rating)
      ∧ (p.preSave nameModified hookNow).totalReviews = p.reviews.length
      ∧ (p.preSave nameModified hookNow).reviews = p.reviews := by
  have h1 : (p.preSaveSlug nameModified hookNow).reviews = p.reviews := by
    unfold Product.preSaveSlug; cases nameModified <;> rfl
  have h2 := Product.preSaveRating_spec (p.preSaveSlug nameModified hookNow)
  rw [h1] at h2
  have h3 : ∀ q : Product, q.preSaveStock.averageRating = q.averageRating
      ∧ q.preSaveStock.totalReviews = q.totalReviews ∧ q.preSaveStock.reviews = q.reviews := by
    intro q
    unfold Product.preSaveStock
    split_ifs <;> simp
  unfold Product.preSave
  obtain ⟨a, b, c⟩ := h3 (p.preSaveSlug nameModified hookNow).preSaveRating
  rw [a, b, c]
  exact h2

/-! ## Stored orders along a run -/

/-- A stored order, as `findById` reads it, after any request: as before, or with the
assignments of one of the two methods. -/
theorem handle_find (env : Env) (user : User) (req : Request) (db : Db) (id : ObjectId)
    (o : Order) (hf : db.findOrder id = some o) :
    ∃ o1, (handle env user req db).2.findOrder id = some o1
      ∧ (o1 = o ∨ (∃ now s n, o1 = (o.withStatus now s n).hydrate)
        ∨ ∃ d, o1 = o.withPayment d) := by
  cases req with
  | createOrder body => exact ⟨o, createOrder_find hf, Or.inl rfl⟩
  | getOrder id2 =>
    refine ⟨o, ?_, Or.inl rfl⟩
    simp only [handle, getOrder_store]; exact hf
  | processPayment id2 body =>
    by_cases hid : id = id2
    · subst hid
      rcases @processPayment_find env user id body db o hf with h1 | h1
      · exact ⟨o, h1, Or.inl rfl⟩
      · exact ⟨_, h1, Or.inr (Or.inr ⟨_, rfl⟩)⟩
    · refine ⟨o, ?_, Or.inl rfl⟩
      simp only [handle]
      rw [processPayment_others env user id2 body db id hid]; exact hf
  | cancelOrder id2 body =>
    by_cases hid : id = id2
    · subst hid
      rcases cancelOrder_shape env user id body db with ⟨_, h2⟩ | ⟨o2, hf2, h1, _⟩
      · refine ⟨o, ?_, Or.inl rfl⟩
        simp only [handle, h2]; exact hf
      · exact ⟨_, (cancelOrder_after hf h1).2.2.2,
          Or.inr (Or.inl ⟨_, _, _, (Order.withStatus_hydrate _ _ _ _).symm⟩)⟩
    · refine ⟨o, ?_, Or.inl rfl⟩
      simp only [handle]
      rw [cancelOrder_others env user id2 body db id hid]; exact hf
  | updateStatus id2 body =>
    by_cases hid : id = id2
    · subst hid
      rcases updateStatus_shape env user id body db with ⟨_, h2⟩ | ⟨o2, hf2, h1, _⟩
      · refine ⟨o, ?_, Or.inl rfl⟩
        simp only [handle, h2]; exact hf
      · exact ⟨_, (updateStatus_after hf h1).2, Or.inr (Or.inl ⟨_, _, _, rfl⟩)⟩
    · refine ⟨o, ?_, Or.inl rfl⟩
      simp only [handle]
      rw [updateStatus_others env user id2 body db id hid]; exact hf

/-- A property of a stored order that the assignments of the two methods and the reading
of a stored document keep holds of that order after every sequence of requests. -/
theorem run_find (P : Order → Prop)
    (hs : ∀ (now : Timestamp) (s : Option OrderStatus) (n : Option String) (o : Order),
      P o → P (o.withStatus now s n))
    (hp : ∀ (d : PaymentDetails) (o : Order), P o → P (o.withPayment d))
    (hh : ∀ o : Order, P o → P o.hydrate)
    (steps : List (Env × User × Request)) (db : Db) (id : ObjectId) (o : Order)
    (hf : db.findOrder id = some o) (h : P o) :
    ∃ o1, (run db steps).findOrder id = some o1 ∧ P o1 := by
  induction steps generalizing db o with
  | nil => exact ⟨o, hf, h⟩
  | cons step rest ih =>
    obtain ⟨env, user, req⟩ := step
    obtain ⟨o1, hf1, hcase⟩ := handle_find env user req db id o hf
    refine ih _ o1 hf1 ?_
    rcases hcase with rfl | ⟨now, s, n, rfl⟩ | ⟨d, rfl⟩
    · exact h
    · exact hh _ (hs _ _ _ _ h)
    · exact hp _ _ h

/-- A create request that is not answered with success writes nothing. -/
theorem createOrder_fail_store (env : Env) (user : User) (body : CreateOrderBody) (db : Db)
    (h : (createOrder env user body db).1.success = false) :
    (createOrder env user body db).2 = db := by
  cases hv : createOrderValidation body
  · rw [createOrder_invalid hv]
  · rw [createOrder_eq hv] at h ⊢
    cases hfp : db.findProduct body.productId with
    | none => rfl
    | some q =>
      simp only [hfp] at h ⊢
      by_cases hst : q.status = ProductStatus.active
      · by_cases hq : q.stockQuantity < body.quantity
        · simp [hst, hq]
        · cases hu : db.findUser q.seller with
          | none => simp [hst, hq]
          | some t =>
            by_cases hself : t._id = user._id
            · simp [hst, hq, hself]
            · cases hsave : (newOrder env user body.sanitize q t).save true true env db with
              | none => simp [hst, hq, hself, hsave]
              | some r => simp [hst, hq, hu, hself, hsave] at h
      · simp [hst]

/-! ## Lemmas on the stock and review methods -/

theorem Product.preSave_status (nameModified : Bool) (hookNow : Timestamp) (p : Product) :
    (p.preSave nameModified hookNow).status
      = if p.stockQuantity = 0 ∧ p.status = ProductStatus.active then ProductStatus.out_of_stock
        else if 0 < p.stockQuantity ∧ p.status = ProductStatus.out_of_stock then
          ProductStatus.active
        else p.status := by
  unfold Product.preSave Product.preSaveStock Product.preSaveRating Product.preSaveSlug
  cases nameModified <;> dsimp only <;> split_ifs <;> simp_all

theorem Product.withUpdatedStock_frame (a : Int) (op : StockOperation) (p : Product) :
    p.withUpdatedStock a op = p.withStock (p.withUpdatedStock a op).stockQuantity := by
  unfold Product.withUpdatedStock
  split_ifs <;> rfl

theorem Product.withStock_validate_of_nonneg {p : Product} (h : p.validate = true) {q : Int}
    (hq : 0 ≤ q) : (p.withStock q).validate = true := by
  have := Product.withStock_validate h q
  rwa [max_eq_right hq] at this

/-! ## Lemmas on the middleware -/

theorem authorize_some (roles : List String) (u : User) :
    authorize roles (some u)
      = if u.role.text ∈ roles then Outcome.next ()
        else Outcome.respond (Response.error 403
          ("Access denied. Required role: " ++ " or ".intercalate roles ++ ". Your role: "
            ++ u.role.text)) := by
  unfold authorize
  by_cases h : u.role.text ∈ roles <;> simp [h]

theorem requireSeller_seller {u : User} (h : u.role = Role.seller) :
    requireSeller (some u) = Outcome.next () := by
  rw [requireSeller, authorize_some, h]; rfl

theorem requireSeller_buyer {u : User} (h : u.role = Role.buyer) :
    requireSeller (some u) = Outcome.respond (Response.error 403
      "Access denied. Required role: seller. Your role: buyer") := by
  rw [requireSeller, authorize_some, h]; rfl

theorem checkOwnership_product {user : User} {id : ObjectId} {db : Db} {p : Product}
    (hf : db.findProduct id = some p) :
    checkOwnership productModel user id db
      = if p.seller ≠ user._id then
          Outcome.respond
            (Response.error 403 "Access denied. You can only access your own resources.")
        else Outcome.next p := by
  unfold checkOwnership
  have h1 : productModel.findById db id = some p := hf
  simp only [h1]
  by_cases hs : p.seller = user._id <;> simp [productModel, hs]

theorem checkOwnership_product_none {user : User} {id : ObjectId} {db : Db}
    (hf : db.findProduct id = none) :
    checkOwnership productModel user id db
      = Outcome.respond (Response.error 404 "Resource not found") := by
  unfold checkOwnership
  have h1 : productModel.findById db id = none := hf
  simp only [h1]

/-! ## Lemmas on the product routes -/

/-- The stock route for the seller who owns the product. -/
theorem updateStock_eq {env : Env} {user : User} {id : ObjectId} {body : StockBody} {w : World}
    {p : Product} (hr : user.role = Role.seller) (hf : w.db.findProduct id = some p)
    (hs : p.seller = user._id) :
    updateStock env user id body w =
      if !stockValidation body then (validationFailed, w)
      else if (p.withUpdatedStock body.quantity (body.operation.getD StockOperation.set)).validate
      then
        ({ status := 200, success := true, message := some "Stock updated successfully"
           product := some ((p.withUpdatedStock body.quantity
              (body.operation.getD StockOperation.set)).preSave false env.hookNow) },
          { w with db := w.db.replaceProduct ((p.withUpdatedStock body.quantity
              (body.operation.getD StockOperation.set)).preSave false env.hookNow) })
      else (Response.error 500 "Server error while updating stock", w) := by
  unfold updateStock
  simp only [requireSeller_seller hr, checkOwnership_product hf, hs, ne_eq, not_true_eq_false,
    if_false, Product.updateStock, Product.save_eq]
  cases stockValidation body
  · simp
  · cases (p.withUpdatedStock body.quantity (body.operation.getD StockOperation.set)).validate
      <;> simp

/-- A stock update answered 200 was made by the owning seller. -/
theorem updateStock_ok {env : Env} {user : User} {id : ObjectId} {body : StockBody} {w : World}
    (h : (updateStock env user id body w).1.status = 200) :
    user.role = Role.seller ∧ stockValidation body = true
      ∧ ∃ p, w.db.findProduct id = some p ∧ p.seller = user._id := by
  have hr : user.role = Role.seller := by
    cases hrole : user.role
    · unfold updateStock at h
      simp [requireSeller_buyer hrole] at h
    · rfl
  cases hf : w.db.findProduct id with
  | none =>
    unfold updateStock at h
    simp [requireSeller_seller hr, checkOwnership_product_none hf] at h
  | some p =>
    by_cases hs : p.seller = user._id
    · refine ⟨hr, ?_, p, rfl, hs⟩
      rw [updateStock_eq hr hf hs] at h
      cases hv : stockValidation body
      · simp [hv] at h
      · rfl
    · unfold updateStock at h
      simp [requireSeller_seller hr, checkOwnership_product hf, hs] at h

theorem updateFirstReview_user (userId : ObjectId) (f : Review → Review)
    (hf : ∀ x, (f x).user = x.user) (l : List Review) :
    (updateFirstReview userId f l).map Review.user = l.map Review.user := by
  induction l with
  | nil => rfl
  | cons x xs ih =>
    unfold updateFirstReview
    by_cases h : x.user = userId
    · simp [h, hf]
    · simp [h, ih]

theorem updateFirstReview_length (userId : ObjectId) (f : Review → Review) (l : List Review) :
    (updateFirstReview userId f l).length = l.length := by
  induction l with
  | nil => rfl
  | cons x xs ih =>
    unfold updateFirstReview
    by_cases h : x.user = userId
    · simp [h]
    · simp [h, ih]

theorem updateFirstReview_others (userId : ObjectId) (f : Review → Review)
    (hf : ∀ x, (f x).user = x.user) (l : List Review) :
    (updateFirstReview userId f l).filter (fun x => decide (x.user ≠ userId))
      = l.filter (fun x => decide (x.user ≠ userId)) := by
  induction l with
  | nil => rfl
  | cons x xs ih =>
    unfold updateFirstReview
    by_cases h : x.user = userId
    · simp [h, hf]
    · simpa [h] using ih

theorem updateFirstReview_mem (userId : ObjectId) (f : Review → Review)
    (l : List Review) (hn : (l.map Review.user).Nodup)
    (y : Review) (hy : y ∈ updateFirstReview userId f l) (hu : y.user = userId) :
    ∃ x ∈ l, x.user = userId ∧ y = f x := by
  induction l with
  | nil => simp [updateFirstReview] at hy
  | cons x xs ih =>
    unfold updateFirstReview at hy
    simp only [List.map_cons, List.nodup_cons] at hn
    by_cases h : x.user = userId
    · simp only [h, if_true, List.mem_cons] at hy
      rcases hy with hy | hy
      · exact ⟨x, List.mem_cons_self _ _, h, hy⟩
      · exfalso
        apply hn.1
        rw [h, ← hu]
        exact List.mem_map_of_mem _ hy
    · simp only [h, if_false, List.mem_cons] at hy
      rcases hy with hy | hy
      · rw [hy] at hu; exact absurd hu h
      · obtain ⟨z, hz, hzu, hzy⟩ := ih hn.2 hy
        exact ⟨z, List.mem_cons_of_mem _ hz, hzu, hzy⟩

theorem updateFirstReview_exists (userId : ObjectId) (f : Review → Review) (l : List Review)
    (h : ∃ x ∈ l, x.user = userId) :
    ∃ x ∈ l, x.user = userId ∧ f x ∈ updateFirstReview userId f l := by
  induction l with
  | nil => simp at h
  | cons x xs ih =>
    unfold updateFirstReview
    by_cases hx : x.user = userId
    · exact ⟨x, List.mem_cons_self _ _, hx, by simp [hx]⟩
    · obtain ⟨z, hz, hzu⟩ := h
      have hz2 : z ∈ xs := by
        rcases List.mem_cons.mp hz with hz | hz
        · rw [hz] at hzu; exact absurd hzu hx
        · exact hz
      obtain ⟨v, hv, hvu, hvm⟩ := ih ⟨z, hz2, hzu⟩
      exact ⟨v, List.mem_cons_of_mem _ hv, hvu, by simp [hx, hvm]⟩

/-- The two cases of the assignments of `addReview`. -/
theorem Product.withReview_reviews (now : Timestamp) (userId : ObjectId) (rating : Int)
    (comment : Option String) (p : Product) :
    ((∃ x ∈ p.reviews, x.user = userId) →
        (p.withReview now userId rating comment).reviews = updateFirstReview userId
          (fun review => { review with rating := rating, comment := comment, createdAt := now })
          p.reviews)
      ∧ ((∀ x ∈ p.reviews, x.user ≠ userId) →
        (p.withReview now userId rating comment).reviews = p.reviews ++
          [{ user := userId, rating := rating, comment := comment, createdAt := now }]) := by
  unfold Product.withReview
  constructor
  · intro h
    cases hfind : p.reviews.find? (fun review => decide (review.user = userId)) with
    | none =>
      exfalso
      obtain ⟨x, hx, hxu⟩ := h
      have := List.find?_eq_none.mp hfind x hx
      simp [hxu] at this
    | some r => rfl
  · intro h
    cases hfind : p.reviews.find? (fun review => decide (review.user = userId)) with
    | none => rfl
    | some r =>
      exfalso
      have h1 := List.find?_some hfind
      have h2 := List.mem_of_find?_eq_some hfind
      simp only [decide_eq_true_eq] at h1
      exact h r h2 h1

theorem updateFirstReview_all (userId : ObjectId) (f : Review → Review) (P : Review → Bool)
    (l : List Review) (h : l.all P = true) (hf : ∀ x ∈ l, P (f x) = true) :
    (updateFirstReview userId f l).all P = true := by
  induction l with
  | nil => rfl
  | cons r rs ih =>
    simp only [List.all_cons, Bool.and_eq_true] at h
    unfold updateFirstReview
    split
    · simp only [List.all_cons, Bool.and_eq_true]
      exact ⟨hf r (List.mem_cons_self _ _), h.2⟩
    · simp only [List.all_cons, Bool.and_eq_true]
      exact ⟨h.1, ih h.2 fun x hx => hf x (List.mem_cons_of_mem _ hx)⟩

/-- A valid product with a review that the schema accepts is a valid product. -/
theorem Product.withReview_validate {p : Product} (now : Timestamp) (userId : ObjectId)
    (rating : Int) (comment : Option String) (h : p.validate = true) (h1 : 1 ≤ rating)
    (h5 : rating ≤ 5) (hc : maxlength 500 comment = true) :
    (p.withReview now userId rating comment).validate = true := by
  have hnew : (decide (1 ≤ rating) && decide (rating ≤ 5) && maxlength 500 comment) = true := by
    simp [h1, h5, hc]
  unfold Product.withReview
  simp only [Product.validate, Bool.and_eq_true] at h
  obtain ⟨⟨⟨⟨⟨⟨⟨⟨⟨a1, a2⟩, a3⟩, a4⟩, a5⟩, a6⟩, a7⟩, a8⟩, a9⟩, a10⟩ := h
  cases p.reviews.find? (fun review => decide (review.user = userId)) with
  | some _ =>
    simp only [Product.validate, Bool.and_eq_true]
    refine ⟨⟨⟨⟨⟨⟨⟨⟨⟨a1, a2⟩, a3⟩, a4⟩, a5⟩, a6⟩, a7⟩, ?_⟩, a9⟩, a10⟩
    exact updateFirstReview_all _ _ _ _ a8 (fun x _ => hnew)
  | none =>
    simp only [Product.validate, Bool.and_eq_true]
    refine ⟨⟨⟨⟨⟨⟨⟨⟨⟨a1, a2⟩, a3⟩, a4⟩, a5⟩, a6⟩, a7⟩, ?_⟩, a9⟩, a10⟩
    rw [List.all_append, a8]
    simpa using hnew

theorem Product.withReview_frame (now : Timestamp) (userId : ObjectId) (rating : Int)
    (comment : Option String) (p : Product) :
    (p.withReview now userId rating comment)._id = p._id
      ∧ (p.withReview now userId rating comment).seller = p.seller
      ∧ (p.withReview now userId rating comment).stockQuantity = p.stockQuantity := by
  unfold Product.withReview
  cases p.reviews.find? (fun review => decide (review.user = userId)) <;> simp

theorem addReview_invalid {env : Env} {user : User} {id : ObjectId} {body : ReviewBody}
    {db : Db} (hv : reviewValidation body = false) :
    addReview env user id body db = (validationFailed, db) := by
  simp [addReview, hv]

/-- The review route on a valid body and a stored product. -/
theorem addReview_eq {env : Env} {user : User} {id : ObjectId} {body : ReviewBody} {db : Db}
    {p : Product} (hv : reviewValidation body = true) (hf : db.findProduct id = some p) :
    addReview env user id body db =
      if p.seller = user._id then (Response.error 400 "You cannot review your own product", db)
      else if (p.withReview env.now user._id body.rating (trimField body.comment)).validate then
        ({ status := 201, success := true, message := some "Review added successfully"
           product := some ((p.withReview env.now user._id body.rating
              (trimField body.comment)).preSave false env.hookNow) },
          db.replaceProduct ((p.withReview env.now user._id body.rating
              (trimField body.comment)).preSave false env.hookNow))
      else (Response.error 500 "Server error while adding review", db) := by
  unfold addReview
  simp only [hv, hf, Bool.not_true, Bool.false_eq_true, if_false, Product.addReview,
    Product.save_eq, ReviewBody.sanitize]
  by_cases hs : p.seller = user._id
  · simp [hs]
  · cases (p.withReview env.now user._id body.rating (trimField body.comment)).validate
      <;> simp [hs]

/-- The outcome of `authenticate` once the token of the request is known. -/
theorem authenticate_token {verify : String → Option ObjectId} {req : AuthRequest} {db : Db}
    {token : String} (ht : requestToken req = some token) (hne : token ≠ "") :
    authenticate verify req db =
      match verify token with
      | none => Outcome.respond (Response.error 401 "Invalid token")
      | some id =>
        match db.findUser id with
        | none => Outcome.respond (Response.error 401 "Token is valid but user not found")
        | some user =>
          if user.isActive then Outcome.next user
          else Outcome.respond (Response.error 401 "Account has been deactivated") := by
  unfold authenticate
  simp only [ht, hne, if_false]
  rcases verify token with _ | id
  · rfl
  · rcases hu : db.findUser id with _ | user
    · simp [hu]
    · cases ha : user.isActive <;> simp [hu, ha]

/-- The outcome of `optionalAuth` once the token of the request is known. -/
theorem optionalAuth_token {verify : String → Option ObjectId} {req : AuthRequest} {db : Db}
    {token : String} (ht : requestToken req = some token) (hne : token ≠ "") :
    optionalAuth verify req db =
      match verify token with
      | none => Outcome.next none
      | some id =>
        match db.findUser id with
        | none => Outcome.next none
        | some user => if user.isActive then Outcome.next (some user) else Outcome.next none := by
  unfold optionalAuth
  simp only [ht, hne, if_false]

/-- Without a token `authenticate` answers 401. -/
theorem authenticate_no_token {verify : String → Option ObjectId} {req : AuthRequest} {db : Db}
    (ht : requestToken req = none ∨ requestToken req = some "") :
    authenticate verify req db
      = Outcome.respond (Response.error 401 "Access denied. No token provided.") := by
  unfold authenticate
  rcases ht with ht | ht <;> simp [ht]

/-- Without a token `optionalAuth` goes on without a principal. -/
theorem optionalAuth_no_token {verify : String → Option ObjectId} {req : AuthRequest} {db : Db}
    (ht : requestToken req = none ∨ requestToken req = some "") :
    optionalAuth verify req db = Outcome.next none := by
  unfold optionalAuth
  rcases ht with ht | ht <;> simp [ht]

/-- A request has no token, or it has a token that is not the empty text. -/
theorem requestToken_cases (req : AuthRequest) :
    (requestToken req = none ∨ requestToken req = some "")
      ∨ ∃ token, requestToken req = some token ∧ token ≠ "" := by
  cases h : requestToken req with
  | none => exact Or.inl (Or.inl rfl)
  | some token =>
    by_cases hne : token = ""
    · exact Or.inl (Or.inr (by rw [hne]))
    · exact Or.inr ⟨token, rfl, hne⟩

/-- The three seller routes of a product share their first two steps; for a principal who
is not the seller of the product these steps end in a 403 and the routes hand it back with
the world they were given. -/
theorem not_owner_refused {user : User} {id : ObjectId} {w : World} {p : Product}
    (hf : w.db.findProduct id = some p) (hs : p.seller ≠ user._id) :
    ∃ r : Response, r.status = 403 ∧ r.success = false
      ∧ (user.role = Role.seller →
          r = Response.error 403 "Access denied. You can only access your own resources.")
      ∧ (∀ env body files, updateProduct env user id body files w = (r, w))
      ∧ deleteProduct user id w = (r, w)
      ∧ ∀ env body, updateStock env user id body w = (r, w) := by
  cases hr : user.role with
  | buyer =>
    refine ⟨Response.error 403 "Access denied. Required role: seller. Your role: buyer",
      rfl, rfl, (fun h => by cases h), fun env body files => ?_, ?_, fun env body => ?_⟩
    · simp only [updateProduct, requireSeller_buyer hr]
    · simp only [deleteProduct, requireSeller_buyer hr]
    · simp only [updateStock, requireSeller_buyer hr]
  | seller =>
    have h2 : checkOwnership productModel user id w.db = Outcome.respond
        (Response.error 403 "Access denied. You can only access your own resources.") := by
      rw [checkOwnership_product hf, if_pos hs]
    refine ⟨Response.error 403 "Access denied. You can only access your own resources.",
      rfl, rfl, fun _ => rfl, fun env body files => ?_, ?_, fun env body => ?_⟩
    · simp only [updateProduct, requireSeller_seller hr, h2]
    · simp only [deleteProduct, requireSeller_seller hr, h2]
    · simp only [updateStock, requireSeller_seller hr, h2]

/-! ## Lemmas on the rate limiter -/

/-- One request at the limiter, in terms of the entries that survive the cleaning. -/
theorem rateLimit_eq (m w : Nat) (log : RequestLog) (i : String) (t : Timestamp) :
    rateLimit m w log i t =
      if m ≤ (((log i).getD []).filter (recent w t)).length then
        (some { status := 429, success := false
                message := "Too many requests. Please try again later."
                retryAfter := (w + 999) / 1000 },
          match log i with
          | some _ => Function.update log i (some (((log i).getD []).filter (recent w t)))
          | none => log)
      else (none, Function.update log i (some (((log i).getD []).filter (recent w t) ++ [t]))) := by
  unfold rateLimit
  cases h : log i with
  | none => simp [h]
  | some times =>
    simp only [Function.update_same, Option.getD_some, ge_iff_le, Function.update_idem]
    rfl

theorem rateLimit_flag (m w : Nat) (log : RequestLog) (i : String) (t : Timestamp) :
    (rateLimit m w log i t).1.isNone
      = decide ((((log i).getD []).filter (recent w t)).length < m) := by
  rw [rateLimit_eq]
  split_ifs with h
  · simp [h]
  · simp [Nat.lt_of_not_le h]

theorem rateLimit_entry (m w : Nat) (log : RequestLog) (i : String) (t : Timestamp) :
    ((rateLimit m w log i t).2 i).getD []
      = if m ≤ (((log i).getD []).filter (recent w t)).length
        then ((log i).getD []).filter (recent w t)
        else ((log i).getD []).filter (recent w t) ++ [t] := by
  rw [rateLimit_eq]
  split_ifs with h
  · cases h1 : log i with
    | none => simp [h1]
    | some times => simp
  · simp

theorem rateLimit_other (m w : Nat) (log : RequestLog) (i j : String) (t : Timestamp)
    (hj : j ≠ i) : (rateLimit m w log j t).2 i = log i := by
  rw [rateLimit_eq]
  split_ifs with h
  · cases h1 : log j with
    | none => rfl
    | some times => simp [Function.update_noteq (Ne.symm hj)]
  · simp [Function.update_noteq (Ne.symm hj)]

theorem filter_recent_later (w : Nat) {t t1 : Timestamp} (h : t ≤ t1) (l : List Timestamp) :
    (l.filter (recent w t)).filter (recent w t1) = l.filter (recent w t1) := by
  rw [List.filter_filter]
  apply List.filter_congr
  intro a _
  have ht : (t : Int) ≤ t1 := by exact_mod_cast h
  cases h1 : recent w t1 a with
  | false => simp
  | true =>
    have h2 : recent w t a = true := by
      simp only [recent, decide_eq_true_eq] at h1 ⊢
      omega
    simp [h2]

/-- Along requests of one identifier with clock readings that do not decrease, the limiter
decides as the specification states. -/
theorem rateLimitRun_spec (m w : Nat) (i : String) :
    ∀ (times : List Timestamp) (log : RequestLog) (acc : List Timestamp) (lo : Timestamp),
      (∀ t1, lo ≤ t1 →
        ((log i).getD []).filter (recent w t1) = acc.filter (recent w t1)) →
      List.Chain (· ≤ ·) lo times →
      (rateLimitRun m w log (times.map (Prod.mk i))).1 = specDecisions m w acc times := by
  intro times
  induction times with
  | nil => intro log acc lo _ _; rfl
  | cons t ts ih =>
    intro log acc lo hinv hch
    rw [List.chain_cons] at hch
    obtain ⟨hlo, hch⟩ := hch
    simp only [List.map_cons, rateLimitRun, specDecisions]
    rw [rateLimit_flag, hinv t hlo]
    have hstep : ∀ acc1, (acc1 = if m ≤ (acc.filter (recent w t)).length then acc else acc ++ [t]) →
        ∀ t1, t ≤ t1 →
          (((rateLimit m w log i t).2 i).getD []).filter (recent w t1)
            = acc1.filter (recent w t1) := by
      intro acc1 hacc t1 ht1
      rw [rateLimit_entry, hinv t hlo, hacc]
      split_ifs with h
      · rw [filter_recent_later w ht1]
      · rw [List.filter_append, List.filter_append, filter_recent_later w ht1]
    by_cases h : m ≤ (acc.filter (recent w t)).length
    · rw [if_pos h]
      have hd : decide ((acc.filter (recent w t)).length < m) = false := by
        simp [h]
      rw [hd, ih _ acc t (hstep acc (by rw [if_pos h])) hch]
    · rw [if_neg h]
      have hd : decide ((acc.filter (recent w t)).length < m) = true := by
        simp [Nat.lt_of_not_le h]
      rw [hd, ih _ (acc ++ [t]) t (hstep (acc ++ [t]) (by rw [if_neg h])) hch]

theorem specDecisions_length (m w : Nat) :
    ∀ (times acc : List Timestamp), (specDecisions m w acc times).length = times.length := by
  intro times
  induction times with
  | nil => intro acc; rfl
  | cons t ts ih =>
    intro acc
    simp only [specDecisions]
    split_ifs <;> simp [ih]

/-- The decision of the specification on one request of a sequence. -/
theorem specDecisions_get (m w : Nat) :
    ∀ (pre acc : List Timestamp) (t : Timestamp) (post : List Timestamp),
      (specDecisions m w acc (pre ++ t :: post)).get? pre.length
        = some (decide (((acc ++ acceptedTimes pre
            (specDecisions m w acc (pre ++ t :: post))).filter (recent w t)).length < m)) := by
  intro pre
  induction pre with
  | nil =>
    intro acc t post
    simp only [List.nil_append, specDecisions, List.length_nil]
    split_ifs with h
    · simp [acceptedTimes, h]
    · simp [acceptedTimes, Nat.lt_of_not_le h]
  | cons s pre ih =>
    intro acc t post
    simp only [List.cons_append, specDecisions, List.length_cons, List.append_eq]
    split_ifs with h
    · simp only [List.get?_cons_succ, acceptedTimes]
      exact ih acc t post
    · simp only [List.get?_cons_succ, acceptedTimes]
      rw [ih (acc ++ [s]) t post, List.append_assoc]
      rfl

/-- The requests the specification passes on never exceed the cap within a window. -/
theorem specDecisions_window (m w : Nat) :
    ∀ (times acc : List Timestamp),
      (∀ t : Int, (acc.filter (inWindow w t)).length ≤ m) →
      ∀ t : Int, ((acc ++ acceptedTimes times (specDecisions m w acc times)).filter
        (inWindow w t)).length ≤ m := by
  intro times
  induction times with
  | nil =>
    intro acc hacc t
    simpa [specDecisions, acceptedTimes] using hacc t
  | cons s ts ih =>
    intro acc hacc t
    simp only [specDecisions]
    split_ifs with h
    · simp only [acceptedTimes]
      exact ih acc hacc t
    · simp only [acceptedTimes]
      have e : acc ++ s :: acceptedTimes ts (specDecisions m w (acc ++ [s]) ts)
          = (acc ++ [s]) ++ acceptedTimes ts (specDecisions m w (acc ++ [s]) ts) := by
        simp
      rw [e]
      refine ih (acc ++ [s]) ?_ t
      intro t1
      rw [List.filter_append, List.length_append]
      cases hs : inWindow w t1 s with
      | false =>
        simp only [List.filter_cons, hs, List.filter_nil]
        simpa using hacc t1
      | true =>
        have hle : (acc.filter (inWindow w t1)).length ≤ (acc.filter (recent w s)).length := by
          rw [← List.countP_eq_length_filter, ← List.countP_eq_length_filter]
          apply List.countP_mono_left
          intro a _ ha
          simp only [inWindow, Bool.and_eq_true, decide_eq_true_eq] at ha hs
          simp only [recent, decide_eq_true_eq]
          omega
        simp only [List.filter_cons, hs, List.filter_nil, if_true, List.length_singleton]
        omega

theorem filter_identifier (i : String) (reqs : List (String × Timestamp)) :
    reqs.filter (fun r => decide (r.1 = i)) = (timesOf i reqs).map (Prod.mk i) := by
  unfold timesOf
  induction reqs with
  | nil => rfl
  | cons r rs ih =>
    obtain ⟨j, t⟩ := r
    by_cases h : j = i
    · subst h
      simp only [List.filter_cons, decide_True, if_true, List.map_cons]
      congr 1
    · simp only [List.filter_cons, h, decide_False, Bool.false_eq_true, if_false]
      exact ih

/-- The decisions on the requests of one identifier are those of a run with only these
requests. -/
theorem rateLimitRun_others (m w : Nat) (i : String) :
    ∀ (reqs : List (String × Timestamp)) (log log1 : RequestLog),
      (log i).getD [] = (log1 i).getD [] →
      decisionsOf i reqs (rateLimitRun m w log reqs).1
        = (rateLimitRun m w log1 (reqs.filter fun r => decide (r.1 = i))).1 := by
  intro reqs
  induction reqs with
  | nil => intro log log1 _; rfl
  | cons r rs ih =>
    intro log log1 hl
    obtain ⟨j, t⟩ := r
    by_cases h : j = i
    · subst h
      simp only [List.filter_cons, decide_True, if_true, rateLimitRun, decisionsOf]
      rw [rateLimit_flag, rateLimit_flag, hl]
      congr 1
      apply ih
      rw [rateLimit_entry, rateLimit_entry, hl]
    · simp only [List.filter_cons, h, decide_False, Bool.false_eq_true, if_false, rateLimitRun,
        decisionsOf]
      apply ih
      rw [rateLimit_other m w log i j t h, hl]

theorem retryAfter_ceil (w : Nat) : (w + 999) / 1000 = ⌈(w : ℚ) / 1000⌉₊ := by
  apply le_antisymm
  · have h1 : (w : ℚ) / 1000 ≤ (⌈(w : ℚ) / 1000⌉₊ : ℚ) := Nat.le_ceil _
    rw [div_le_iff₀ (by norm_num)] at h1
    have h2 : w ≤ ⌈(w : ℚ) / 1000⌉₊ * 1000 := by exact_mod_cast h1
    omega
  · rw [Nat.ceil_le, div_le_iff₀ (by norm_num)]
    have h2 : w ≤ (w + 999) / 1000 * 1000 := by omega
    exact_mod_cast h2

/-! ## Lemmas on the release of images -/

theorem deleteImage_eq {publicId : String} {cloud : Cloud} (h : publicId ∉ cloud.failing) :
    deleteImage publicId cloud
      = some { cloud with images := cloud.images.filter fun i => decide (i ≠ publicId) } := by
  simp [deleteImage, h]

theorem deleteImage_none {publicId : String} {cloud : Cloud} (h : publicId ∈ cloud.failing) :
    deleteImage publicId cloud = none := by
  simp [deleteImage, h]

/-- A loop of releases that all succeed removes the public ids from the media host. -/
theorem deleteImages_ok :
    ∀ (ids : List String) (cloud : Cloud), (∀ x ∈ ids, x ∉ cloud.failing) →
      deleteImages ids cloud
        = (true, { cloud with images := cloud.images.filter fun i => decide (i ∉ ids) }) := by
  intro ids
  induction ids with
  | nil => intro cloud _; simp [deleteImages]
  | cons id rest ih =>
    intro cloud h
    have h1 : id ∉ cloud.failing := h id (List.mem_cons_self _ _)
    rw [deleteImages, deleteImage_eq h1]
    simp only []
    rw [ih { cloud with images := cloud.images.filter fun i => decide (i ≠ id) }
      (fun x hx => h x (List.mem_cons_of_mem _ hx))]
    simp only [List.filter_filter, Prod.mk.injEq, true_and]
    congr 1
    apply List.filter_congr
    intro i _
    by_cases hi : i = id <;> simp [hi]

/-- A loop of releases stops at the first public id the media host refuses: the ids before
it are released, no other is. -/
theorem deleteImages_fail :
    ∀ (pre : List String) (k : String) (post : List String) (cloud : Cloud),
      (∀ x ∈ pre, x ∉ cloud.failing) → k ∈ cloud.failing →
      deleteImages (pre ++ k :: post) cloud
        = (false, { cloud with images := cloud.images.filter fun i => decide (i ∉ pre) }) := by
  intro pre
  induction pre with
  | nil =>
    intro k post cloud _ hk
    simp [deleteImages, deleteImage_none hk]
  | cons id rest ih =>
    intro k post cloud h hk
    have h1 : id ∉ cloud.failing := h id (List.mem_cons_self _ _)
    rw [List.cons_append, deleteImages, deleteImage_eq h1]
    simp only []
    rw [ih k post { cloud with images := cloud.images.filter fun i => decide (i ≠ id) }
      (fun x hx => h x (List.mem_cons_of_mem _ hx)) hk]
    simp only [List.filter_filter, Prod.mk.injEq, true_and]
    congr 1
    apply List.filter_congr
    intro i _
    by_cases hi : i = id <;> simp [hi]

/-- The delete route for the seller who owns the product. -/
theorem deleteProduct_eq {user : User} {id : ObjectId} {w : World} {p : Product}
    (hr : user.role = Role.seller) (hf : w.db.findProduct id = some p)
    (hs : p.seller = user._id) :
    deleteProduct user id w =
      match deleteImages (p.images.map Image.publicId) w.cloud with
      | (false, cloud1) =>
        (Response.error 500 "Server error while deleting product", { w with cloud := cloud1 })
      | (true, cloud1) =>
        ({ status := 200, success := true, message := some "Product deleted successfully" },
          { db := w.db.deleteProduct p._id, cloud := cloud1 }) := by
  unfold deleteProduct
  simp only [requireSeller_seller hr, checkOwnership_product hf, hs, ne_eq, not_true_eq_false,
    if_false]

theorem Db.findProduct_deleteProduct (db : Db) (id : ObjectId) :
    (db.deleteProduct id).findProduct id = none := by
  simp [Db.deleteProduct, Db.findProduct, List.find?_eq_none]

/-! ## Lemmas on characters -/

theorem isUpper_iff (c : Char) : c.isUpper = true ↔ 65 ≤ c.toNat ∧ c.toNat ≤ 90 := by
  simp only [Char.isUpper, Bool.and_eq_true, decide_eq_true_eq, ge_iff_le, UInt32.le_def,
    BitVec.le_def, Char.toNat, UInt32.toNat]
  rfl

theorem isLower_iff (c : Char) : c.isLower = true ↔ 97 ≤ c.toNat ∧ c.toNat ≤ 122 := by
  simp only [Char.isLower, Bool.and_eq_true, decide_eq_true_eq, ge_iff_le, UInt32.le_def,
    BitVec.le_def, Char.toNat, UInt32.toNat]
  rfl

theorem isDigit_iff (c : Char) : c.isDigit = true ↔ 48 ≤ c.toNat ∧ c.toNat ≤ 57 := by
  simp only [Char.isDigit, Bool.and_eq_true, decide_eq_true_eq, ge_iff_le, UInt32.le_def,
    BitVec.le_def, Char.toNat, UInt32.toNat]
  rfl

theorem isAlphanum_iff (c : Char) :
    c.isAlphanum = true ↔ (65 ≤ c.toNat ∧ c.toNat ≤ 90) ∨ (97 ≤ c.toNat ∧ c.toNat ≤ 122)
      ∨ (48 ≤ c.toNat ∧ c.toNat ≤ 57) := by
  simp only [Char.isAlphanum, Char.isAlpha, Bool.or_eq_true, isUpper_iff, isLower_iff,
    isDigit_iff, or_assoc]

theorem toLower_toNat (c : Char) :
    c.toLower.toNat = if 65 ≤ c.toNat ∧ c.toNat ≤ 90 then c.toNat + 32 else c.toNat := by
  unfold Char.toLower
  simp only [ge_iff_le]
  split_ifs with h
  · obtain ⟨h1, h2⟩ := h
    generalize c.toNat = n at *
    interval_cases n <;> rfl
  · rfl

theorem toNat_of_val {c : Char} {k : UInt32} (h : c.val = k) : c.toNat = k.toNat := by
  rw [← h]; rfl

theorem isSlugChar_iff (c : Char) :
    isSlugChar c = true ↔ (97 ≤ c.toNat ∧ c.toNat ≤ 122) ∨ (48 ≤ c.toNat ∧ c.toNat ≤ 57)
      ∨ c = '-' := by
  simp only [isSlugChar, Bool.or_eq_true, isLower_iff, isDigit_iff, decide_eq_true_eq, or_assoc]

theorem toLower_of_slugChar {c : Char} (h : isSlugChar c = true) : c.toLower = c := by
  rw [isSlugChar_iff] at h
  unfold Char.toLower
  simp only [ge_iff_le]
  rw [if_neg]
  rintro ⟨h1, h2⟩
  rcases h with h | h | h
  · omega
  · omega
  · subst h
    revert h1
    decide

theorem toLowerCase_of_slugChar {c : Char} (h : isSlugChar c = true) : toLowerCase c = [c] := by
  have hs := (isSlugChar_iff c).1 h
  have hn : c.toNat < 128 := by
    rcases hs with h | h | h
    · omega
    · omega
    · subst h; decide
  unfold toLowerCase
  rw [if_neg, if_neg, toLower_of_slugChar h]
  · intro hv
    have := toNat_of_val hv
    have e : (0x0130 : UInt32).toNat = 304 := rfl
    omega
  · intro hv
    have := toNat_of_val hv
    have e : (0x212A : UInt32).toNat = 8490 := rfl
    omega

/-- A letter or digit in the lower case of a character is a small letter or a digit. -/
theorem toLowerCase_alphanum {c x : Char} (hx : x ∈ toLowerCase c) (ha : x.isAlphanum = true) :
    isSlugChar x = true := by
  rw [isSlugChar_iff]
  unfold toLowerCase at hx
  split_ifs at hx with h1 h2
  · simp only [List.mem_singleton] at hx
    subst hx
    decide
  · simp only [List.mem_cons, List.mem_singleton, List.not_mem_nil, or_false] at hx
    rcases hx with hx | hx
    · subst hx; decide
    · subst hx
      revert ha
      decide
  · simp only [List.mem_singleton] at hx
    subst hx
    rw [isAlphanum_iff, toLower_toNat] at ha
    rw [toLower_toNat]
    split_ifs at ha ⊢ with h
    · omega
    · omega

/-! ## Lemmas on the slug -/

theorem replaced_slugChar (name : String) :
    ∀ y ∈ (name.toList.flatMap toLowerCase).map (fun c => if c.isAlphanum then c else '-'),
      isSlugChar y = true := by
  intro y hy
  rw [List.mem_map] at hy
  obtain ⟨x, hx, rfl⟩ := hy
  rw [List.mem_flatMap] at hx
  obtain ⟨c, _, hxc⟩ := hx
  by_cases ha : x.isAlphanum = true
  · rw [if_pos ha]
    exact toLowerCase_alphanum hxc ha
  · rw [if_neg ha]
    decide

theorem collapseHyphens_subset : ∀ (l : List Char), ∀ y ∈ collapseHyphens l, y ∈ l := by
  intro l
  induction l using collapseHyphens.induct with
  | case1 cs ih =>
    intro y hy
    rw [collapseHyphens] at hy
    exact List.mem_cons_of_mem _ (ih y hy)
  | case2 c cs hc ih =>
    intro y hy
    rw [collapseHyphens] at hy
    · rcases List.mem_cons.1 hy with h | h
      · exact h ▸ List.mem_cons_self _ _
      · exact List.mem_cons_of_mem _ (ih y h)
    · exact hc
  | case3 => intro y hy; simp [collapseHyphens] at hy

theorem collapseHyphens_head : ∀ (l : List Char), (collapseHyphens l).head? = l.head? := by
  intro l
  induction l using collapseHyphens.induct with
  | case1 cs ih =>
    rw [collapseHyphens, ih]
    rfl
  | case2 c cs hc ih =>
    rw [collapseHyphens]
    · rfl
    · exact hc
  | case3 => rfl

theorem collapseHyphens_noTwo : ∀ (l : List Char), NoTwoHyphens (collapseHyphens l) := by
  intro l
  induction l using collapseHyphens.induct with
  | case1 cs ih =>
    rw [collapseHyphens]
    exact ih
  | case2 c cs hc ih =>
    rw [collapseHyphens]
    · unfold NoTwoHyphens at ih ⊢
      rw [List.chain'_cons']
      refine ⟨?_, ih⟩
      intro y hy
      rw [collapseHyphens_head] at hy
      rintro ⟨h1, h2⟩
      subst h1 h2
      cases cs with
      | nil => simp at hy
      | cons d ds =>
        simp only [List.head?_cons, Option.mem_def, Option.some.injEq] at hy
        exact hc ds rfl (by rw [hy])
    · exact hc
  | case3 =>
    unfold NoTwoHyphens
    simp [collapseHyphens]

theorem collapseHyphens_of_noTwo : ∀ (l : List Char), NoTwoHyphens l → collapseHyphens l = l := by
  intro l
  induction l using collapseHyphens.induct with
  | case1 cs ih =>
    intro h
    unfold NoTwoHyphens at h
    rw [List.chain'_cons] at h
    exact absurd ⟨rfl, rfl⟩ h.1
  | case2 c cs hc ih =>
    intro h
    rw [collapseHyphens]
    · unfold NoTwoHyphens at h ih
      rw [ih (List.Chain'.tail h)]
    · exact hc
  | case3 => intro _; rfl

/-- How `stripHyphens` works: a hyphen at the start is dropped, then a hyphen at the end. -/
theorem stripHyphens_cases (cs : List Char) :
    ∃ cs1, ((cs1 = cs ∧ cs.head? ≠ some '-') ∨ cs = '-' :: cs1)
      ∧ ((stripHyphens cs = cs1 ∧ cs1.getLast? ≠ some '-') ∨ cs1 = stripHyphens cs ++ ['-']) := by
  have h2 : ∀ cs1 : List Char,
      ((match cs1.reverse with
        | '-' :: rest => rest.reverse
        | _ => cs1) = cs1 ∧ cs1.getLast? ≠ some '-')
      ∨ cs1 = (match cs1.reverse with
        | '-' :: rest => rest.reverse
        | _ => cs1) ++ ['-'] := by
    intro cs1
    rcases hr : cs1.reverse with _ | ⟨d, rest⟩
    · left
      have : cs1 = [] := by simpa using hr
      subst this
      simp
    · by_cases hd : d = '-'
      · subst hd
        right
        have : cs1 = rest.reverse ++ ['-'] := by
          have := congrArg List.reverse hr
          simpa using this
        simpa using this
      · left
        constructor
        · split
          · rename_i rest1 heq
            exact absurd (List.cons.inj heq).1 hd
          · rfl
        · rw [List.getLast?_eq_head?_reverse, hr]
          simpa using hd
  rcases cs with _ | ⟨c, rest⟩
  · exact ⟨[], Or.inl ⟨rfl, by simp⟩, h2 []⟩
  · by_cases hc : c = '-'
    · subst hc
      exact ⟨rest, Or.inr rfl, h2 rest⟩
    · refine ⟨c :: rest, Or.inl ⟨rfl, by simpa using hc⟩, ?_⟩
      have e : stripHyphens (c :: rest) = (match (c :: rest).reverse with
          | '-' :: r => r.reverse
          | _ => c :: rest) := by
        unfold stripHyphens
        split
        · rename_i r heq
          exact absurd (List.cons.inj heq).1 hc
        · rfl
      rw [e]
      exact h2 (c :: rest)

theorem stripHyphens_within (cs : List Char) : stripHyphens cs <:+: cs := by
  obtain ⟨cs1, h1, h2⟩ := stripHyphens_cases cs
  have hs : cs1 <:+ cs := by
    rcases h1 with ⟨h, _⟩ | h
    · rw [h]
    · rw [h]; exact List.suffix_cons _ _
  have hp : stripHyphens cs <+: cs1 := by
    rcases h2 with ⟨h, _⟩ | h
    · rw [h]
    · exact ⟨_, h.symm⟩
  exact hp.isInfix.trans hs.isInfix

theorem stripHyphens_head {cs : List Char} (h : NoTwoHyphens cs) :
    (stripHyphens cs).head? ≠ some '-' := by
  obtain ⟨cs1, h1, h2⟩ := stripHyphens_cases cs
  have hh : cs1.head? ≠ some '-' := by
    rcases h1 with ⟨e, h1⟩ | e
    · rw [e]; exact h1
    · subst e
      unfold NoTwoHyphens at h
      rw [List.chain'_cons'] at h
      intro hc
      exact h.1 '-' hc ⟨rfl, rfl⟩
  rcases h2 with ⟨e, _⟩ | e
  · rw [e]; exact hh
  · rcases hr : stripHyphens cs with _ | ⟨d, ds⟩
    · simp
    · rw [hr] at e
      rw [e] at hh
      simpa using hh

theorem stripHyphens_last {cs : List Char} (h : NoTwoHyphens cs) :
    (stripHyphens cs).getLast? ≠ some '-' := by
  obtain ⟨cs1, h1, h2⟩ := stripHyphens_cases cs
  have hc1 : NoTwoHyphens cs1 := by
    rcases h1 with ⟨e, _⟩ | e
    · rw [e]; exact h
    · subst e
      exact List.Chain'.tail h
  rcases h2 with ⟨e, h2⟩ | e
  · rw [e]; exact h2
  · rw [e] at hc1
    unfold NoTwoHyphens at hc1
    rw [List.chain'_append] at hc1
    intro hl
    exact hc1.2.2 '-' hl '-' rfl ⟨rfl, rfl⟩

theorem stripHyphens_of_clean {cs : List Char} (hh : cs.head? ≠ some '-')
    (hl : cs.getLast? ≠ some '-') : stripHyphens cs = cs := by
  obtain ⟨cs1, h1, h2⟩ := stripHyphens_cases cs
  have e1 : cs1 = cs := by
    rcases h1 with ⟨e, _⟩ | e
    · exact e
    · rw [e] at hh
      simp at hh
  rcases h2 with ⟨e, _⟩ | e
  · rw [e, e1]
  · rw [e1] at e
    rw [e] at hl
    simp at hl

theorem noTwoHyphens_pair {l : List Char} (h : NoTwoHyphens l) : ¬ ['-', '-'] <:+: l := by
  intro hi
  have := List.Chain'.infix h hi
  simp at this

/-- The name part of a slug: its characters, and that deriving it again changes nothing. -/
theorem slugify_spec (name : String) :
    (∀ c ∈ (slugify name).toList, isSlugChar c = true)
      ∧ NoTwoHyphens (slugify name).toList
      ∧ (slugify name).toList.head? ≠ some '-'
      ∧ (slugify name).toList.getLast? ≠ some '-'
      ∧ slugify (slugify name) = slugify name := by
  have hc := collapseHyphens_noTwo
    ((name.toList.flatMap toLowerCase).map fun c => if c.isAlphanum then c else '-')
  have h1 : ∀ c ∈ (slugify name).toList, isSlugChar c = true := by
    intro c hc1
    have hc2 := (stripHyphens_within _).subset hc1
    exact replaced_slugChar name c (collapseHyphens_subset _ c hc2)
  have h2 : NoTwoHyphens (slugify name).toList := List.Chain'.infix hc (stripHyphens_within _)
  have h3 : (slugify name).toList.head? ≠ some '-' := stripHyphens_head hc
  have h4 : (slugify name).toList.getLast? ≠ some '-' := stripHyphens_last hc
  refine ⟨h1, h2, h3, h4, ?_⟩
  generalize hl : (slugify name).toList = l at h1 h2 h3 h4
  have hs : slugify name = String.mk l := by
    rw [← hl]
    rfl
  rw [hs]
  unfold slugify
  have e1 : (String.mk l).toList.flatMap toLowerCase = l := by
    show l.flatMap toLowerCase = l
    clear hl hs h2 h3 h4
    induction l with
    | nil => rfl
    | cons c cs ih =>
      rw [List.flatMap_cons, toLowerCase_of_slugChar (h1 c (List.mem_cons_self _ _)),
        ih (fun x hx => h1 x (List.mem_cons_of_mem _ hx))]
      rfl
  have e2 : l.map (fun c => if c.isAlphanum then c else '-') = l := by
    clear hl hs h2 h3 h4 e1
    induction l with
    | nil => rfl
    | cons c cs ih =>
      rw [List.map_cons, ih (fun x hx => h1 x (List.mem_cons_of_mem _ hx))]
      congr 1
      have hc1 := (isSlugChar_iff c).1 (h1 c (List.mem_cons_self _ _))
      by_cases ha : c.isAlphanum = true
      · rw [if_pos ha]
      · rw [if_neg ha]
        rw [isAlphanum_iff] at ha
        rcases hc1 with h | h | h
        · exact absurd (Or.inr (Or.inl h)) ha
        · exact absurd (Or.inr (Or.inr h)) ha
        · exact h.symm
  rw [e1, e2, collapseHyphens_of_noTwo l h2, stripHyphens_of_clean h3 h4]


theorem Product.preSave_slug (nameModified : Bool) (hookNow : Timestamp) (p : Product) :
    (p.preSave nameModified hookNow).slug
      = if nameModified then slugify p.name ++ "-" ++ toString p._id else p.slug := by
  unfold Product.preSave Product.preSaveStock Product.preSaveRating Product.preSaveSlug
  cases nameModified <;> dsimp only <;> split_ifs <;> simp

/-! ## Lemmas on pagination -/

theorem ceilDiv_eq_ceil (total limit : Nat) (h : 1 ≤ limit) :
    ceilDiv total limit = ⌈(total : ℚ) / (limit : ℚ)⌉₊ := by
  have hl : (0 : ℚ) < (limit : ℚ) := by exact_mod_cast h
  unfold ceilDiv
  apply le_antisymm
  · have h1 : (total : ℚ) / limit ≤ (⌈(total : ℚ) / limit⌉₊ : ℚ) := Nat.le_ceil _
    rw [div_le_iff₀ hl] at h1
    have h2 : total ≤ ⌈(total : ℚ) / limit⌉₊ * limit := by exact_mod_cast h1
    rw [Nat.div_le_iff_le_mul_add_pred (by omega)]
    calc total + limit - 1 ≤ ⌈(total : ℚ) / limit⌉₊ * limit + (limit - 1) := by omega
      _ = limit * ⌈(total : ℚ) / limit⌉₊ + (limit - 1) := by rw [Nat.mul_comm]
  · rw [Nat.ceil_le, div_le_iff₀ hl]
    have h2 : total ≤ (total + limit - 1) / limit * limit := by
      have := Nat.div_add_mod (total + limit - 1) limit
      have hm := Nat.mod_lt (total + limit - 1) (by omega : limit > 0)
      have e : (total + limit - 1) / limit * limit = limit * ((total + limit - 1) / limit) :=
        Nat.mul_comm _ _
      omega
    exact_mod_cast h2

theorem lt_ceilDiv_iff (page total limit : Nat) (h : 1 ≤ limit) :
    page < ceilDiv total limit ↔ page * limit < total := by
  unfold ceilDiv
  rw [Nat.lt_iff_add_one_le, Nat.le_div_iff_mul_le (by omega)]
  have e : (page + 1) * limit = page * limit + limit := by ring
  rw [e]
  omega

/-- The pagination object: the number of pages and the two flags. -/
theorem paginate_spec (page limit total : Nat) (h : 1 ≤ limit) :
    (paginate page limit total).totalPages = ⌈(total : ℚ) / (limit : ℚ)⌉₊
      ∧ ((paginate page limit total).hasPrevPage = true ↔ 1 < page)
      ∧ ((paginate page limit total).hasNextPage = true ↔ page * limit < total)
      ∧ (paginate page limit total).currentPage = page
      ∧ (paginate page limit total).total = total := by
  refine ⟨ceilDiv_eq_ceil total limit h, ?_, ?_, rfl, rfl⟩
  · simp [paginate]
  · simp [paginate, lt_ceilDiv_iff page total limit h]

theorem sortProducts_length (sort : ProductSort) (l : List Product) :
    (sortProducts sort l).length = l.length := by
  cases sort <;> simp [sortProducts, List.length_insertionSort]

/-- A page of a list: what lies before it, what it holds, and whether anything follows. -/
theorem page_spec {α : Type} (l : List α) (page limit : Nat) (hp : 1 ≤ page) :
    ((l.drop ((page - 1) * limit)).take limit).length ≤ limit
      ∧ ((l.drop ((page - 1) * limit)).take limit).length
          = min limit (l.length - (page - 1) * limit)
      ∧ l = l.take ((page - 1) * limit) ++ (l.drop ((page - 1) * limit)).take limit
          ++ l.drop (page * limit)
      ∧ (page * limit < l.length ↔ l.drop (page * limit) ≠ []) := by
  refine ⟨by simp, by simp, ?_, ?_⟩
  · have e : page * limit = (page - 1) * limit + limit := by
      obtain ⟨k, rfl⟩ : ∃ k, page = k + 1 := ⟨page - 1, by omega⟩
      simp [Nat.add_mul]
    rw [e, ← List.drop_drop, List.append_assoc, List.take_append_drop, List.take_append_drop]
  · rw [Ne, List.drop_eq_nil_iff]
    omega

theorem productQuery_bounds {q : ProductQuery} (h : productQueryValidation q = true) :
    1 ≤ q.pageNumber ∧ 1 ≤ q.pageSize ∧ q.pageSize ≤ 50 := by
  unfold productQueryValidation at h
  unfold ProductQuery.pageNumber ProductQuery.pageSize
  simp only [Bool.and_eq_true] at h
  obtain ⟨⟨⟨h1, h2⟩, _⟩, _⟩ := h
  constructor
  · cases hp : q.page with
    | none => simp
    | some page =>
      rw [hp] at h1
      simp only [decide_eq_true_eq] at h1
      simp only [Option.getD_some]
      omega
  · cases hl : q.limit with
    | none => simp
    | some limit =>
      rw [hl] at h2
      simp only [Bool.and_eq_true, decide_eq_true_eq] at h2
      simp only [Option.getD_some]
      omega

theorem orderQuery_bounds {q : OrderQuery} (h : orderQueryValidation q = true) :
    1 ≤ q.pageNumber ∧ 1 ≤ q.pageSize ∧ q.pageSize ≤ 50 := by
  unfold orderQueryValidation at h
  unfold OrderQuery.pageNumber OrderQuery.pageSize
  simp only [Bool.and_eq_true] at h
  obtain ⟨h1, h2⟩ := h
  constructor
  · cases hp : q.page with
    | none => simp
    | some page =>
      rw [hp] at h1
      simp only [decide_eq_true_eq] at h1
      simp only [Option.getD_some]
      omega
  · cases hl : q.limit with
    | none => simp
    | some limit =>
      rw [hl] at h2
      simp only [Bool.and_eq_true, decide_eq_true_eq] at h2
      simp only [Option.getD_some]
      omega

theorem foundProducts_length (q : ProductQuery) (rest : Product → Bool) (db : Db) :
    (foundProducts q rest db).length = (db.products.filter (productFilter q rest)).length :=
  sortProducts_length _ _

theorem foundOrders_length (user : User) (q : OrderQuery) (db : Db) :
    (foundOrders user q db).length = (db.orders.filter (orderFilter user q.status)).length := by
  simp [foundOrders]

theorem listProducts_eq {q : ProductQuery} (h : productQueryValidation q = true)
    (rest : Product → Bool) (db : Db) :
    listProducts q rest db =
      { status := 200, success := true
        items := ((foundProducts q rest db).drop ((q.pageNumber - 1) * q.pageSize)).take q.pageSize
        pagination := some (paginate q.pageNumber q.pageSize
          (db.products.filter (productFilter q rest)).length) } := by
  simp [listProducts, h]

theorem listOrders_eq {q : OrderQuery} (h : orderQueryValidation q = true) (user : User)
    (db : Db) :
    listOrders user q db =
      { status := 200, success := true
        items := ((foundOrders user q db).drop ((q.pageNumber - 1) * q.pageSize)).take q.pageSize
        pagination := some (paginate q.pageNumber q.pageSize
          (db.orders.filter (orderFilter user q.status)).length) } := by
  simp [listOrders, h]

/-! ## What each route leaves alone -/

theorem productSave_others {nameModified : Bool} {env : Env} {p p1 : Product} {db db1 : Db}
    (h : p.save nameModified env db = some (p1, db1)) :
    db1.users = db.users ∧ db1.orders = db.orders := by
  rw [Product.save_eq] at h
  split_ifs at h
  cases h
  exact ⟨rfl, rfl⟩

theorem Product.saveNew_others {env : Env} {p p1 : Product} {db db1 : Db}
    (h : p.saveNew env db = some (p1, db1)) :
    db1.users = db.users ∧ db1.orders = db.orders := by
  unfold Product.saveNew at h
  dsimp only at h
  split_ifs at h
  cases h
  exact ⟨rfl, rfl⟩

theorem orderSave_others {isNew modified : Bool} {env : Env} {o o1 : Order} {db db1 : Db}
    (h : o.save isNew modified env db = some (o1, db1)) :
    db1.users = db.users ∧ db1.products = db.products := by
  unfold Order.save at h
  dsimp only at h
  split_ifs at h <;> cases h <;> exact ⟨rfl, rfl⟩

theorem userSave_others {lib : Lib} {isNew passwordModified : Bool} {env : Env} {u u1 : User}
    {db db1 : Db} (h : u.save lib isNew passwordModified env db = some (u1, db1)) :
    db1.orders = db.orders ∧ db1.products = db.products := by
  unfold User.save at h
  dsimp only at h
  split_ifs at h <;> cases h <;> exact ⟨rfl, rfl⟩

/-- The order routes do not write to the users collection. -/
theorem handle_users (env : Env) (user : User) (req : Request) (db : Db) :
    (handle env user req db).2.users = db.users := by
  cases req with
  | createOrder body =>
    simp only [handle]
    unfold createOrder
    dsimp only
    repeat' split
    all_goals first
      | rfl
      | exact (orderSave_others (by assumption)).1
  | getOrder id =>
    simp only [handle, getOrder_store]
  | updateStatus id body =>
    simp only [handle]
    unfold updateStatus Order.updateStatus
    dsimp only
    repeat' split
    all_goals first
      | rfl
      | exact (orderSave_others (by assumption)).1
  | processPayment id body =>
    simp only [handle]
    unfold processPayment Order.processPayment
    dsimp only
    repeat' split
    all_goals first
      | rfl
      | exact (orderSave_others (by assumption)).1
      | exact ((productSave_others (by assumption)).1.trans (orderSave_others (by assumption)).1)
  | cancelOrder id body =>
    simp only [handle]
    unfold cancelOrder Order.updateStatus
    dsimp only
    repeat' split
    all_goals first
      | rfl
      | exact (orderSave_others (by assumption)).1

/-- The product routes write neither to the users nor to the orders collection. -/
theorem createProduct_others (env : Env) (user : User) (body : CreateProductBody)
    (files : List UploadedFile) (w : World) :
    (createProduct env user body files w).2.db.users = w.db.users
      ∧ (createProduct env user body files w).2.db.orders = w.db.orders := by
  unfold createProduct
  dsimp only
  repeat' split
  all_goals first
    | exact ⟨rfl, rfl⟩
    | exact Product.saveNew_others (by assumption)

theorem updateProduct_others (env : Env) (user : User) (id : ObjectId) (body : UpdateProductBody)
    (files : List UploadedFile) (w : World) :
    (updateProduct env user id body files w).2.db.users = w.db.users
      ∧ (updateProduct env user id body files w).2.db.orders = w.db.orders := by
  unfold updateProduct
  dsimp only
  repeat' split
  all_goals first
    | exact ⟨rfl, rfl⟩
    | exact productSave_others (by assumption)

theorem deleteProduct_others (user : User) (id : ObjectId) (w : World) :
    (deleteProduct user id w).2.db.users = w.db.users
      ∧ (deleteProduct user id w).2.db.orders = w.db.orders := by
  unfold deleteProduct
  repeat' split
  all_goals exact ⟨rfl, rfl⟩

theorem updateStock_others (env : Env) (user : User) (id : ObjectId) (body : StockBody)
    (w : World) :
    (updateStock env user id body w).2.db.users = w.db.users
      ∧ (updateStock env user id body w).2.db.orders = w.db.orders := by
  unfold updateStock Product.updateStock
  dsimp only
  repeat' split
  all_goals first
    | exact ⟨rfl, rfl⟩
    | exact productSave_others (by assumption)

theorem addReview_others (env : Env) (user : User) (id : ObjectId) (body : ReviewBody)
    (db : Db) :
    (addReview env user id body db).2.users = db.users
      ∧ (addReview env user id body db).2.orders = db.orders := by
  unfold addReview Product.addReview
  dsimp only
  repeat' split
  all_goals first
    | exact ⟨rfl, rfl⟩
    | exact productSave_others (by assumption)

theorem viewProduct_others (env : Env) (id : ObjectId) (db : Db) :
    (viewProduct env id db).2.users = db.users ∧ (viewProduct env id db).2.orders = db.orders := by
  unfold viewProduct
  dsimp only
  repeat' split
  all_goals first
    | exact ⟨rfl, rfl⟩
    | exact productSave_others (by assumption)

/-- The account routes write neither to the orders nor to the products collection. -/
theorem register_others (lib : Lib) (env : Env) (body : RegisterBody) (db : Db) :
    (register lib env body db).2.orders = db.orders := by
  unfold register
  dsimp only
  repeat' split
  all_goals first
    | rfl
    | exact (userSave_others (by assumption)).1
    | exact ((userSave_others (by assumption)).1.trans (userSave_others (by assumption)).1)

theorem login_others (lib : Lib) (env : Env) (body : LoginBody) (db : Db) :
    (login lib env body db).2.orders = db.orders := by
  unfold login
  dsimp only
  repeat' split
  all_goals first
    | rfl
    | exact (userSave_others (by assumption)).1

theorem updateProfile_others (lib : Lib) (env : Env) (user : User) (body : ProfileBody)
    (db : Db) : (updateProfile lib env user body db).2.orders = db.orders := by
  unfold updateProfile
  dsimp only
  repeat' split
  all_goals first
    | rfl
    | exact (userSave_others (by assumption)).1

theorem changePassword_others (lib : Lib) (env : Env) (user : User) (body : ChangePasswordBody)
    (db : Db) : (changePassword lib env user body db).2.orders = db.orders := by
  unfold changePassword
  dsimp only
  repeat' split
  all_goals first
    | rfl
    | exact (userSave_others (by assumption)).1

theorem deleteAccount_others (lib : Lib) (env : Env) (user : User) (body : DeleteAccountBody)
    (db : Db) : (deleteAccount lib env user body db).2.orders = db.orders := by
  unfold deleteAccount
  dsimp only
  repeat' split
  all_goals first
    | rfl
    | exact (userSave_others (by assumption)).1

theorem updateVendorProfile_others (lib : Lib) (user : User) (body : VendorProfileBody)
    (db : Db) : (updateVendorProfile lib user body db).2.orders = db.orders := by
  unfold updateVendorProfile
  dsimp only
  repeat' split
  all_goals rfl

/-! ## Lemmas on the users collection -/

theorem Db.findUser_replaceUser (db : Db) (u : User) (id : ObjectId) :
    (db.replaceUser u).findUser id
      = if u._id = id then (db.findUser id).map (fun _ => u) else db.findUser id :=
  find_replace User._id db.users u id

theorem Db.replaceUser_ids (db : Db) (u : User) :
    (db.replaceUser u).users.map User._id = db.users.map User._id := by
  simp only [Db.replaceUser, List.map_map]
  apply List.map_congr_left
  intro x _
  by_cases h : x._id = u._id <;> simp [h]

theorem Db.findUser_mem {db : Db} {id : ObjectId} {u : User} (h : db.findUser id = some u) :
    u ∈ db.users :=
  List.mem_of_find?_eq_some h

theorem Db.findByEmail_mem {db : Db} {email : String} {u : User}
    (h : db.findByEmail email = some u) : u ∈ db.users :=
  List.mem_of_find?_eq_some h

theorem Db.findUser_insertUser {db : Db} {u x : User} {id : ObjectId}
    (h : db.findUser id = some x) : (db.insertUser u).findUser id = some x := by
  simp only [Db.findUser, Db.insertUser, List.find?_append] at h ⊢
  simp [h]

/-- With unique identifiers a stored user is the one its identifier finds. -/
theorem Db.findUser_of_mem {db : Db} {u : User} (hn : (db.users.map User._id).Nodup)
    (h : u ∈ db.users) : db.findUser u._id = some u := by
  cases hf : db.findUser u._id with
  | none =>
    have := List.find?_eq_none.1 hf u h
    simp at this
  | some x =>
    have hx : x ∈ db.users := Db.findUser_mem hf
    have hid : x._id = u._id := Db.findUser_id hf
    rw [List.inj_on_of_nodup_map hn hx h hid]

theorem Deactivated.ne_of_active {id : ObjectId} {db : Db} (h : Deactivated id db) {x : User}
    (hx : x ∈ db.users) (ha : x.isActive = true) : x._id ≠ id := by
  obtain ⟨hn, u, hf, hu⟩ := h
  intro e
  have h1 := Db.findUser_of_mem hn hx
  rw [e, hf] at h1
  have : u = x := Option.some.inj h1
  subst this
  rw [hu] at ha
  cases ha

theorem Deactivated.replaceUser {id : ObjectId} {db : Db} (h : Deactivated id db) {u : User}
    (hne : u._id ≠ id) : Deactivated id (db.replaceUser u) := by
  obtain ⟨hn, x, hf, hx⟩ := h
  refine ⟨by rw [Db.replaceUser_ids]; exact hn, x, ?_, hx⟩
  rw [Db.findUser_replaceUser, if_neg hne]
  exact hf

theorem Deactivated.insertUser {id : ObjectId} {db : Db} (h : Deactivated id db) {u : User}
    (hfresh : ∀ x ∈ db.users, x._id ≠ u._id) : Deactivated id (db.insertUser u) := by
  obtain ⟨hn, x, hf, hx⟩ := h
  refine ⟨?_, x, Db.findUser_insertUser hf, hx⟩
  simp only [Db.insertUser, List.map_append, List.map_cons, List.map_nil]
  rw [List.nodup_append]
  refine ⟨hn, List.nodup_singleton _, ?_⟩
  intro a ha hb
  rw [List.mem_singleton] at hb
  subst hb
  obtain ⟨y, hy, hye⟩ := List.mem_map.1 ha
  exact hfresh y hy hye

theorem Deactivated.of_users {id : ObjectId} {db db1 : Db} (h : Deactivated id db)
    (e : db1.users = db.users) : Deactivated id db1 := by
  unfold Deactivated Db.findUser at *
  rw [e]
  exact h

/-- A save of a user keeps a deactivated account deactivated, when the document saved is
new or is not that of the account. -/
theorem User.save_deactivated {lib : Lib} {isNew passwordModified : Bool} {env : Env}
    {u u1 : User} {db db1 : Db} {id : ObjectId} (h : Deactivated id db)
    (hs : u.save lib isNew passwordModified env db = some (u1, db1))
    (hne : isNew = false → u._id ≠ id) :
    Deactivated id db1 ∧ u1._id = u._id ∧ u1._id ≠ id := by
  unfold User.save at hs
  dsimp only at hs
  have hid : (if passwordModified = true then { u with password := lib.hash env.salt u.password }
      else u)._id = u._id := by
    split_ifs <;> rfl
  cases isNew with
  | false =>
    simp only [Bool.false_eq_true, if_false] at hs
    split_ifs at hs with hv
    all_goals
      have e := Prod.mk.inj (Option.some.inj hs)
      obtain ⟨e1, e2⟩ := e
      subst e1 e2
      exact ⟨h.replaceUser (by simpa using hne rfl), rfl, by simpa using hne rfl⟩
  | true =>
    simp only [if_true] at hs
    split_ifs at hs with hv hp hany hany
    all_goals
      have e := Prod.mk.inj (Option.some.inj hs)
      obtain ⟨e1, e2⟩ := e
      subst e1 e2
      have hfresh : ∀ x ∈ db.users, x._id ≠ u._id := by
        intro x hx hxe
        apply hany
        rw [List.any_eq_true]
        exact ⟨x, hx, by simp [hxe]⟩
      refine ⟨h.insertUser (by simpa using hfresh), rfl, ?_⟩
      obtain ⟨_, y, hf, _⟩ := h
      intro hc
      exact hfresh y (Db.findUser_mem hf) ((Db.findUser_id hf).trans (by simpa using hc.symm))

theorem authenticate_next {verify : String → Option ObjectId} {req : AuthRequest} {db : Db}
    {user : User} (h : authenticate verify req db = Outcome.next user) :
    db.findUser user._id = some user ∧ user.isActive = true := by
  rcases requestToken_cases req with h0 | ⟨token, ht, hne⟩
  · rw [authenticate_no_token h0] at h
    cases h
  · rw [authenticate_token ht hne] at h
    rcases hv : verify token with _ | id
    · simp [hv] at h
    · simp only [hv] at h
      rcases hu : db.findUser id with _ | u
      · simp [hu] at h
      · simp only [hu] at h
        cases ha : u.isActive with
        | false => simp [ha] at h
        | true =>
          simp only [ha, if_true] at h
          have e : u = user := by simpa using h
          subst e
          rw [Db.findUser_id hu]
          exact ⟨hu, ha⟩

/-- A private route: either `authenticate` answers and nothing changes, or the handler
runs for a stored, active principal. -/
theorem withAuth_cases (lib : Lib) (auth : AuthRequest) (w : World)
    (handler : User → Response × World) :
    (∃ r, authenticate lib.verify auth w.db = Outcome.respond r
        ∧ withAuth lib auth w handler = (r, w))
      ∨ ∃ user, authenticate lib.verify auth w.db = Outcome.next user
          ∧ w.db.findUser user._id = some user ∧ user.isActive = true
          ∧ withAuth lib auth w handler = handler user := by
  unfold withAuth
  cases h : authenticate lib.verify auth w.db with
  | respond r => exact Or.inl ⟨r, rfl, rfl⟩
  | next user => exact Or.inr ⟨user, rfl, (authenticate_next h).1, (authenticate_next h).2, rfl⟩

/-! ## A deactivated account under the account routes -/

theorem register_deactivated (lib : Lib) (env : Env) (body : RegisterBody) {db : Db}
    {id : ObjectId} (h : Deactivated id db) : Deactivated id (register lib env body db).2 := by
  unfold register
  dsimp only
  split
  · exact h
  · split
    · exact h
    · split
      · exact h
      · next saved db1 hs =>
        have h1 := User.save_deactivated h hs (fun e => by cases e)
        split
        · exact h1.1
        · next x db2 hs2 =>
          exact (User.save_deactivated h1.1 hs2 (fun _ => h1.2.2)).1

theorem login_deactivated (lib : Lib) (env : Env) (body : LoginBody) {db : Db}
    {id : ObjectId} (h : Deactivated id db) : Deactivated id (login lib env body db).2 := by
  unfold login
  dsimp only
  split
  · exact h
  · split
    · exact h
    · next user hf =>
      split
      · exact h
      · next ha =>
        split
        · exact h
        · split
          · exact h
          · next x db1 hs =>
            have hact : user.isActive = true := by simpa using ha
            have hne : user._id ≠ id := h.ne_of_active (Db.findByEmail_mem hf) hact
            exact (User.save_deactivated h hs (fun _ => hne)).1

theorem updateProfile_deactivated (lib : Lib) (env : Env) (body : ProfileBody) {db : Db}
    {id : ObjectId} {user : User} (h : Deactivated id db)
    (hf : db.findUser user._id = some user) (ha : user.isActive = true) :
    Deactivated id (updateProfile lib env user body db).2 := by
  have hne : user._id ≠ id := h.ne_of_active (Db.findUser_mem hf) ha
  unfold updateProfile
  rw [hf]
  dsimp only
  split
  · exact h
  · split
    · exact h
    · next x db1 hs =>
      refine (User.save_deactivated h hs (fun _ => ?_)).1
      split_ifs <;> exact hne

theorem changePassword_deactivated (lib : Lib) (env : Env) (body : ChangePasswordBody) {db : Db}
    {id : ObjectId} {user : User} (h : Deactivated id db)
    (hf : db.findUser user._id = some user) (ha : user.isActive = true) :
    Deactivated id (changePassword lib env user body db).2 := by
  have hne : user._id ≠ id := h.ne_of_active (Db.findUser_mem hf) ha
  unfold changePassword
  rw [hf]
  dsimp only
  split
  · exact h
  · split
    · exact h
    · split
      · exact h
      · next x db1 hs => exact (User.save_deactivated h hs (fun _ => hne)).1

theorem deleteAccount_deactivated (lib : Lib) (env : Env) (body : DeleteAccountBody) {db : Db}
    {id : ObjectId} {user : User} (h : Deactivated id db)
    (hf : db.findUser user._id = some user) (ha : user.isActive = true) :
    Deactivated id (deleteAccount lib env user body db).2 := by
  have hne : user._id ≠ id := h.ne_of_active (Db.findUser_mem hf) ha
  unfold deleteAccount
  rw [hf]
  dsimp only
  split
  · exact h
  · split
    · exact h
    · split
      · exact h
      · next x db1 hs => exact (User.save_deactivated h hs (fun _ => hne)).1

theorem updateVendorProfile_deactivated (lib : Lib) (body : VendorProfileBody) {db : Db}
    {id : ObjectId} {user : User} (h : Deactivated id db)
    (hf : db.findUser user._id = some user) (ha : user.isActive = true) :
    Deactivated id (updateVendorProfile lib user body db).2 := by
  have hne : user._id ≠ id := h.ne_of_active (Db.findUser_mem hf) ha
  unfold updateVendorProfile
  rw [hf]
  dsimp only
  repeat' split
  all_goals first
    | exact h
    | exact h.replaceUser hne

/-- The account a successful deactivation leaves behind. -/
theorem deleteAccount_ok (lib : Lib) (env : Env) (body : DeleteAccountBody) {db : Db}
    {user : User} (hn : (db.users.map User._id).Nodup)
    (hf : db.findUser user._id = some user)
    (h : (deleteAccount lib env user body db).1.status = 200) :
    Deactivated user._id (deleteAccount lib env user body db).2 := by
  unfold deleteAccount at h ⊢
  rw [hf] at h ⊢
  dsimp only at h ⊢
  by_cases h1 : (!decide (body.password ≠ "")) = true
  · rw [if_pos h1] at h
    simp [validationFailed, Response.error] at h
  · rw [if_neg h1] at h ⊢
    by_cases h2 : (!lib.compare body.password user.password) = true
    · rw [if_pos h2] at h
      simp [Response.error] at h
    · rw [if_neg h2] at h ⊢
      cases hs : User.save lib false false env { user with isActive := false } db with
      | none =>
        rw [hs] at h
        simp [Response.error] at h
      | some r =>
        obtain ⟨x, db1⟩ := r
        dsimp only
        unfold User.save at hs
        dsimp only at hs
        simp only [Bool.false_eq_true, if_false] at hs
        split_ifs at hs
        have e := Prod.mk.inj (Option.some.inj hs)
        obtain ⟨e1, e2⟩ := e
        subst e1 e2
        refine ⟨by rw [Db.replaceUser_ids]; exact hn, { user with isActive := false }, ?_, rfl⟩
        rw [Db.findUser_replaceUser, if_pos rfl, hf]
        rfl

/-! ## The server, step by step -/

/-- No request brings a deactivated account back. -/
theorem serve_deactivated (lib : Lib) (env : Env) (call : Call) (w : World) (id : ObjectId)
    (h : Deactivated id w.db) : Deactivated id (serve lib env call w).2.db := by
  cases call with
  | orders auth request =>
    simp only [serve]
    rcases withAuth_cases lib auth w (fun user => onDb (handle env user request) w) with
      ⟨r, _, e⟩ | ⟨user, _, _, _, e⟩
    · rw [e]; exact h
    · rw [e]; exact h.of_users (handle_users env user request w.db)
  | viewProduct pid => exact h.of_users (viewProduct_others env pid w.db).1
  | createProduct auth body files =>
    simp only [serve]
    rcases withAuth_cases lib auth w (fun user => createProduct env user body files w) with
      ⟨r, _, e⟩ | ⟨user, _, _, _, e⟩
    · rw [e]; exact h
    · rw [e]; exact h.of_users (createProduct_others env user body files w).1
  | updateProduct auth pid body files =>
    simp only [serve]
    rcases withAuth_cases lib auth w (fun user => updateProduct env user pid body files w) with
      ⟨r, _, e⟩ | ⟨user, _, _, _, e⟩
    · rw [e]; exact h
    · rw [e]; exact h.of_users (updateProduct_others env user pid body files w).1
  | deleteProduct auth pid =>
    simp only [serve]
    rcases withAuth_cases lib auth w (fun user => deleteProduct user pid w) with
      ⟨r, _, e⟩ | ⟨user, _, _, _, e⟩
    · rw [e]; exact h
    · rw [e]; exact h.of_users (deleteProduct_others user pid w).1
  | updateStock auth pid body =>
    simp only [serve]
    rcases withAuth_cases lib auth w (fun user => updateStock env user pid body w) with
      ⟨r, _, e⟩ | ⟨user, _, _, _, e⟩
    · rw [e]; exact h
    · rw [e]; exact h.of_users (updateStock_others env user pid body w).1
  | addReview auth pid body =>
    simp only [serve]
    rcases withAuth_cases lib auth w (fun user => onDb (addReview env user pid body) w) with
      ⟨r, _, e⟩ | ⟨user, _, _, _, e⟩
    · rw [e]; exact h
    · rw [e]; exact h.of_users (addReview_others env user pid body w.db).1
  | register body => exact register_deactivated lib env body h
  | login body => exact login_deactivated lib env body h
  | updateProfile auth body =>
    simp only [serve]
    rcases withAuth_cases lib auth w (fun user => onDb (updateProfile lib env user body) w) with
      ⟨r, _, e⟩ | ⟨user, _, hf, ha, e⟩
    · rw [e]; exact h
    · rw [e]; exact updateProfile_deactivated lib env body h hf ha
  | changePassword auth body =>
    simp only [serve]
    rcases withAuth_cases lib auth w (fun user => onDb (changePassword lib env user body) w) with
      ⟨r, _, e⟩ | ⟨user, _, hf, ha, e⟩
    · rw [e]; exact h
    · rw [e]; exact changePassword_deactivated lib env body h hf ha
  | deleteAccount auth body =>
    simp only [serve]
    rcases withAuth_cases lib auth w (fun user => onDb (deleteAccount lib env user body) w) with
      ⟨r, _, e⟩ | ⟨user, _, hf, ha, e⟩
    · rw [e]; exact h
    · rw [e]; exact deleteAccount_deactivated lib env body h hf ha
  | updateVendorProfile auth body =>
    simp only [serve]
    rcases withAuth_cases lib auth w (fun user => onDb (updateVendorProfile lib user body) w) with
      ⟨r, _, e⟩ | ⟨user, _, hf, ha, e⟩
    · rw [e]; exact h
    · rw [e]; exact updateVendorProfile_deactivated lib body h hf ha

theorem serveAll_deactivated (lib : Lib) (id : ObjectId) :
    ∀ (calls : List (Env × Call)) (w : World), Deactivated id w.db →
      Deactivated id (serveAll lib w calls).db := by
  intro calls
  induction calls with
  | nil => intro w h; exact h
  | cons c rest ih =>
    intro w h
    obtain ⟨env, call⟩ := c
    exact ih _ (serve_deactivated lib env call w id h)

/-- A login for a deactivated account, and a request with a token of it. -/
theorem login_refused (lib : Lib) (env : Env) (body : LoginBody) {db : Db} {u : User}
    (hf : db.findByEmail (lib.normalizeEmail body.email) = some u) (hu : u.isActive = false) :
    login lib env body db =
      (if loginValidation lib body then
          Response.error 401 "Account has been deactivated. Please contact support."
        else validationFailed, db) := by
  unfold login
  cases hv : loginValidation lib body <;> simp [hf, hu]

theorem authenticate_refused {verify : String → Option ObjectId} {req : AuthRequest} {db : Db}
    {token : String} {u : User} (ht : requestToken req = some token) (hne : token ≠ "")
    (hv : verify token = some u._id) (hf : db.findUser u._id = some u)
    (hu : u.isActive = false) :
    authenticate verify req db
      = Outcome.respond (Response.error 401 "Account has been deactivated") := by
  rw [authenticate_token ht hne]
  simp [hv, hf, hu]

/-! ## A stored order under the server -/

theorem Db.findOrder_of_orders {db db1 : Db} (e : db1.orders = db.orders) (id : ObjectId) :
    db1.findOrder id = db.findOrder id := by
  unfold Db.findOrder Db.storedOrder
  rw [e]

theorem Order.sameTerms_refl (o : Order) : o.sameTerms o :=
  ⟨rfl, rfl, rfl, rfl, rfl, rfl, rfl⟩

theorem Order.sameTerms_trans {a b c : Order} (h1 : a.sameTerms b) (h2 : b.sameTerms c) :
    a.sameTerms c := by
  obtain ⟨a1, a2, a3, a4, a5, a6, a7⟩ := h1
  obtain ⟨b1, b2, b3, b4, b5, b6, b7⟩ := h2
  exact ⟨b1.trans a1, b2.trans a2, b3.trans a3, b4.trans a4, b5.trans a5, b6.trans a6,
    b7.trans a7⟩

theorem Order.sameTerms_withStatus (now : Timestamp) (s : Option OrderStatus)
    (n : Option String) (o : Order) : o.sameTerms (o.withStatus now s n) := by
  obtain ⟨_, h1, h2, h3, h4, h5, h6, h7, _⟩ := Order.withStatus_frame now s n o
  exact ⟨h1, h2, h3, h4, h5, h6, h7⟩

theorem Order.sameTerms_hydrate (o : Order) : o.sameTerms o.hydrate := by
  obtain ⟨_, h1, h2, h3, h4, h5, h6, h7, _⟩ := Order.hydrate_frame o
  exact ⟨h1, h2, h3, h4, h5, h6, h7⟩

theorem Order.sameTerms_withPayment (d : PaymentDetails) (o : Order) :
    o.sameTerms (o.withPayment d) := by
  obtain ⟨_, h1, h2, h3, h4, h5, h6, h7, _⟩ := Order.withPayment_frame d o
  exact ⟨h1, h2, h3, h4, h5, h6, h7⟩

/-- No request changes the terms of a stored order. -/
theorem serve_order (lib : Lib) (env : Env) (call : Call) (w : World) (id : ObjectId)
    (o : Order) (hf : w.db.findOrder id = some o) :
    ∃ o1, (serve lib env call w).2.db.findOrder id = some o1 ∧ o.sameTerms o1 := by
  have keep : ∀ w1 : World, w1.db.orders = w.db.orders →
      ∃ o1, w1.db.findOrder id = some o1 ∧ o.sameTerms o1 := by
    intro w1 e
    exact ⟨o, by rw [Db.findOrder_of_orders e]; exact hf, o.sameTerms_refl⟩
  cases call with
  | orders auth request =>
    simp only [serve]
    rcases withAuth_cases lib auth w (fun user => onDb (handle env user request) w) with
      ⟨r, _, e⟩ | ⟨user, _, _, _, e⟩
    · rw [e]; exact keep w rfl
    · rw [e]
      obtain ⟨o1, h1, h2⟩ := handle_find env user request w.db id o hf
      refine ⟨o1, h1, ?_⟩
      rcases h2 with h2 | ⟨now, s, n, h2⟩ | ⟨d, h2⟩
      · rw [h2]; exact o.sameTerms_refl
      · rw [h2]
        exact Order.sameTerms_trans (o.sameTerms_withStatus now s n) (Order.sameTerms_hydrate _)
      · rw [h2]; exact o.sameTerms_withPayment d
  | viewProduct pid => exact keep _ (viewProduct_others env pid w.db).2
  | createProduct auth body files =>
    simp only [serve]
    rcases withAuth_cases lib auth w (fun user => createProduct env user body files w) with
      ⟨r, _, e⟩ | ⟨user, _, _, _, e⟩
    · rw [e]; exact keep w rfl
    · rw [e]; exact keep _ (createProduct_others env user body files w).2
  | updateProduct auth pid body files =>
    simp only [serve]
    rcases withAuth_cases lib auth w (fun user => updateProduct env user pid body files w) with
      ⟨r, _, e⟩ | ⟨user, _, _, _, e⟩
    · rw [e]; exact keep w rfl
    · rw [e]; exact keep _ (updateProduct_others env user pid body files w).2
  | deleteProduct auth pid =>
    simp only [serve]
    rcases withAuth_cases lib auth w (fun user => deleteProduct user pid w) with
      ⟨r, _, e⟩ | ⟨user, _, _, _, e⟩
    · rw [e]; exact keep w rfl
    · rw [e]; exact keep _ (deleteProduct_others user pid w).2
  | updateStock auth pid body =>
    simp only [serve]
    rcases withAuth_cases lib auth w (fun user => updateStock env user pid body w) with
      ⟨r, _, e⟩ | ⟨user, _, _, _, e⟩
    · rw [e]; exact keep w rfl
    · rw [e]; exact keep _ (updateStock_others env user pid body w).2
  | addReview auth pid body =>
    simp only [serve]
    rcases withAuth_cases lib auth w (fun user => onDb (addReview env user pid body) w) with
      ⟨r, _, e⟩ | ⟨user, _, _, _, e⟩
    · rw [e]; exact keep w rfl
    · rw [e]; exact keep _ (addReview_others env user pid body w.db).2
  | register body => exact keep _ (register_others lib env body w.db)
  | login body => exact keep _ (login_others lib env body w.db)
  | updateProfile auth body =>
    simp only [serve]
    rcases withAuth_cases lib auth w (fun user => onDb (updateProfile lib env user body) w) with
      ⟨r, _, e⟩ | ⟨user, _, _, _, e⟩
    · rw [e]; exact keep w rfl
    · rw [e]; exact keep _ (updateProfile_others lib env user body w.db)
  | changePassword auth body =>
    simp only [serve]
    rcases withAuth_cases lib auth w (fun user => onDb (changePassword lib env user body) w) with
      ⟨r, _, e⟩ | ⟨user, _, _, _, e⟩
    · rw [e]; exact keep w rfl
    · rw [e]; exact keep _ (changePassword_others lib env user body w.db)
  | deleteAccount auth body =>
    simp only [serve]
    rcases withAuth_cases lib auth w (fun user => onDb (deleteAccount lib env user body) w) with
      ⟨r, _, e⟩ | ⟨user, _, _, _, e⟩
    · rw [e]; exact keep w rfl
    · rw [e]; exact keep _ (deleteAccount_others lib env user body w.db)
  | updateVendorProfile auth body =>
    simp only [serve]
    rcases withAuth_cases lib auth w (fun user => onDb (updateVendorProfile lib user body) w) with
      ⟨r, _, e⟩ | ⟨user, _, _, _, e⟩
    · rw [e]; exact keep w rfl
    · rw [e]; exact keep _ (updateVendorProfile_others lib user body w.db)

theorem serveAll_order (lib : Lib) (id : ObjectId) :
    ∀ (calls : List (Env × Call)) (w : World) (o : Order), w.db.findOrder id = some o →
      ∃ o1, (serveAll lib w calls).db.findOrder id = some o1 ∧ o.sameTerms o1 := by
  intro calls
  induction calls with
  | nil => intro w o hf; exact ⟨o, hf, o.sameTerms_refl⟩
  | cons c rest ih =>
    intro w o hf
    obtain ⟨env, call⟩ := c
    obtain ⟨o1, h1, h2⟩ := serve_order lib env call w id o hf
    obtain ⟨o2, h3, h4⟩ := ih _ o1 h1
    exact ⟨o2, h3, Order.sameTerms_trans h2 h4⟩

/-! ## The claims -/

/-- C1. After a payment answered 200, every later payment of the same order by the same
principal, directly or after any sequence of other requests to the order routes, is
answered 400 and leaves the whole store, the order and the stock of every product, as it
found it; with a body that passes validation the answer is the envelope "Payment already
completed for this order". When the second payment follows the first directly, the stock
of the product after both is the stock before the first one lowered once by the order
quantity (floored at 0). -/
theorem processPayment_twice (env envLater : Env) (user : User) (id : ObjectId)
    (body bodyLater : PaymentDetails) (db : Db) (steps : List (Env × User × Request))
    (h : (processPayment env user id body db).1.status = 200) :
    (processPayment envLater user id bodyLater
        (run (processPayment env user id body db).2 steps)).1.status = 400
      ∧ (processPayment envLater user id bodyLater
          (run (processPayment env user id body db).2 steps)).1.success = false
      ∧ (paymentValidation bodyLater = true →
          (processPayment envLater user id bodyLater
              (run (processPayment env user id body db).2 steps)).1
            = Response.error 400 "Payment already completed for this order")
      ∧ (processPayment envLater user id bodyLater
            (run (processPayment env user id body db).2 steps)).2
          = run (processPayment env user id body db).2 steps
      ∧ ∀ o p, db.findOrder id = some o → db.findProduct o.product = some p →
          ∃ p2, (processPayment envLater user id bodyLater
              (processPayment env user id body db).2).2.findProduct o.product = some p2
            ∧ p2.stockQuantity = max 0 (p.stockQuantity - o.quantity) := by
  obtain ⟨_, o, hf, hb, _⟩ := processPayment_ok h
  obtain ⟨hf1, hstock⟩ := processPayment_after hf h
  have hb1 : (o.withPayment body.sanitize).buyer = user._id :=
    (Order.withPayment_frame body.sanitize o).2.2.1.trans hb
  have hp1 : (o.withPayment body.sanitize).paymentStatus = PaymentStatus.completed :=
    (Order.withPayment_frame body.sanitize o).2.2.2.2.2.2.2.2.2.2.1
  obtain ⟨o2, hf2, hb2, hp2⟩ := run_find
    (fun x => x.buyer = user._id ∧ x.paymentStatus = PaymentStatus.completed)
    (fun now s n x hx => by
      obtain ⟨_, _, h3, _, _, _, _, _, h9, _⟩ := Order.withStatus_frame now s n x
      exact ⟨h3.trans hx.1, h9.trans hx.2⟩)
    (fun d x hx => by
      obtain ⟨_, _, h3, _, _, _, _, _, _, _, h11, _⟩ := Order.withPayment_frame d x
      exact ⟨h3.trans hx.1, h11⟩)
    (fun x hx => by
      obtain ⟨_, _, h3, _, _, _, _, _, h9, _⟩ := Order.hydrate_frame x
      exact ⟨h3.trans hx.1, h9.trans hx.2⟩)
    steps _ id _ hf1 ⟨hb1, hp1⟩
  rw [processPayment_paid hf2 hb2 hp2]
  refine ⟨?_, ?_, ?_, rfl, ?_⟩
  · cases paymentValidation bodyLater <;> rfl
  · cases paymentValidation bodyLater <;> rfl
  · intro hv; simp [hv]
  · intro o3 p hf3 hfp
    have e : o = o3 := by rw [hf] at hf3; exact Option.some.inj hf3
    subst e
    rw [processPayment_paid hf1 hb1 hp1]
    exact hstock p hfp

/-- Witness of C1: buyer B pays the order for three pizzas; seller A marks it as delivered;
buyer B pays again and is refused. -/
theorem processPayment_twice_witness :
    (processPayment env2 buyerB 100 payBody
        (run (processPayment env2 buyerB 100 payBody shopOrdered).2
          [(env2, sellerA, Request.updateStatus 100 { status := OrderStatus.delivered })])).1
      = Response.error 400 "Payment already completed for this order" :=
  (processPayment_twice env2 env2 buyerB 100 payBody payBody shopOrdered
    [(env2, sellerA, Request.updateStatus 100 { status := OrderStatus.delivered })]
    (by decide!)).2.2.1 (by decide!)

/-- C2, as the code has it. The total of an order is a product of doubles: in a store whose
orders have a total amount equal to the double nearest to quantity times unit price (a
store without orders is one), every stored order has that property after every sequence of
requests to the order routes, whatever their answers: the order a create request saves has
it, and the saves of the status, payment and cancel routes keep it. -/
theorem totalAmount_invariant (steps : List (Env × User × Request)) (db : Db)
    (h : ∀ o ∈ db.orders, o.totalAmount = toDouble ((o.quantity : ℚ) * o.unitPrice)) :
    ∀ o ∈ (run db steps).orders, o.totalAmount = toDouble ((o.quantity : ℚ) * o.unitPrice) := by
  induction steps generalizing db with
  | nil => exact h
  | cons step rest ih =>
    obtain ⟨env, user, req⟩ := step
    apply ih
    apply handle_orders (fun o => o.totalAmount = toDouble ((o.quantity : ℚ) * o.unitPrice))
      _ _ _ _ _ _ _ _ h
    · intro now s n o ho
      obtain ⟨_, _, _, _, _, h6, h7, h8, _⟩ := Order.withStatus_frame now s n o
      rw [h6, h7, h8]; exact ho
    · intro d o ho
      obtain ⟨_, _, _, _, _, h6, h7, h8, _⟩ := Order.withPayment_frame d o
      rw [h6, h7, h8]; exact ho
    · intro hookNow count o
      simp [Order.preSave]
    · intro o ho
      obtain ⟨_, _, _, _, _, h6, h7, h8, _⟩ := Order.hydrate_frame o
      rw [h6, h7, h8]; exact ho

/-- Witness of C2 as amended: from the shop without orders, buyer B orders thirty pizzas,
pays, and seller A marks the order as delivered. -/
theorem totalAmount_invariant_witness :
    (run shop [(env1, buyerB, Request.createOrder thirtyPizzas),
        (env2, buyerB, Request.processPayment 100 payBody),
        (env2, sellerA, Request.updateStatus 100 { status := OrderStatus.delivered })]).orders.length
        = 1
      ∧ ∀ o ∈ (run shop [(env1, buyerB, Request.createOrder thirtyPizzas),
          (env2, buyerB, Request.processPayment 100 payBody),
          (env2, sellerA, Request.updateStatus 100 { status := OrderStatus.delivered })]).orders,
        o.totalAmount = toDouble ((o.quantity : ℚ) * o.unitPrice) :=
  ⟨by decide!, totalAmount_invariant _ shop (fun o ho => by cases ho)⟩

/-- Counterexample to C2 as stated: the pizza costs 18.99, the double
5345209807735357 / 2 ^ 48. Buyer B orders thirty and pays. The one stored order has
quantity 30, that unit price and the total 5011134194751897 / 2 ^ 43, which JavaScript
prints as 569.6999999999999: it is not thirty times the unit price, and not the double
569.7 either. -/
theorem totalAmount_not_exact :
    (run shop [(env1, buyerB, Request.createOrder thirtyPizzas),
        (env2, buyerB, Request.processPayment 100 payBody)]).orders.map
        (fun o => (o.quantity, o.unitPrice, o.totalAmount))
      = [(30, 5345209807735357 / 2 ^ 48, 5011134194751897 / 2 ^ 43)]
      ∧ ((30 : Int) : ℚ) * (5345209807735357 / 2 ^ 48) ≠ 5011134194751897 / 2 ^ 43
      ∧ toDouble 18.99 = 5345209807735357 / 2 ^ 48
      ∧ toDouble 569.7 ≠ 5011134194751897 / 2 ^ 43 := by
  decide!

/-- C3, as the code has it. On a stored order, a payment answered 200 changes the status
only from pending to confirmed, and a cancellation answered 200 changes it to cancelled
from a status other than delivered and cancelled: both are steps of the lifecycle of the
specification. A status update answered 200 is made by the seller and stores the status
the request names, whatever the status was; the status is optional in the request, and an
update that names none leaves the stored order without a status, which a later read
presents as pending. The seller of a valid stored order gets 200 for every update whose
notes the schema accepts, whatever status it names or omits. None of the three calls
changes the status of any other order. -/
theorem status_changes (env : Env) (user : User) (id : ObjectId) (db : Db) (o : Order)
    (hf : db.findOrder id = some o) :
    (∀ body : PaymentDetails, (processPayment env user id body db).1.status = 200 →
        ∃ o1, (processPayment env user id body db).2.findOrder id = some o1
          ∧ (o1.status ≠ o.status →
              o.status = OrderStatus.pending ∧ o1.status = OrderStatus.confirmed
                ∧ specTransition OrderStatus.pending OrderStatus.confirmed = true))
      ∧ (∀ body : CancelBody, (cancelOrder env user id body db).1.status = 200 →
        ∃ o1, (cancelOrder env user id body db).2.findOrder id = some o1
          ∧ o.status ≠ OrderStatus.delivered ∧ o.status ≠ OrderStatus.cancelled
          ∧ o1.status = OrderStatus.cancelled
          ∧ ∀ a, o.status = some a → specTransition a OrderStatus.cancelled = true)
      ∧ (∀ body : UpdateOrderBody, (updateStatus env user id body db).1.status = 200 →
        o.seller = user._id
          ∧ (∃ o1, (updateStatus env user id body db).2.storedOrder id = some o1
            ∧ o1.status = body.status)
          ∧ ∃ o2, (updateStatus env user id body db).2.findOrder id = some o2
            ∧ o2.status = some (body.status.getD OrderStatus.pending))
      ∧ (∀ body : UpdateOrderBody, updateOrderValidation body = true → o.seller = user._id →
        o.validate = true → maxlength 500 (trimField body.notes) = true →
        (updateStatus env user id body db).1.status = 200)
      ∧ (∀ id2, id2 ≠ id →
        (∀ body : PaymentDetails,
            (processPayment env user id body db).2.findOrder id2 = db.findOrder id2)
          ∧ (∀ body : CancelBody,
            (cancelOrder env user id body db).2.findOrder id2 = db.findOrder id2)
          ∧ (∀ body : UpdateOrderBody,
            (updateStatus env user id body db).2.findOrder id2 = db.findOrder id2)) := by
  refine ⟨?_, ?_, ?_, ?_, ?_⟩
  · intro body h
    refine ⟨_, (processPayment_after hf h).1, ?_⟩
    rw [(Order.withPayment_frame _ _).2.2.2.2.2.2.2.2.2.2.2]
    by_cases hp : o.status = some OrderStatus.pending
    · intro _; simp [hp, specTransition]
    · intro hne; simp [hp] at hne
  · intro body h
    obtain ⟨_, h1, h2, h3⟩ := cancelOrder_after hf h
    refine ⟨_, h3, h1, h2, (Order.withStatus_frame _ _ _ _).2.2.2.2.2.2.2.2.2.1, ?_⟩
    intro a ha
    rw [ha] at h1 h2
    revert h1 h2
    cases a <;> simp [specTransition]
  · intro body h
    obtain ⟨h1, h2⟩ := updateStatus_after hf h
    refine ⟨h1, ⟨_, updateStatus_stored hf h,
      (Order.withStatus_frame _ _ _ _).2.2.2.2.2.2.2.2.2.1⟩, _, h2, ?_⟩
    rw [Order.hydrate_status, (Order.withStatus_frame _ _ _ _).2.2.2.2.2.2.2.2.2.1]
  · intro body hv hs hval hn
    rw [updateStatus_eq hv hf]
    simp [hs, Order.withStatus_validate env.now body.status (trimField body.notes) hval hn]
  · intro id2 hne
    exact ⟨fun body => processPayment_others env user id body db id2 hne,
      fun body => cancelOrder_others env user id body db id2 hne,
      fun body => updateStatus_others env user id body db id2 hne⟩

/-- Witness of C3 as amended: the payment of buyer B confirms the pending order; seller A
sends a status update without a status for the delivered order, is answered 200, and the
order is stored without a status and read as pending. -/
theorem status_changes_witness :
    (∃ o1, (processPayment env2 buyerB 100 payBody shopOrdered).2.findOrder 100 = some o1
      ∧ (o1.status ≠ placedOrder.status →
          placedOrder.status = OrderStatus.pending ∧ o1.status = OrderStatus.confirmed
            ∧ specTransition OrderStatus.pending OrderStatus.confirmed = true))
      ∧ (updateStatus env2 sellerA 100 {} shopDelivered).1.status = 200
      ∧ (∃ o1, (updateStatus env2 sellerA 100 {} shopDelivered).2.storedOrder 100 = some o1
          ∧ o1.status = none)
      ∧ ∃ o2, (updateStatus env2 sellerA 100 {} shopDelivered).2.findOrder 100 = some o2
          ∧ o2.status = some OrderStatus.pending :=
  ⟨(status_changes env2 buyerB 100 shopOrdered placedOrder (by decide!)).1 payBody (by decide!),
    (status_changes env2 sellerA 100 shopDelivered deliveredOrder (by decide!)).2.2.2.1 {}
      (by decide!) (by decide!) (by decide!) (by decide!),
    ((status_changes env2 sellerA 100 shopDelivered deliveredOrder (by decide!)).2.2.1 {}
      (by decide!)).2⟩

/-- Counterexample to C3 as stated: seller A sets the delivered order of buyer B back to
pending; the call is answered 200, the stored status changes from delivered to pending,
and that change is no step of the lifecycle of the specification. -/
theorem updateStatus_from_delivered :
    (shopDelivered.findOrder 100).map Order.status = some OrderStatus.delivered
      ∧ (shopDelivered.findOrder 100).map Order.seller = some sellerA._id
      ∧ (updateStatus env2 sellerA 100 { status := OrderStatus.pending } shopDelivered).1.status
          = 200
      ∧ ((updateStatus env2 sellerA 100 { status := OrderStatus.pending }
          shopDelivered).2.findOrder 100).map Order.status = some OrderStatus.pending
      ∧ specTransition OrderStatus.delivered OrderStatus.pending = false := by
  decide!

/-- C4, as the code has it. For a create request that passes validation: a missing
product is answered 404 "Product not found", a product that is not active 400 "Product is
not available for order", an active product with less stock than the requested quantity
400 "Only n items available in stock", and an active, sufficiently stocked product sold by
the requesting principal 400 "You cannot order your own product" (the seller being a stored
user). Every answer other than success leaves the whole store, orders and products, as it
was. On a consistent store (the product has a price of at least 0 and a seller that is a
stored user, and the identifier and order number of the new document are not in use) a
request whose trimmed notes have at most 500 UTF-16 code units is refused exactly in
these four cases; a request with longer notes that meets none of the four is refused as
well, with 500 "Server error while creating order", for the schema rejects the notes. -/
theorem createOrder_refusals (env : Env) (user : User) (body : CreateOrderBody) (db : Db)
    (hv : createOrderValidation body = true) :
    ((∀ p, db.findProduct body.productId = some p →
          0 ≤ p.price ∧ ∃ s, db.findUser p.seller = some s) →
        (∀ x ∈ db.orders, x._id ≠ env.newId
          ∧ x.orderNumber ≠ hookOrderNumber env.hookNow db.orders.length) →
        maxlength 500 (trimField body.notes) = true →
        ((createOrder env user body db).1.success = false ↔
          (db.findProduct body.productId = none
            ∨ ∃ p, db.findProduct body.productId = some p
                ∧ (p.status ≠ ProductStatus.active ∨ p.stockQuantity < body.quantity
                    ∨ p.seller = user._id))))
      ∧ (db.findProduct body.productId = none →
          (createOrder env user body db).1 = Response.error 404 "Product not found")
      ∧ (∀ p, db.findProduct body.productId = some p → p.status ≠ ProductStatus.active →
          (createOrder env user body db).1
            = Response.error 400 "Product is not available for order")
      ∧ (∀ p, db.findProduct body.productId = some p → p.status = ProductStatus.active →
          p.stockQuantity < body.quantity →
          (createOrder env user body db).1
            = Response.error 400
                ("Only " ++ toString p.stockQuantity ++ " items available in stock"))
      ∧ (∀ p, db.findProduct body.productId = some p → p.status = ProductStatus.active →
          ¬ p.stockQuantity < body.quantity → p.seller = user._id →
          (∃ s, db.findUser p.seller = some s) →
          (createOrder env user body db).1
            = Response.error 400 "You cannot order your own product")
      ∧ (∀ p, db.findProduct body.productId = some p → p.status = ProductStatus.active →
          ¬ p.stockQuantity < body.quantity → p.seller ≠ user._id →
          (∃ s, db.findUser p.seller = some s) →
          maxlength 500 (trimField body.notes) = false →
          (createOrder env user body db).1
            = Response.error 500 "Server error while creating order")
      ∧ ((createOrder env user body db).1.success = false →
          (createOrder env user body db).2 = db) := by
  refine ⟨?_, ?_, ?_, ?_, ?_, ?_, ?_⟩
  · intro hcons hfresh hnotes
    rw [createOrder_eq hv]
    cases hfp : db.findProduct body.productId with
    | none => simp
    | some p =>
      obtain ⟨hprice, s, hs⟩ := hcons p hfp
      have hsid : s._id = p.seller := Db.findUser_id hs
      by_cases hst : p.status = ProductStatus.active
      · by_cases hq : p.stockQuantity < body.quantity
        · simp [hst, hq]
        · by_cases hself : p.seller = user._id
          · have hs2 : db.findUser user._id = some s := hself ▸ hs
            have hsid2 : s._id = user._id := hsid.trans hself
            simp [hst, hq, hs2, hsid2, hself]
          · have hne : ¬ s._id = user._id := by rw [hsid]; exact hself
            have hsave := @Order.save_new_of env _ db
              (@newOrder_validate env user body p s hv hprice hnotes) hfresh
            simp [hst, hq, hs, hne, hself, hsave]
      · simp [hst]
  · intro hfp
    rw [createOrder_eq hv, hfp]
  · intro p hfp hst
    rw [createOrder_eq hv, hfp]
    simp [hst]
  · intro p hfp hst hq
    rw [createOrder_eq hv, hfp]
    simp [hst, hq]
  · intro p hfp hst hq hself hs
    obtain ⟨s, hs⟩ := hs
    have hsid : s._id = user._id := (Db.findUser_id hs).trans hself
    rw [createOrder_eq hv, hfp]
    simp only [hst, ne_eq, not_true_eq_false, if_false, hq, hs, hsid, if_true]
  · intro p hfp hst hq hself hs hnotes
    obtain ⟨s, hs⟩ := hs
    have hne : ¬ s._id = user._id := by rw [Db.findUser_id hs]; exact hself
    have hval : (newOrder env user body.sanitize p s).validate = false := by
      have hn : (newOrder env user body.sanitize p s).notes = trimField body.notes := rfl
      simp [Order.validate, hn, hnotes]
    rw [createOrder_eq hv, hfp]
    simp [hst, hq, hs, hne, Order.save, hval]
  · exact createOrder_fail_store env user body db

/-- Witness of C4 as amended: buyer B orders three pizzas from the shop, which is
consistent, without notes, and none of the four cases applies: the order is placed. -/
theorem createOrder_refusals_witness :
    (createOrder env1 buyerB orderBody shop).1.success = true
      ∧ ((createOrder env1 buyerB orderBody shop).1.success = false ↔
        (shop.findProduct orderBody.productId = none
          ∨ ∃ p, shop.findProduct orderBody.productId = some p
              ∧ (p.status ≠ ProductStatus.active ∨ p.stockQuantity < orderBody.quantity
                  ∨ p.seller = buyerB._id))) :=
  ⟨by decide!,
    (createOrder_refusals env1 buyerB orderBody shop (by decide!)).1
      (fun p hp => by
        have e : shop.findProduct orderBody.productId = some pizza := by decide!
        rw [e] at hp
        cases hp
        exact ⟨by decide!, sellerA, by decide!⟩)
      (fun x hx => by cases hx) (by decide!)⟩

/-- Counterexample to C4 as stated: buyer B orders three pizzas with notes of 300
characters outside the basic plane. The request passes validation, for the validator
counts 300 characters; the pizza is stored, active, in stock, and sold by seller A, so
none of the four conditions holds; the schema counts 600 code units and rejects the
notes: the call fails with 500 and nothing is stored. -/
theorem createOrder_long_notes :
    createOrderValidation orderWithNotes = true
      ∧ astralNotes.length = 300 ∧ utf16Length astralNotes = 600
      ∧ shop.findProduct orderWithNotes.productId = some pizza
      ∧ pizza.status = ProductStatus.active
      ∧ ¬ pizza.stockQuantity < orderWithNotes.quantity
      ∧ pizza.seller ≠ buyerB._id
      ∧ createOrder env1 buyerB orderWithNotes shop
          = (Response.error 500 "Server error while creating order", shop) := by
  decide!

/-- C5, as the code has it. A create request answered 201 was made on a stored, active
product, for a quantity within its stock; the order it returns is appended to the stored
orders with status pending and payment status pending, the price of the product as unit
price, the product of price and quantity as JavaScript computes it, that is the double
nearest to price times quantity, as total amount, the requesting principal as buyer and
the seller of the product as seller; the products, and with them the stock, are as
before. -/
theorem createOrder_placed (env : Env) (user : User) (body : CreateOrderBody) (db : Db)
    (h : (createOrder env user body db).1.status = 201) :
    ∃ p o, db.findProduct body.productId = some p
      ∧ (createOrder env user body db).1.order = some o
      ∧ (createOrder env user body db).2.orders = db.orders ++ [o]
      ∧ (createOrder env user body db).2.findOrder o._id = some o
      ∧ o.status = OrderStatus.pending ∧ o.paymentStatus = PaymentStatus.pending
      ∧ o.unitPrice = p.price ∧ o.quantity = body.quantity
      ∧ o.totalAmount = toDouble (p.price * (body.quantity : ℚ))
      ∧ o.buyer = user._id ∧ o.seller = p.seller ∧ o.product = body.productId
      ∧ (createOrder env user body db).2.products = db.products
      ∧ (createOrder env user body db).2.findProduct body.productId = some p
      ∧ p.status = ProductStatus.active ∧ body.quantity ≤ p.stockQuantity := by
  cases hv : createOrderValidation body
  · rw [createOrder_invalid hv] at h; simp at h
  · rw [createOrder_eq hv] at h ⊢
    cases hfp : db.findProduct body.productId with
    | none => simp [hfp] at h
    | some p =>
      simp only [hfp] at h ⊢
      by_cases hst : p.status = ProductStatus.active
      · by_cases hq : p.stockQuantity < body.quantity
        · simp [hst, hq] at h
        · cases hs : db.findUser p.seller with
          | none => simp [hst, hq, hs] at h
          | some s =>
            by_cases hself : s._id = user._id
            · simp [hst, hq, hs, hself] at h
            · cases hsave : (newOrder env user body.sanitize p s).save true true env db with
              | none => simp [hst, hq, hs, hself, hsave] at h
              | some r =>
                obtain ⟨o, db1⟩ := r
                obtain ⟨_, ho, hdb, hfr⟩ := Order.save_new hsave
                have hstat : o.status = some OrderStatus.pending := by
                  rw [ho]; simp [Order.preSave, newOrder]
                simp only [hst, hq, hs, hself, hsave, ne_eq, not_true_eq_false, if_false]
                refine ⟨p, o, rfl, rfl, ?_, ?_, ?_, ?_, ?_, ?_, ?_, ?_, ?_, ?_, ?_, ?_, hst,
                  not_lt.mp hq⟩
                · rw [hdb]; rfl
                · rw [hdb]
                  unfold Db.findOrder Db.storedOrder Db.insertOrder
                  rw [List.find?_append]
                  have hnone : db.orders.find? (fun x => decide (x._id = o._id)) = none := by
                    rw [List.find?_eq_none]
                    intro x hx
                    simpa using (hfr x hx).1
                  simp [hnone, Order.hydrate_of_status hstat]
                all_goals first
                  | (rw [ho]; simp [Order.preSave, newOrder, CreateOrderBody.sanitize]; done)
                  | (rw [hdb]; rfl)
                  | skip
                · rw [ho]
                  simp only [Order.preSave, newOrder, CreateOrderBody.sanitize, if_true]
                  exact congrArg toDouble (mul_comm _ _)
                · rw [ho]
                  simp only [Order.preSave, newOrder, CreateOrderBody.sanitize, if_true]
                  exact Db.findUser_id hs
                · rw [hdb]; exact hfp
      · simp [hst] at h

/-- Witness of C5 as amended: the order of buyer B for thirty pizzas. -/
theorem createOrder_placed_witness :
    ∃ p o, shop.findProduct thirtyPizzas.productId = some p
      ∧ (createOrder env1 buyerB thirtyPizzas shop).1.order = some o
      ∧ (createOrder env1 buyerB thirtyPizzas shop).2.orders = shop.orders ++ [o]
      ∧ (createOrder env1 buyerB thirtyPizzas shop).2.findOrder o._id = some o
      ∧ o.status = OrderStatus.pending ∧ o.paymentStatus = PaymentStatus.pending
      ∧ o.unitPrice = p.price ∧ o.quantity = thirtyPizzas.quantity
      ∧ o.totalAmount = toDouble (p.price * (thirtyPizzas.quantity : ℚ))
      ∧ o.buyer = buyerB._id ∧ o.seller = p.seller ∧ o.product = thirtyPizzas.productId
      ∧ (createOrder env1 buyerB thirtyPizzas shop).2.products = shop.products
      ∧ (createOrder env1 buyerB thirtyPizzas shop).2.findProduct thirtyPizzas.productId = some p
      ∧ p.status = ProductStatus.active ∧ thirtyPizzas.quantity ≤ p.stockQuantity :=
  createOrder_placed env1 buyerB thirtyPizzas shop (by decide!)

/-- Counterexample to C5 as stated: the pizza costs 18.99, the double
5345209807735357 / 2 ^ 48, and buyer B orders thirty. The request is answered 201 and the
persisted order has the total 5011134194751897 / 2 ^ 43, which JavaScript prints as
569.6999999999999, while price times quantity is 80178147116030355 / 2 ^ 47. -/
theorem createOrder_total_rounded :
    (createOrder env1 buyerB thirtyPizzas shop).1.status = 201
      ∧ shop.findProduct thirtyPizzas.productId = some pizza
      ∧ pizza.price = 5345209807735357 / 2 ^ 48
      ∧ thirtyPizzas.quantity = 30
      ∧ (createOrder env1 buyerB thirtyPizzas shop).2.orders.map Order.totalAmount
          = [5011134194751897 / 2 ^ 43]
      ∧ (createOrder env1 buyerB thirtyPizzas shop).1.order.map Order.totalAmount
          = some (5011134194751897 / 2 ^ 43)
      ∧ pizza.price * (thirtyPizzas.quantity : ℚ) = 80178147116030355 / 2 ^ 47
      ∧ pizza.price * (thirtyPizzas.quantity : ℚ) ≠ 5011134194751897 / 2 ^ 43 := by
  decide!

/-- C6. A payment answered 200 on a stored order whose product is stored sets the payment
status to completed, moves the status to confirmed when it was pending and leaves it as it
was otherwise, and sets the stock of the product to the maximum of 0 and the stock minus the
order quantity; the caller is then the buyer and the payment was not completed before.
Such a payment is answered 200 whenever the body is valid, the caller is the buyer, the
payment is not completed and the two stored documents satisfy their schema validators. -/
theorem processPayment_effect (env : Env) (user : User) (id : ObjectId) (body : PaymentDetails)
    (db : Db) (o : Order) (p : Product) (hf : db.findOrder id = some o)
    (hfp : db.findProduct o.product = some p) :
    ((processPayment env user id body db).1.status = 200 →
        o.buyer = user._id ∧ o.paymentStatus ≠ PaymentStatus.completed
          ∧ ∃ o1 p1, (processPayment env user id body db).2.findOrder id = some o1
            ∧ o1.paymentStatus = PaymentStatus.completed
            ∧ o1.status
                = (if o.status = OrderStatus.pending then some OrderStatus.confirmed
                    else o.status)
            ∧ (processPayment env user id body db).2.findProduct o.product = some p1
            ∧ p1.stockQuantity = max 0 (p.stockQuantity - o.quantity))
      ∧ (paymentValidation body = true → o.buyer = user._id
          → o.paymentStatus ≠ PaymentStatus.completed → o.validate = true → p.validate = true
          → (processPayment env user id body db).1.status = 200) := by
  constructor
  · intro h
    obtain ⟨_, o2, hf2, hb, hp⟩ := processPayment_ok h
    have e : o = o2 := by rw [hf] at hf2; exact Option.some.inj hf2
    subst e
    obtain ⟨hf1, hstock⟩ := processPayment_after hf h
    obtain ⟨p1, hp1, hq⟩ := hstock p hfp
    exact ⟨hb, hp, _, p1, hf1, (Order.withPayment_frame _ _).2.2.2.2.2.2.2.2.2.2.1,
      (Order.withPayment_frame _ _).2.2.2.2.2.2.2.2.2.2.2, hp1, hq⟩
  · intro hv hb hp hval hpv
    rw [processPayment_eq hv hf hb hp]
    simp [hval, hfp, Product.withStock_validate hpv]

/-- Witness of C6, the scenario of the specification: the order for three pizzas at 18.99
totals 56.97 (both as doubles) and leaves the stock at 50; the payment confirms it and the
stock becomes 47. -/
theorem processPayment_effect_witness :
    (createOrder env1 buyerB orderBody shop).1.order = some placedOrder
      ∧ placedOrder.totalAmount = toDouble 56.97
      ∧ shopOrdered.findProduct 10 = some pizza
      ∧ pizza.stockQuantity = 50
      ∧ (max 0 (pizza.stockQuantity - placedOrder.quantity) : Int) = 47
      ∧ ∃ o1 p1, (processPayment env2 buyerB 100 payBody shopOrdered).2.findOrder 100 = some o1
          ∧ o1.paymentStatus = PaymentStatus.completed
          ∧ o1.status = (if placedOrder.status = OrderStatus.pending then
              some OrderStatus.confirmed else placedOrder.status)
          ∧ (processPayment env2 buyerB 100 payBody shopOrdered).2.findProduct placedOrder.product
              = some p1
          ∧ p1.stockQuantity = max 0 (pizza.stockQuantity - placedOrder.quantity) :=
  ⟨by decide!, rfl, by decide!, rfl, by decide,
    ((processPayment_effect env2 buyerB 100 payBody shopOrdered placedOrder pizza (by decide!)
      (by decide!)).1 (by decide!)).2.2⟩

/-- C7. On a stored order: the status route refuses every principal other than the seller,
the payment route every principal other than the buyer, the cancel and read routes every
principal who is neither, each leaving the whole store as it was. The refusal is the 403
envelope whenever the body passes the validation rules of the route (the read route: when
the buyer and seller of the order are stored users); a body that fails them is refused
with 400 before the order is looked up. The seller, the buyer, and either party are never
answered 403 by the respective routes. -/
theorem forbidden_unless_party (env : Env) (user : User) (id : ObjectId) (db : Db) (o : Order)
    (hf : db.findOrder id = some o) :
    (o.seller ≠ user._id → ∀ body : UpdateOrderBody,
        (updateStatus env user id body db).2 = db
          ∧ (updateStatus env user id body db).1.success = false
          ∧ (updateOrderValidation body = true → (updateStatus env user id body db).1
              = Response.error 403 "Only the seller can update order status"))
      ∧ (o.buyer ≠ user._id → ∀ body : PaymentDetails,
        (processPayment env user id body db).2 = db
          ∧ (processPayment env user id body db).1.success = false
          ∧ (paymentValidation body = true → (processPayment env user id body db).1
              = Response.error 403 "Only the buyer can process payment"))
      ∧ (o.buyer ≠ user._id → o.seller ≠ user._id → ∀ body : CancelBody,
        cancelOrder env user id body db = (Response.error 403 "Access denied", db))
      ∧ (o.buyer ≠ user._id → o.seller ≠ user._id →
        (getOrder user id db).2 = db ∧ (getOrder user id db).1.success = false
          ∧ ((db.findUser o.buyer).isSome = true → (db.findUser o.seller).isSome = true →
              (getOrder user id db).1 = Response.error 403 "Access denied"))
      ∧ (o.seller = user._id → ∀ body : UpdateOrderBody,
        (updateStatus env user id body db).1.status ≠ 403)
      ∧ (o.buyer = user._id → ∀ body : PaymentDetails,
        (processPayment env user id body db).1.status ≠ 403)
      ∧ (o.buyer = user._id ∨ o.seller = user._id →
        (∀ body : CancelBody, (cancelOrder env user id body db).1.status ≠ 403)
          ∧ (getOrder user id db).1.status ≠ 403) := by
  refine ⟨?_, ?_, ?_, ?_, ?_, ?_, ?_⟩
  · intro hs body
    cases hv : updateOrderValidation body
    · rw [updateStatus_invalid hv]; simp
    · rw [updateStatus_eq hv hf]; simp [hs]
  · intro hb body
    cases hv : paymentValidation body
    · rw [processPayment_invalid hv]; simp
    · rw [processPayment_forbidden hv hf hb]; simp
  · intro hb hs body
    rw [cancelOrder_eq hf]; simp [hb, hs]
  · intro hb hs
    refine ⟨getOrder_store user id db, ?_, ?_⟩
    · unfold getOrder
      simp only [hf]
      cases hfb : db.findUser o.buyer with
      | none => rfl
      | some b =>
        have hb2 : ¬ b._id = user._id := by rw [Db.findUser_id hfb]; exact hb
        simp only [hb2, if_false]
        cases hfs : db.findUser o.seller with
        | none => rfl
        | some s =>
          have hs2 : ¬ s._id = user._id := by rw [Db.findUser_id hfs]; exact hs
          simp [hs2]
    · intro h1 h2
      obtain ⟨b, hfb⟩ := Option.isSome_iff_exists.mp h1
      obtain ⟨s, hfs⟩ := Option.isSome_iff_exists.mp h2
      rw [getOrder_eq hf hfb hfs]; simp [hb, hs]
  · intro hs body
    cases hv : updateOrderValidation body
    · rw [updateStatus_invalid hv]; simp
    · rw [updateStatus_eq hv hf]
      cases (o.withStatus env.now body.status (trimField body.notes)).validate <;> simp [hs]
  · intro hb body
    cases hv : paymentValidation body
    · rw [processPayment_invalid hv]; simp
    · by_cases hp : o.paymentStatus = PaymentStatus.completed
      · rw [processPayment_paid hf hb hp]; simp [hv]
      · rw [processPayment_eq hv hf hb hp]
        cases o.validate
        · simp
        · simp only [if_true]
          cases db.findProduct o.product with
          | none => simp
          | some p =>
            simp only []
            cases (p.withStock (max 0 (p.stockQuantity - o.quantity))).validate <;> simp
  · intro hparty
    constructor
    · intro body
      rw [cancelOrder_eq hf]
      by_cases ht : o.status = OrderStatus.delivered ∨ o.status = OrderStatus.cancelled
      · simp [hparty, ht]
      · cases (o.withStatus env.now OrderStatus.cancelled (cancelNotes body.reason)).validate
          <;> simp [hparty, ht]
    · unfold getOrder
      simp only [hf]
      cases hfb : db.findUser o.buyer with
      | none => simp
      | some b =>
        simp only [Db.findUser_id hfb]
        by_cases hb : o.buyer = user._id
        · simp [hb]
        · simp only [hb, if_false]
          cases hfs : db.findUser o.seller with
          | none => simp
          | some s =>
            have hs : o.seller = user._id := hparty.resolve_left hb
            simp [Db.findUser_id hfs, hs]

/-- Witness of C7: buyer C, party to no order, is refused on the order of buyer B. -/
theorem forbidden_unless_party_witness :
    cancelOrder env2 buyerC 100 { reason := some "changed my mind" } shopOrdered
        = (Response.error 403 "Access denied", shopOrdered)
      ∧ (processPayment env2 buyerC 100 payBody shopOrdered).1
        = Response.error 403 "Only the buyer can process payment"
      ∧ (updateStatus env2 buyerC 100 { status := OrderStatus.delivered } shopOrdered).1
        = Response.error 403 "Only the seller can update order status"
      ∧ (getOrder buyerC 100 shopOrdered).1 = Response.error 403 "Access denied" :=
  have h := forbidden_unless_party env2 buyerC 100 shopOrdered placedOrder (by decide!)
  ⟨h.2.2.1 (by decide) (by decide) _,
    (h.2.1 (by decide) payBody).2.2 (by decide!),
    (h.1 (by decide) { status := OrderStatus.delivered }).2.2 (by decide!),
    (h.2.2.2.1 (by decide) (by decide)).2.2 (by decide!) (by decide!)⟩

/-- C8, as the code has it. For a caller who is the buyer or the seller of a stored order,
the cancel route answers 400 "Order cannot be cancelled" exactly when the status is
delivered or cancelled, and then leaves the store as it was. Otherwise, when the stored
order satisfies the schema validators and the reason, if any, has at most 500 UTF-16 code
units, the route answers 200, sets the status to cancelled and sets the notes to the reason,
or to "Order cancelled by user" when the reason is absent or empty. -/
theorem cancelOrder_outcome (env : Env) (user : User) (id : ObjectId) (body : CancelBody)
    (db : Db) (o : Order) (hf : db.findOrder id = some o)
    (hparty : o.buyer = user._id ∨ o.seller = user._id) :
    ((cancelOrder env user id body db).1 = Response.error 400 "Order cannot be cancelled"
        ↔ (o.status = OrderStatus.delivered ∨ o.status = OrderStatus.cancelled))
      ∧ ((o.status = OrderStatus.delivered ∨ o.status = OrderStatus.cancelled) →
          (cancelOrder env user id body db).2 = db)
      ∧ (¬ (o.status = OrderStatus.delivered ∨ o.status = OrderStatus.cancelled) →
          o.validate = true → (∀ r, body.reason = some r → utf16Length r ≤ 500) →
          (cancelOrder env user id body db).1.status = 200
            ∧ ∃ o1, (cancelOrder env user id body db).2.findOrder id = some o1
              ∧ o1.status = OrderStatus.cancelled
              ∧ (∀ r, body.reason = some r → r ≠ "" → o1.notes = some r)
              ∧ (body.reason = none ∨ body.reason = some "" →
                  o1.notes = some "Order cancelled by user")) := by
  rw [cancelOrder_eq hf]
  by_cases ht : o.status = OrderStatus.delivered ∨ o.status = OrderStatus.cancelled
  · simp [hparty, ht]
  · simp only [hparty, not_true_eq_false, if_false, ht, false_iff, not_false_eq_true,
      forall_true_left, false_implies, true_and]
    constructor
    · cases (o.withStatus env.now OrderStatus.cancelled (cancelNotes body.reason)).validate
      · simp [Response.error]
      · simp [Response.error]
    · intro hval hlen
      have hn : maxlength 500 (cancelNotes body.reason) = true := by
        unfold cancelNotes
        cases hr : body.reason with
        | none => simp [truthy, maxlength]; decide!
        | some r =>
          by_cases he : r = ""
          · simp [truthy, he, maxlength]; decide!
          · simp [truthy, he, maxlength, hlen r hr]
      have hv := Order.withStatus_validate env.now OrderStatus.cancelled
        (cancelNotes body.reason) hval hn
      obtain ⟨hid, _, _, _, _, _, _, _, _, hst, hnotes, _⟩ :=
        Order.withStatus_frame env.now OrderStatus.cancelled (cancelNotes body.reason) o
      simp only [hv, if_true, true_and]
      refine ⟨_, (Db.findOrder_replaceOrder_self hf (hid.trans (Db.findOrder_id hf))).trans
        (congrArg some (Order.hydrate_of_status hst)), hst, ?_, ?_⟩
      · intro r hr hne
        rw [hnotes, cancelNotes_truthy, if_pos rfl]
        exact (cancelNotes_cases body.reason).1 r hr hne
      · intro h
        rw [hnotes, cancelNotes_truthy, if_pos rfl]
        exact (cancelNotes_cases body.reason).2 h

/-- Witness of C8 as amended: buyer B cancels the pending order without a reason. -/
theorem cancelOrder_outcome_witness :
    (cancelOrder env2 buyerB 100 {} shopOrdered).1.status = 200
      ∧ ∃ o1, (cancelOrder env2 buyerB 100 {} shopOrdered).2.findOrder 100 = some o1
        ∧ o1.status = OrderStatus.cancelled
        ∧ (∀ r, ({} : CancelBody).reason = some r → r ≠ "" → o1.notes = some r)
        ∧ (({} : CancelBody).reason = none ∨ ({} : CancelBody).reason = some "" →
            o1.notes = some "Order cancelled by user") :=
  (cancelOrder_outcome env2 buyerB 100 {} shopOrdered placedOrder (by decide!)
    (Or.inl (by decide))).2.2 (by decide) (by decide!) (fun r hr => by cases hr)

/-- Counterexample to C8 as stated: buyer B cancels the pending order with a reason of 501
characters; the status is neither delivered nor cancelled, yet the call fails (the schema
limits notes to 500 UTF-16 code units and the save is rejected) and the order stays
pending. A reason of 300 characters outside the basic plane, 600 code units, fails in the
same way. -/
theorem cancelOrder_long_reason :
    shopOrdered.findOrder 100 = some placedOrder
      ∧ placedOrder.buyer = buyerB._id
      ∧ placedOrder.status = OrderStatus.pending
      ∧ longReason.length = 501
      ∧ (cancelOrder env2 buyerB 100 { reason := some longReason } shopOrdered).1
          = Response.error 500 "Server error while cancelling order"
      ∧ (cancelOrder env2 buyerB 100 { reason := some longReason } shopOrdered).2 = shopOrdered
      ∧ ((cancelOrder env2 buyerB 100 { reason := some longReason } shopOrdered).2.findOrder
          100).map Order.status = some OrderStatus.pending
      ∧ utf16Length longReason = 501
      ∧ astralNotes.length = 300 ∧ utf16Length astralNotes = 600
      ∧ cancelOrder env2 buyerB 100 { reason := some astralNotes } shopOrdered
          = (Response.error 500 "Server error while cancelling order", shopOrdered) := by
  decide!

/-- C9. The order a create request returns has no actual delivery time. For a stored
order and any request to the order routes, the order is still stored afterwards; an actual
delivery time that is set stays as it is; one that is unset becomes the current time
exactly when the request is a status update of this order to delivered that is answered
200, and stays unset after every other request. Hence a delivery time, once set, is the
one read after every later sequence of requests. -/
theorem actualDeliveryTime_once (env : Env) (user : User) (req : Request) (db : Db)
    (id : ObjectId) (o : Order) (hf : db.findOrder id = some o) :
    (∀ body o2, req = Request.createOrder body → (handle env user req db).1.order = some o2 →
        o2.actualDeliveryTime = none)
      ∧ (∃ o1, (handle env user req db).2.findOrder id = some o1
        ∧ (∀ t, o.actualDeliveryTime = some t → o1.actualDeliveryTime = some t)
        ∧ (o.actualDeliveryTime = none →
            (o1.actualDeliveryTime = none ∨ o1.actualDeliveryTime = some env.now)
              ∧ (o1.actualDeliveryTime = some env.now ↔
                  ∃ body, req = Request.updateStatus id body
                    ∧ body.status = OrderStatus.delivered
                    ∧ (handle env user req db).1.status = 200)))
      ∧ ∀ (steps : List (Env × User × Request)) (t : Timestamp),
          o.actualDeliveryTime = some t →
          ∃ o1, (run db steps).findOrder id = some o1 ∧ o1.actualDeliveryTime = some t := by
  refine ⟨?_, ?_, ?_⟩
  · intro body o2 hreq hord
    subst hreq
    simp only [handle] at hord
    rcases createOrder_shape env user body db with ⟨_, h1, _⟩ | ⟨p, s, _, h1, _⟩
    · rw [h1] at hord; cases hord
    · rw [h1] at hord
      have e := Option.some.inj hord
      rw [← e]
      simp [Order.preSave, newOrder]
  · cases req with
    | createOrder body =>
      exact ⟨o, createOrder_find hf, fun t ht => ht, fun hn => ⟨Or.inl hn, by simp [hn]⟩⟩
    | getOrder id2 =>
      refine ⟨o, ?_, fun t ht => ht, fun hn => ⟨Or.inl hn, by simp [hn]⟩⟩
      simp only [handle, getOrder_store]; exact hf
    | processPayment id2 body =>
      by_cases hid : id = id2
      · subst hid
        rcases @processPayment_find env user id body db o hf with h1 | h1
        · exact ⟨o, h1, fun t ht => ht, fun hn => ⟨Or.inl hn, by simp [hn]⟩⟩
        · have hadt := (Order.withPayment_frame body.sanitize o).2.2.2.2.2.2.2.2.2.1
          refine ⟨_, h1, fun t ht => by rw [hadt]; exact ht, fun hn => ?_⟩
          rw [hadt]
          exact ⟨Or.inl hn, by simp [hn]⟩
      · refine ⟨o, ?_, fun t ht => ht, fun hn => ⟨Or.inl hn, by simp [hn]⟩⟩
        simp only [handle]
        rw [processPayment_others env user id2 body db id hid]; exact hf
    | cancelOrder id2 body =>
      by_cases hid : id = id2
      · subst hid
        rcases cancelOrder_shape env user id body db with ⟨_, h2⟩ | ⟨o2, hf2, h1, _⟩
        · refine ⟨o, ?_, fun t ht => ht, fun hn => ⟨Or.inl hn, by simp [hn]⟩⟩
          simp only [handle, h2]; exact hf
        · have hadt := (Order.withStatus_frame env.now OrderStatus.cancelled
            (cancelNotes body.reason) o).2.2.2.2.2.2.2.2.2.2.2
          simp only [Option.some.injEq, reduceCtorEq, false_and, if_false] at hadt
          refine ⟨_, (cancelOrder_after hf h1).2.2.2, fun t ht => by rw [hadt]; exact ht,
            fun hn => ?_⟩
          rw [hadt]
          exact ⟨Or.inl hn, by simp [hn]⟩
      · refine ⟨o, ?_, fun t ht => ht, fun hn => ⟨Or.inl hn, by simp [hn]⟩⟩
        simp only [handle]
        rw [cancelOrder_others env user id2 body db id hid]; exact hf
    | updateStatus id2 body =>
      by_cases hid : id = id2
      · subst hid
        rcases updateStatus_shape env user id body db with ⟨h1, h2⟩ | ⟨o2, hf2, h1, _⟩
        · refine ⟨o, ?_, fun t ht => ht, fun hn => ⟨Or.inl hn, ?_⟩⟩
          · simp only [handle, h2]; exact hf
          · simp only [hn, reduceCtorEq, false_iff, not_exists, not_and]
            intro b hb _
            cases hb
            exact h1
        · have hadt := ((Order.hydrate_frame
            (o.withStatus env.now body.status (trimField body.notes))).2.2.2.2.2.2.2.2.2.2.1).trans
            (Order.withStatus_frame env.now body.status (trimField body.notes)
              o).2.2.2.2.2.2.2.2.2.2.2
          refine ⟨_, (updateStatus_after hf h1).2, fun t ht => ?_, fun hn => ?_⟩
          · rw [hadt]; simp [ht]
          · rw [hadt]
            by_cases hd : body.status = OrderStatus.delivered
            · simp only [hd, hn, and_self, if_true, or_true, true_and, true_iff]
              exact ⟨body, rfl, hd, h1⟩
            · simp only [hd, false_and, if_false, hn, true_or, reduceCtorEq, false_iff,
                not_exists, not_and, true_and]
              intro b hb hbd
              cases hb
              exact absurd hbd hd
      · refine ⟨o, ?_, fun t ht => ht, fun hn => ⟨Or.inl hn, ?_⟩⟩
        · simp only [handle]
          rw [updateStatus_others env user id2 body db id hid]; exact hf
        · simp only [hn, reduceCtorEq, false_iff, not_exists, not_and]
          intro b hb
          cases hb
          exact absurd rfl hid
  · intro steps t ht
    exact run_find (fun x => x.actualDeliveryTime = some t)
      (fun now s n x hx => by
        have hx2 : x.actualDeliveryTime = some t := hx
        show (x.withStatus now s n).actualDeliveryTime = some t
        rw [(Order.withStatus_frame now s n x).2.2.2.2.2.2.2.2.2.2.2]
        simp [hx2])
      (fun d x hx => by
        show (x.withPayment d).actualDeliveryTime = some t
        rw [(Order.withPayment_frame d x).2.2.2.2.2.2.2.2.2.1]
        exact hx)
      (fun x hx => by
        show x.hydrate.actualDeliveryTime = some t
        rw [(Order.hydrate_frame x).2.2.2.2.2.2.2.2.2.2.1]
        exact hx)
      steps db id o hf ht

/-- Witness of C9: seller A marks the delivered order of buyer B as delivered once more, at
another time; the delivery time recorded by the first call, 2000, stays. -/
theorem actualDeliveryTime_once_witness :
    (shopOrdered.findOrder 100).map Order.actualDeliveryTime = some none
      ∧ (shopDelivered.findOrder 100).map Order.actualDeliveryTime = some (some 2000)
      ∧ ∃ o1, (handle env1 sellerA (Request.updateStatus 100 { status := OrderStatus.delivered })
            shopDelivered).2.findOrder 100 = some o1
          ∧ ∀ t, deliveredOrder.actualDeliveryTime = some t → o1.actualDeliveryTime = some t :=
  ⟨by decide!, by decide!,
    (actualDeliveryTime_once env1 sellerA
      (Request.updateStatus 100 { status := OrderStatus.delivered }) shopDelivered 100
      deliveredOrder (by decide!)).2.1.imp fun _ h => ⟨h.1, h.2.1⟩⟩

/-- C10. The pre-save hooks of the product schema, which every save runs, leave a document
whose average rating is the arithmetic mean of the ratings of its reviews and whose review
count is the number of its reviews, both 0 when there are no reviews; the reviews are those
of the document before the hooks. A save of a stored product that is not rejected writes
exactly that document, and it is the one read back from the store. -/
theorem Product.save_rating (nameModified : Bool) (env : Env) (p : Product) (db : Db) :
    (p.preSave nameModified env.hookNow).averageRating
        = specMean ((p.preSave nameModified env.hookNow).reviews.map Review.rating)
      ∧ (p.preSave nameModified env.hookNow).totalReviews
        = (p.preSave nameModified env.hookNow).reviews.length
      ∧ ((p.preSave nameModified env.hookNow).reviews = [] →
          (p.preSave nameModified env.hookNow).averageRating = 0
            ∧ (p.preSave nameModified env.hookNow).totalReviews = 0)
      ∧ ((p.preSave nameModified env.hookNow).reviews ≠ [] →
          (p.preSave nameModified env.hookNow).averageRating
            = ((((p.preSave nameModified env.hookNow).reviews.map Review.rating).sum : Int) : ℚ)
              / ((p.preSave nameModified env.hookNow).reviews.length : ℚ))
      ∧ (p.preSave nameModified env.hookNow).reviews = p.reviews
      ∧ ∀ p1 db1, p.save nameModified env db = some (p1, db1) →
          p1 = p.preSave nameModified env.hookNow
            ∧ ∀ x, db.findProduct p._id = some x → db1.findProduct p._id = some p1 := by
  obtain ⟨a, b, c⟩ := Product.preSave_rating nameModified env.hookNow p
  rw [c]
  refine ⟨a, b, ?_, ?_, rfl, ?_⟩
  · intro he
    rw [a, b, he]
    simp [specMean]
  · intro hne
    rw [a]
    simp [specMean, hne]
  · intro p1 db1 h
    rw [Product.save_eq] at h
    cases hv : p.validate
    · simp [hv] at h
    · simp only [hv, if_true, Option.some.injEq, Prod.mk.injEq] at h
      obtain ⟨h1, h2⟩ := h
      subst h1
      refine ⟨rfl, fun x hx => ?_⟩
      rw [← h2]
      exact Db.findProduct_replaceProduct_self hx (Product.preSave_frame _ _ _).1

/-- Witness of C10: the pizza with three reviews rated 5, 4 and 4 and a stale average is
saved; the written document has the average 13/3 and the count 3. -/
theorem Product.save_rating_witness :
    (reviewedPizza.save false env1 shopReviewed).isSome = true
      ∧ (reviewedPizza.preSave false env1.hookNow).averageRating = 13 / 3
      ∧ (reviewedPizza.preSave false env1.hookNow).totalReviews = 3
      ∧ (shopReviewed.replaceProduct (reviewedPizza.preSave false env1.hookNow)).findProduct
          reviewedPizza._id = some (reviewedPizza.preSave false env1.hookNow) :=
  ⟨by decide!, by decide!, by decide!,
    ((Product.save_rating false env1 reviewedPizza shopReviewed).2.2.2.2.2
      (reviewedPizza.preSave false env1.hookNow)
      (shopReviewed.replaceProduct (reviewedPizza.preSave false env1.hookNow))
      (by decide!)).2 reviewedPizza (by decide!)⟩

/-- C11. The pre-save hooks of the product schema, which every save runs, leave the stock
quantity as it is and derive the status from it: with quantity 0 the status afterwards is
one of out_of_stock, inactive, discontinued; an active product with quantity 0 becomes
out_of_stock; an out_of_stock product with a positive quantity becomes active; an inactive
or discontinued product keeps its status whatever the quantity, and so does every other
product. A save of a stored product that is not rejected writes exactly that document,
with a quantity of at least 0. -/
theorem Product.save_stock_status (nameModified : Bool) (env : Env) (p : Product) (db : Db) :
    (p.preSave nameModified env.hookNow).stockQuantity = p.stockQuantity
      ∧ ((p.preSave nameModified env.hookNow).stockQuantity = 0 →
          (p.preSave nameModified env.hookNow).status = ProductStatus.out_of_stock
            ∨ (p.preSave nameModified env.hookNow).status = ProductStatus.inactive
            ∨ (p.preSave nameModified env.hookNow).status = ProductStatus.discontinued)
      ∧ (p.status = ProductStatus.active → p.stockQuantity = 0 →
          (p.preSave nameModified env.hookNow).status = ProductStatus.out_of_stock)
      ∧ (p.status = ProductStatus.out_of_stock → 0 < p.stockQuantity →
          (p.preSave nameModified env.hookNow).status = ProductStatus.active)
      ∧ (p.status = ProductStatus.inactive ∨ p.status = ProductStatus.discontinued →
          (p.preSave nameModified env.hookNow).status = p.status)
      ∧ (p.status = ProductStatus.active → p.stockQuantity ≠ 0 →
          (p.preSave nameModified env.hookNow).status = ProductStatus.active)
      ∧ (p.status = ProductStatus.out_of_stock → p.stockQuantity ≤ 0 →
          (p.preSave nameModified env.hookNow).status = ProductStatus.out_of_stock)
      ∧ ∀ p1 db1, p.save nameModified env db = some (p1, db1) →
          p1 = p.preSave nameModified env.hookNow ∧ 0 ≤ p1.stockQuantity
            ∧ ∀ x, db.findProduct p._id = some x → db1.findProduct p._id = some p1 := by
  have hq := (Product.preSave_frame nameModified env.hookNow p).2.1
  have hs := Product.preSave_status nameModified env.hookNow p
  refine ⟨hq, ?_, ?_, ?_, ?_, ?_, ?_, ?_⟩
  · rw [hq, hs]
    intro h0
    cases hst : p.status <;> simp [h0]
  · intro h1 h2; rw [hs]; simp [h1, h2]
  · intro h1 h2; rw [hs]; simp [h1, h2, ne_of_gt h2]
  · intro h; rw [hs]; rcases h with h | h <;> simp [h]
  · intro h1 h2; rw [hs]; simp [h1, h2]
  · intro h1 h2; rw [hs]; simp [h1, not_lt.mpr h2]
  · intro p1 db1 h
    rw [Product.save_eq] at h
    cases hv : p.validate
    · simp [hv] at h
    · simp only [hv, if_true, Option.some.injEq, Prod.mk.injEq] at h
      obtain ⟨h1, h2⟩ := h
      subst h1
      refine ⟨rfl, ?_, fun x hx => ?_⟩
      · rw [hq]
        simp only [Product.validate, Bool.and_eq_true, decide_eq_true_eq] at hv
        exact hv.1.1.1.1.2
      · rw [← h2]
        exact Db.findProduct_replaceProduct_self hx (Product.preSave_frame _ _ _).1

/-- Witness of C11: the active pizza with no stock left is saved and becomes out_of_stock. -/
theorem Product.save_stock_status_witness :
    soldOutPizza.status = ProductStatus.active ∧ soldOutPizza.stockQuantity = 0
      ∧ (soldOutPizza.save false env1 shopSoldOut).isSome = true
      ∧ (soldOutPizza.preSave false env1.hookNow).status = ProductStatus.out_of_stock :=
  ⟨rfl, rfl, by decide!,
    (Product.save_stock_status false env1 soldOutPizza shopSoldOut).2.2.1 rfl rfl⟩

/-- C12. The method updateStock assigns the stock quantity s + a for add, the maximum of 0
and s - a for subtract, and the maximum of 0 and a for set (and for any other operation
text); with s and a at least 0 the assigned quantity is at least 0. A save that is not
rejected writes the assigned quantity, and with a stored product that satisfies the schema
validators and s, a at least 0 the save is not rejected. A request to the stock route that
is answered 200 carried an amount of at least 0 and stored the quantity the method assigns
for the operation of the request (set when none is named), which is at least 0. -/
theorem updateStock_quantity (env : Env) (a : Int) (op : StockOperation) (p : Product)
    (db : Db) :
    (p.withUpdatedStock a StockOperation.add).stockQuantity = p.stockQuantity + a
      ∧ (p.withUpdatedStock a StockOperation.subtract).stockQuantity
          = max 0 (p.stockQuantity - a)
      ∧ (p.withUpdatedStock a StockOperation.set).stockQuantity = max 0 a
      ∧ (p.withUpdatedStock a StockOperation.other).stockQuantity = max 0 a
      ∧ (0 ≤ p.stockQuantity → 0 ≤ a → 0 ≤ (p.withUpdatedStock a op).stockQuantity)
      ∧ (∀ p1 db1, p.updateStock env a op db = some (p1, db1) →
          p1.stockQuantity = (p.withUpdatedStock a op).stockQuantity
            ∧ ∀ x, db.findProduct p._id = some x → db1.findProduct p._id = some p1)
      ∧ (p.validate = true → 0 ≤ p.stockQuantity → 0 ≤ a →
          (p.updateStock env a op db).isSome = true)
      ∧ ∀ (user : User) (id : ObjectId) (body : StockBody) (w : World),
          (updateStock env user id body w).1.status = 200 →
          0 ≤ body.quantity
            ∧ ∃ q q1, w.db.findProduct id = some q
              ∧ (updateStock env user id body w).2.db.findProduct id = some q1
              ∧ q1.stockQuantity = (q.withUpdatedStock body.quantity
                  (body.operation.getD StockOperation.set)).stockQuantity
              ∧ 0 ≤ q1.stockQuantity
              ∧ (updateStock env user id body w).2.cloud = w.cloud := by
  have hnonneg : 0 ≤ p.stockQuantity → 0 ≤ a → 0 ≤ (p.withUpdatedStock a op).stockQuantity := by
    intro hs ha
    unfold Product.withUpdatedStock Product.withStock
    split_ifs
    · exact add_nonneg hs ha
    · exact le_max_left _ _
    · exact le_max_left _ _
  refine ⟨rfl, rfl, rfl, rfl, hnonneg, ?_, ?_, ?_⟩
  · intro p1 db1 h
    unfold Product.updateStock at h
    rw [Product.save_eq] at h
    cases hv : (p.withUpdatedStock a op).validate
    · simp [hv] at h
    · simp only [hv, if_true, Option.some.injEq, Prod.mk.injEq] at h
      obtain ⟨h1, h2⟩ := h
      subst h1
      have hid : (p.withUpdatedStock a op)._id = p._id := by
        rw [Product.withUpdatedStock_frame]; rfl
      refine ⟨(Product.preSave_frame _ _ _).2.1, fun x hx => ?_⟩
      rw [← h2]
      exact Db.findProduct_replaceProduct_self hx
        ((Product.preSave_frame _ _ _).1.trans hid)
  · intro hv hs ha
    unfold Product.updateStock
    rw [Product.save_eq, Product.withUpdatedStock_frame,
      Product.withStock_validate_of_nonneg hv (hnonneg hs ha)]
    rfl
  · intro user id body w h
    obtain ⟨hr, hval, q, hf, hs⟩ := updateStock_ok h
    have hq0 : 0 ≤ body.quantity := by
      simp only [stockValidation, Bool.and_eq_true, decide_eq_true_eq] at hval
      exact hval.1
    rw [updateStock_eq hr hf hs] at h ⊢
    simp only [hval, Bool.not_true, Bool.false_eq_true, if_false] at h ⊢
    cases hv : (q.withUpdatedStock body.quantity
        (body.operation.getD StockOperation.set)).validate
    · simp [hv] at h
    · simp only [if_true]
      have hid : (q.withUpdatedStock body.quantity
          (body.operation.getD StockOperation.set))._id = id := by
        rw [Product.withUpdatedStock_frame]
        exact (Db.findProduct_id hf : q._id = id)
      refine ⟨hq0, q, _, hf, Db.findProduct_replaceProduct_self hf
        ((Product.preSave_frame _ _ _).1.trans hid), (Product.preSave_frame _ _ _).2.1, ?_, ?_⟩
      · rw [(Product.preSave_frame _ _ _).2.1]
        simp only [Product.validate, Bool.and_eq_true, decide_eq_true_eq] at hv
        exact hv.1.1.1.1.2
      · first | rfl | trivial

/-- Witness of C12: seller A takes 70 pieces off the stock of 50; the stored quantity is 0. -/
theorem updateStock_quantity_witness :
    (updateStock env1 sellerA 10 takeSeventy shopWorld).1.status = 200
      ∧ ((updateStock env1 sellerA 10 takeSeventy shopWorld).2.db.findProduct 10).map
          Product.stockQuantity = some 0
      ∧ ∃ q q1, shopWorld.db.findProduct 10 = some q
          ∧ (updateStock env1 sellerA 10 takeSeventy shopWorld).2.db.findProduct 10 = some q1
          ∧ q1.stockQuantity = (q.withUpdatedStock takeSeventy.quantity
              (takeSeventy.operation.getD StockOperation.set)).stockQuantity
          ∧ 0 ≤ q1.stockQuantity
          ∧ (updateStock env1 sellerA 10 takeSeventy shopWorld).2.cloud = shopWorld.cloud :=
  ⟨by decide!, by decide!,
    ((updateStock_quantity env1 0 StockOperation.set pizza shop).2.2.2.2.2.2.2 sellerA 10
      takeSeventy shopWorld (by decide!)).2⟩

/-- C13. For a product whose reviews come from pairwise different users, the assignments of
addReview leave reviews from pairwise different users. When the user already has a review,
the number of reviews is unchanged and the review of that user afterwards is the old one
with the new rating and comment (and the date of the call); otherwise exactly one review,
with the user, rating and comment given, is appended. The reviews of all other users are
unchanged, in content and in order. A save that is not rejected writes these reviews, and
the save is not rejected when the product was valid, the rating lies between 1 and 5 and
the comment has at most 500 UTF-16 code units: addReview then returns the product with
these reviews and stores it. -/
theorem addReview_one_per_user (env : Env) (userId : ObjectId) (rating : Int)
    (comment : Option String) (p : Product) (db : Db)
    (hn : (p.reviews.map Review.user).Nodup) :
    ((p.withReview env.now userId rating comment).reviews.map Review.user).Nodup
      ∧ ((∃ x ∈ p.reviews, x.user = userId) →
          (p.withReview env.now userId rating comment).reviews.length = p.reviews.length
            ∧ (∃ x ∈ p.reviews, x.user = userId
                ∧ { x with rating := rating, comment := comment, createdAt := env.now }
                  ∈ (p.withReview env.now userId rating comment).reviews)
            ∧ ∀ y ∈ (p.withReview env.now userId rating comment).reviews, y.user = userId →
                y.rating = rating ∧ y.comment = comment)
      ∧ ((∀ x ∈ p.reviews, x.user ≠ userId) →
          (p.withReview env.now userId rating comment).reviews = p.reviews ++
            [{ user := userId, rating := rating, comment := comment, createdAt := env.now }])
      ∧ (p.withReview env.now userId rating comment).reviews.filter
            (fun x => decide (x.user ≠ userId))
          = p.reviews.filter (fun x => decide (x.user ≠ userId))
      ∧ (∀ p1 db1, p.addReview env userId rating comment db = some (p1, db1) →
          p1.reviews = (p.withReview env.now userId rating comment).reviews
            ∧ ∀ x, db.findProduct p._id = some x → db1.findProduct p._id = some p1)
      ∧ (p.validate = true → 1 ≤ rating → rating ≤ 5 → maxlength 500 comment = true →
          ∃ p1 db1, p.addReview env userId rating comment db = some (p1, db1)
            ∧ p1.reviews = (p.withReview env.now userId rating comment).reviews
            ∧ db1 = db.replaceProduct p1
            ∧ ∀ x, db.findProduct p._id = some x → db1.findProduct p._id = some p1) := by
  have hstore : p.validate = true → 1 ≤ rating → rating ≤ 5 → maxlength 500 comment = true →
      ∃ p1 db1, p.addReview env userId rating comment db = some (p1, db1)
        ∧ p1.reviews = (p.withReview env.now userId rating comment).reviews
        ∧ db1 = db.replaceProduct p1
        ∧ ∀ x, db.findProduct p._id = some x → db1.findProduct p._id = some p1 := by
    intro hv h1 h5 hc
    have hval := Product.withReview_validate env.now userId rating comment hv h1 h5 hc
    refine ⟨_, _, ?_, (Product.preSave_frame false env.hookNow _).2.2.1, rfl, fun x hx => ?_⟩
    · unfold Product.addReview
      rw [Product.save_eq, hval, if_pos rfl]
    · exact Db.findProduct_replaceProduct_self hx
        ((Product.preSave_frame _ _ _).1.trans (Product.withReview_frame _ _ _ _ _).1)
  obtain ⟨hold, hnew⟩ := Product.withReview_reviews env.now userId rating comment p
  have hf : ∀ x : Review,
      ({ x with rating := rating, comment := comment, createdAt := env.now } : Review).user
        = x.user := fun _ => rfl
  by_cases hex : ∃ x ∈ p.reviews, x.user = userId
  · have hno : ¬ ∀ x ∈ p.reviews, x.user ≠ userId := by
      obtain ⟨x, hx, hxu⟩ := hex
      exact fun h => h x hx hxu
    rw [hold hex] at hstore ⊢
    refine ⟨?_, ?_, fun h => absurd h hno, ?_, ?_, hstore⟩
    · rw [updateFirstReview_user _ _ hf]; exact hn
    · intro _
      refine ⟨updateFirstReview_length _ _ _, updateFirstReview_exists _ _ _ hex, ?_⟩
      intro y hy hyu
      obtain ⟨x, _, _, hxy⟩ := updateFirstReview_mem _ _ _ hn y hy hyu
      rw [hxy]
      exact ⟨rfl, rfl⟩
    · exact updateFirstReview_others _ _ hf _
    · intro p1 db1 h
      unfold Product.addReview at h
      rw [Product.save_eq] at h
      cases hv : (p.withReview env.now userId rating comment).validate
      · simp [hv] at h
      · simp only [hv, if_true, Option.some.injEq, Prod.mk.injEq] at h
        obtain ⟨h1, h2⟩ := h
        subst h1
        refine ⟨?_, fun x hx => ?_⟩
        · rw [(Product.preSave_frame _ _ _).2.2.1, hold hex]
        · rw [← h2]
          exact Db.findProduct_replaceProduct_self hx
            ((Product.preSave_frame _ _ _).1.trans (Product.withReview_frame _ _ _ _ _).1)
  · have hall : ∀ x ∈ p.reviews, x.user ≠ userId := fun x hx hxu => hex ⟨x, hx, hxu⟩
    rw [hnew hall] at hstore ⊢
    refine ⟨?_, fun h => absurd h hex, fun _ => rfl, ?_, ?_, hstore⟩
    · rw [List.map_append, List.nodup_append]
      refine ⟨hn, by simp, ?_⟩
      intro a ha hb
      simp only [List.map_cons, List.map_nil, List.mem_singleton] at hb
      obtain ⟨x, hx, hxa⟩ := List.mem_map.mp ha
      exact hall x hx (hxa.trans hb)
    · simp [List.filter_append]
    · intro p1 db1 h
      unfold Product.addReview at h
      rw [Product.save_eq] at h
      cases hv : (p.withReview env.now userId rating comment).validate
      · simp [hv] at h
      · simp only [hv, if_true, Option.some.injEq, Prod.mk.injEq] at h
        obtain ⟨h1, h2⟩ := h
        subst h1
        refine ⟨?_, fun x hx => ?_⟩
        · rw [(Product.preSave_frame _ _ _).2.2.1, hnew hall]
        · rw [← h2]
          exact Db.findProduct_replaceProduct_self hx
            ((Product.preSave_frame _ _ _).1.trans (Product.withReview_frame _ _ _ _ _).1)

/-- Witness of C13: buyer B, who rated the pizza 5, reviews it again with 1; the pizza still
has three reviews, and the one of buyer B now carries the rating 1. The method returns
the pizza with these reviews and stores it; the review route answers 201 and the pizza
read from the store afterwards has the ratings 1, 4 and 4 and the mean 3. -/
theorem addReview_one_per_user_witness :
    secondThoughts.reviews.length = 3
      ∧ secondThoughts.reviews.map Review.rating = [1, 4, 4]
      ∧ ((reviewedPizza.withReview env1.now 2 1 (some "cold on arrival")).reviews.map
          Review.user).Nodup
      ∧ (∃ p1 db1, reviewedPizza.addReview env1 2 1 (some "cold on arrival") shopReviewed
            = some (p1, db1)
          ∧ p1.reviews = (reviewedPizza.withReview env1.now 2 1 (some "cold on arrival")).reviews
          ∧ db1 = shopReviewed.replaceProduct p1
          ∧ ∀ x, shopReviewed.findProduct reviewedPizza._id = some x →
              db1.findProduct reviewedPizza._id = some p1)
      ∧ (addReview env1 buyerB 10 { rating := 1, comment := some "cold on arrival" }
          shopReviewed).1.status = 201
      ∧ ((addReview env1 buyerB 10 { rating := 1, comment := some "cold on arrival" }
          shopReviewed).2.findProduct 10).map (fun q => q.reviews.map Review.rating)
          = some [1, 4, 4]
      ∧ ((addReview env1 buyerB 10 { rating := 1, comment := some "cold on arrival" }
          shopReviewed).2.findProduct 10).map Product.averageRating = some 3 :=
  ⟨by decide, by decide,
    (addReview_one_per_user env1 2 1 (some "cold on arrival") reviewedPizza shopReviewed
      (by decide)).1,
    (addReview_one_per_user env1 2 1 (some "cold on arrival") reviewedPizza shopReviewed
      (by decide)).2.2.2.2.2 (by decide!) (by decide) (by decide) (by decide!),
    by decide!, by decide!, by decide!⟩

/-- C14. When the authenticated principal is the seller of a stored product, the review
route answers 400 and leaves the whole store, and with it the reviews, the average rating
and the review count of the product, as it was; with a body that passes validation the
answer is the envelope "You cannot review your own product". -/
theorem addReview_own_product (env : Env) (user : User) (id : ObjectId) (body : ReviewBody)
    (db : Db) (p : Product) (hf : db.findProduct id = some p) (hs : p.seller = user._id) :
    (addReview env user id body db).1.status = 400
      ∧ (addReview env user id body db).1.success = false
      ∧ (reviewValidation body = true →
          (addReview env user id body db).1
            = Response.error 400 "You cannot review your own product")
      ∧ (addReview env user id body db).2 = db
      ∧ ∃ p1, (addReview env user id body db).2.findProduct id = some p1
          ∧ p1.reviews = p.reviews ∧ p1.averageRating = p.averageRating
          ∧ p1.totalReviews = p.totalReviews := by
  cases hv : reviewValidation body
  · rw [addReview_invalid hv]
    exact ⟨rfl, rfl, (fun h => by cases h), rfl, p, hf, rfl, rfl, rfl⟩
  · rw [addReview_eq hv hf, if_pos hs]
    exact ⟨rfl, rfl, fun _ => rfl, rfl, p, hf, rfl, rfl, rfl⟩

/-- Witness of C14: seller A reviews the pizza seller A lists. -/
theorem addReview_own_product_witness :
    (addReview env1 sellerA 10 fiveStars shop).1
        = Response.error 400 "You cannot review your own product"
      ∧ (addReview env1 sellerA 10 fiveStars shop).2 = shop :=
  have h := addReview_own_product env1 sellerA 10 fiveStars shop pizza (by decide!) (by decide)
  ⟨h.2.2.1 (by decide), h.2.2.2.1⟩

/-- C15, the code at the failing input: seller D, whose role is seller and not buyer,
reviews the pizza of seller A; the route answers 201 and the review is stored. The route
never reads the role of the principal. -/
theorem addReview_by_seller :
    sellerD.role = Role.seller
      ∧ (addReview env1 sellerD 10 fiveStars shop).1.status = 201
      ∧ (addReview env1 sellerD 10 fiveStars shop).1.success = true
      ∧ ((addReview env1 sellerD 10 fiveStars shop).2.findProduct 10).map Product.reviews
          = some [{ user := 4, rating := 5, comment := some "great", createdAt := 1000 }]
      ∧ ∀ (env : Env) (user : User) (id : ObjectId) (body : ReviewBody) (db : Db),
          addReview env user id body db = addReview env { user with role := Role.buyer } id body db :=
  ⟨rfl, by decide!, by decide!, by decide!, fun _ _ _ _ _ => rfl⟩

/-- C16. The middleware `authenticate` runs four checks in order. The token of the request
is the second part of the Authorization header when that header starts with Bearer, and the
token of the cookie otherwise. With no token, or an empty one, the answer is 401 "Access
denied. No token provided."; otherwise, when the verification fails, 401 "Invalid token";
otherwise, when the decoded id finds no stored user, 401 "Token is valid but user not
found"; otherwise, when the user is not active, 401 "Account has been deactivated"; and
otherwise the user is attached and the request passed on. The request is passed on with a
user exactly when the four checks pass for that user, and every answer of the middleware
itself is a 401. -/
theorem authenticate_checks (verify : String → Option ObjectId) (req : AuthRequest) (db : Db) :
    ((requestToken req = none ∨ requestToken req = some "") →
        authenticate verify req db
          = Outcome.respond (Response.error 401 "Access denied. No token provided."))
      ∧ (∀ token, requestToken req = some token → token ≠ "" →
          (verify token = none →
              authenticate verify req db = Outcome.respond (Response.error 401 "Invalid token"))
          ∧ ∀ id, verify token = some id →
              (db.findUser id = none →
                  authenticate verify req db
                    = Outcome.respond (Response.error 401 "Token is valid but user not found"))
              ∧ ∀ user, db.findUser id = some user →
                  (user.isActive = false →
                      authenticate verify req db
                        = Outcome.respond (Response.error 401 "Account has been deactivated"))
                  ∧ (user.isActive = true → authenticate verify req db = Outcome.next user))
      ∧ (∀ user, authenticate verify req db = Outcome.next user ↔
          ∃ token, requestToken req = some token ∧ token ≠ ""
            ∧ ∃ id, verify token = some id ∧ db.findUser id = some user ∧ user.isActive = true)
      ∧ (∀ r, authenticate verify req db = Outcome.respond r → r.status = 401 ∧ r.success = false)
      ∧ (∀ header, req.authorization = some header → startsWithBearer header = true →
          requestToken req = ((splitOnSpace header.toList).get? 1).map String.mk)
      ∧ ((req.authorization = none
            ∨ ∃ header, req.authorization = some header ∧ startsWithBearer header = false) →
          requestToken req = req.cookieToken) := by
  refine ⟨authenticate_no_token, ?_, ?_, ?_, ?_, ?_⟩
  · intro token ht hne
    rw [authenticate_token ht hne]
    refine ⟨fun hv => by rw [hv], fun id hv => ?_⟩
    simp only [hv]
    refine ⟨fun hu => by rw [hu], fun user hu => ?_⟩
    simp only [hu]
    exact ⟨fun ha => by simp [ha], fun ha => by simp [ha]⟩
  · intro user
    rcases requestToken_cases req with h0 | ⟨token, ht, hne⟩
    · rw [authenticate_no_token h0]
      constructor
      · intro h
        cases h
      · rintro ⟨token, ht, hne, -⟩
        rcases h0 with h0 | h0
        · rw [h0] at ht
          cases ht
        · rw [h0] at ht
          exact absurd (Option.some.inj ht).symm hne
    · rw [authenticate_token ht hne]
      constructor
      · intro h
        refine ⟨token, ht, hne, ?_⟩
        cases hv : verify token with
        | none =>
          rw [hv] at h
          cases h
        | some id =>
          simp only [hv] at h
          cases hu : db.findUser id with
          | none =>
            simp only [hu] at h
            cases h
          | some u =>
            simp only [hu] at h
            cases ha : u.isActive with
            | false =>
              simp [ha] at h
            | true =>
              simp only [ha, if_true] at h
              have e : u = user := by simpa using h
              subst e
              exact ⟨id, rfl, hu, ha⟩
      · rintro ⟨token1, ht1, -, id, hv, hu, ha⟩
        have e : token1 = token := Option.some.inj (ht1.symm.trans ht)
        subst e
        simp [hv, hu, ha]
  · intro r
    rcases requestToken_cases req with h0 | ⟨token, ht, hne⟩
    · rw [authenticate_no_token h0]
      intro h
      cases h
      exact ⟨rfl, rfl⟩
    · rw [authenticate_token ht hne]
      cases verify token with
      | none =>
        intro h
        cases h
        exact ⟨rfl, rfl⟩
      | some id =>
        dsimp only
        cases db.findUser id with
        | none =>
          intro h
          cases h
          exact ⟨rfl, rfl⟩
        | some u =>
          cases ha : u.isActive with
          | false =>
            intro h
            simp only [ha, Bool.false_eq_true, if_false] at h
            cases h
            exact ⟨rfl, rfl⟩
          | true =>
            intro h
            simp [ha] at h
  · intro header hh hb
    simp [requestToken, hh, hb]
  · rintro (hh | ⟨header, hh, hb⟩)
    · simp [requestToken, hh]
    · simp [requestToken, hh, hb]

/-- Witness of C16: the request of buyer B is passed on with buyer B attached. -/
theorem authenticate_checks_witness :
    authenticate sessionTokens requestOfB shopWithE = Outcome.next buyerB :=
  ((authenticate_checks sessionTokens requestOfB shopWithE).2.1 "token-of-B" (by decide!)
    (by decide)).2 2 (by decide!) |>.2 buyerB (by decide!) |>.2 (by decide)

/-- C17. The middleware `optionalAuth` always passes the request on and never answers
itself; it attaches a user exactly when `authenticate`, on the same request and store,
passes the request on with that user, and attaches none exactly when `authenticate`
answers itself. -/
theorem optionalAuth_authenticate (verify : String → Option ObjectId) (req : AuthRequest)
    (db : Db) :
    (∃ attached, optionalAuth verify req db = Outcome.next attached)
      ∧ (∀ r, optionalAuth verify req db ≠ Outcome.respond r)
      ∧ (∀ user, optionalAuth verify req db = Outcome.next (some user) ↔
          authenticate verify req db = Outcome.next user)
      ∧ (optionalAuth verify req db = Outcome.next none ↔
          ∃ r, authenticate verify req db = Outcome.respond r) := by
  rcases requestToken_cases req with h0 | ⟨token, ht, hne⟩
  · rw [optionalAuth_no_token h0, authenticate_no_token h0]
    simp
  · rw [optionalAuth_token ht hne, authenticate_token ht hne]
    cases verify token with
    | none => simp
    | some id =>
      dsimp only
      cases db.findUser id with
      | none => simp
      | some u => cases ha : u.isActive <;> simp [ha]

/-- Witness of C17: for the request of buyer B both attach buyer B; for the token of the
deactivated buyer E `authenticate` answers 401 and `optionalAuth` goes on with no user. -/
theorem optionalAuth_authenticate_witness :
    optionalAuth sessionTokens requestOfB shopWithE = Outcome.next (some buyerB)
      ∧ optionalAuth sessionTokens { cookieToken := some "token-of-E" } shopWithE
          = Outcome.next none :=
  ⟨((optionalAuth_authenticate sessionTokens requestOfB shopWithE).2.2.1 buyerB).2 (by decide!),
    (optionalAuth_authenticate sessionTokens { cookieToken := some "token-of-E" }
      shopWithE).2.2.2.2 ⟨Response.error 401 "Account has been deactivated", by decide!⟩⟩

/-- C18. For a list of allowed roles and a request with a principal, `authorize` passes the
request on exactly when the role of the principal is in the list; otherwise it answers 403
with a message naming the allowed roles and the role of the principal. A request without
a principal is answered 401 and not passed on. -/
theorem authorize_roles (roles : List String) (user : User) :
    (authorize roles (some user) = Outcome.next () ↔ user.role.text ∈ roles)
      ∧ (user.role.text ∉ roles →
          authorize roles (some user) = Outcome.respond (Response.error 403
            ("Access denied. Required role: " ++ " or ".intercalate roles ++ ". Your role: "
              ++ user.role.text)))
      ∧ (∀ r, authorize roles (some user) = Outcome.respond r →
          r.status = 403 ∧ r.success = false ∧ user.role.text ∉ roles)
      ∧ authorize roles none
          = Outcome.respond (Response.error 401 "Access denied. Please authenticate first.") := by
  rw [authorize_some]
  by_cases h : user.role.text ∈ roles
  · simp [h, authorize]
  · simp only [h, if_false, not_false_eq_true, true_implies, iff_false]
    refine ⟨by simp, trivial, ?_, rfl⟩
    intro r hr
    cases hr
    exact ⟨rfl, rfl, trivial⟩

/-- Witness of C18: a route for sellers and buyers passes buyer B on, and a route for
sellers answers buyer B with 403. -/
theorem authorize_roles_witness :
    authorize ["seller", "buyer"] (some buyerB) = Outcome.next ()
      ∧ authorize ["seller"] (some buyerB) = Outcome.respond (Response.error 403
          "Access denied. Required role: seller. Your role: buyer") :=
  ⟨(authorize_roles ["seller", "buyer"] buyerB).1.2 (by decide),
    (authorize_roles ["seller"] buyerB).2.1 (by decide)⟩

/-- C19. The middleware `checkOwnership` answers 404 when no entity has the id of the
route; it answers 403 when the entity has a seller who is not the principal, and 403 when
the entity has no seller and is not the principal itself; otherwise it attaches the entity
and passes the request on. Hence, for a stored product and a principal who is not its
seller, the update route, the delete route and the stock route each answer 403 and leave
the store and the remote images as they were; when the principal has the role seller the
answer is the 403 of `checkOwnership`. -/
theorem checkOwnership_cases {α : Type} (model : Model α) (user : User) (id : ObjectId)
    (db : Db) :
    (model.findById db id = none →
        checkOwnership model user id db
          = Outcome.respond (Response.error 404 "Resource not found"))
      ∧ (∀ resource, model.findById db id = some resource →
          (∀ seller, model.seller resource = some seller → seller ≠ user._id →
              checkOwnership model user id db = Outcome.respond
                (Response.error 403 "Access denied. You can only access your own resources."))
          ∧ (model.seller resource = none → model._id resource ≠ user._id →
              checkOwnership model user id db = Outcome.respond
                (Response.error 403 "Access denied. You can only access your own profile."))
          ∧ (model.seller resource = some user._id
                ∨ (model.seller resource = none ∧ model._id resource = user._id) →
              checkOwnership model user id db = Outcome.next resource))
      ∧ ∀ (w : World) (p : Product), w.db = db → db.findProduct id = some p →
          p.seller ≠ user._id →
          (∀ env body files,
              (updateProduct env user id body files w).1.status = 403
                ∧ (updateProduct env user id body files w).1.success = false
                ∧ (updateProduct env user id body files w).2 = w
                ∧ (user.role = Role.seller → (updateProduct env user id body files w).1
                    = Response.error 403 "Access denied. You can only access your own resources."))
          ∧ ((deleteProduct user id w).1.status = 403
                ∧ (deleteProduct user id w).1.success = false
                ∧ (deleteProduct user id w).2 = w
                ∧ (user.role = Role.seller → (deleteProduct user id w).1
                    = Response.error 403 "Access denied. You can only access your own resources."))
          ∧ ∀ env body,
              (updateStock env user id body w).1.status = 403
                ∧ (updateStock env user id body w).1.success = false
                ∧ (updateStock env user id body w).2 = w
                ∧ (user.role = Role.seller → (updateStock env user id body w).1
                    = Response.error 403 "Access denied. You can only access your own resources.") := by
  refine ⟨?_, ?_, ?_⟩
  · intro hf
    simp [checkOwnership, hf]
  · intro resource hf
    refine ⟨?_, ?_, ?_⟩
    · intro seller hs hne
      simp [checkOwnership, hf, hs, hne]
    · intro hs hne
      simp [checkOwnership, hf, hs, hne]
    · rintro (hs | ⟨hs, hid⟩)
      · simp [checkOwnership, hf, hs]
      · simp [checkOwnership, hf, hs, hid]
  · intro w p hw hf hs
    subst hw
    obtain ⟨r, h1, h2, h3, hu, hd, hk⟩ := @not_owner_refused user id w p hf hs
    refine ⟨fun env body files => ?_, ?_, fun env body => ?_⟩
    · rw [hu]
      exact ⟨h1, h2, rfl, h3⟩
    · rw [hd]
      exact ⟨h1, h2, rfl, h3⟩
    · rw [hk]
      exact ⟨h1, h2, rfl, h3⟩

/-- Witness of C19: seller D, who does not list the pizza, asks to delete it; the answer is
the 403 of `checkOwnership` and the shop and its remote image stay. Buyer B asking for the
user document of buyer C is answered with the 403 for profiles. -/
theorem checkOwnership_cases_witness :
    (deleteProduct sellerD 10 shopWorld).1
        = Response.error 403 "Access denied. You can only access your own resources."
      ∧ (deleteProduct sellerD 10 shopWorld).2 = shopWorld
      ∧ checkOwnership userModel buyerB 3 shop = Outcome.respond
          (Response.error 403 "Access denied. You can only access your own profile.") :=
  have h := ((checkOwnership_cases productModel sellerD 10 shop).2.2 shopWorld pizza rfl
    (by decide!) (by decide)).2.1
  ⟨h.2.2.2 rfl, h.2.2.1,
    ((checkOwnership_cases userModel buyerB 3 shop).2.1 buyerC (by decide!)).2.1 rfl (by decide)⟩

/-- C20. One `rateLimit(maxRequests, windowMs)` instance, started with an empty map, serves
requests of one identity whose clock readings do not decrease. Every request is decided;
the request at `t` is refused exactly when at least `maxRequests` of the requests of that
identity that were passed on before it have clock readings later than `t - windowMs`, and
is passed on exactly when fewer have. Hence in every interval from `t - windowMs`
(excluded) to `t` (included) at most `maxRequests` requests are passed on. On every map, a
request is either passed on and its clock reading is added to the entries of the identity
that survive the cleaning, or refused with 429, the message "Too many requests. Please try
again later." and `retryAfter` the ceiling of `windowMs / 1000`, and not added. In a run with
requests of several identities the decisions on the requests of one identity are those of
the run with the requests of that identity alone. -/
theorem rateLimit_window (maxRequests windowMs : Nat) (identifier : String)
    (times : List Timestamp) (hs : times.Pairwise (· ≤ ·)) :
    (rateLimitRun maxRequests windowMs RequestLog.empty
        (times.map (Prod.mk identifier))).1.length = times.length
      ∧ (∀ pre t post, times = pre ++ t :: post →
          ((rateLimitRun maxRequests windowMs RequestLog.empty
                (times.map (Prod.mk identifier))).1.get? pre.length = some false ↔
              maxRequests ≤ ((acceptedTimes pre (rateLimitRun maxRequests windowMs
                RequestLog.empty (times.map (Prod.mk identifier))).1).filter
                  (recent windowMs t)).length)
          ∧ ((rateLimitRun maxRequests windowMs RequestLog.empty
                (times.map (Prod.mk identifier))).1.get? pre.length = some true ↔
              ((acceptedTimes pre (rateLimitRun maxRequests windowMs
                RequestLog.empty (times.map (Prod.mk identifier))).1).filter
                  (recent windowMs t)).length < maxRequests))
      ∧ (∀ t : Int,
          ((acceptedTimes times (rateLimitRun maxRequests windowMs RequestLog.empty
            (times.map (Prod.mk identifier))).1).filter (inWindow windowMs t)).length
            ≤ maxRequests)
      ∧ (∀ (log : RequestLog) (t : Timestamp),
          ((rateLimit maxRequests windowMs log identifier t).1 = none
              ∧ (rateLimit maxRequests windowMs log identifier t).2 identifier
                  = some (((log identifier).getD []).filter (recent windowMs t) ++ [t]))
            ∨ ((rateLimit maxRequests windowMs log identifier t).1
                  = some { status := 429, success := false
                           message := "Too many requests. Please try again later."
                           retryAfter := ⌈(windowMs : ℚ) / 1000⌉₊ }
              ∧ ((rateLimit maxRequests windowMs log identifier t).2 identifier).getD []
                  = ((log identifier).getD []).filter (recent windowMs t)))
      ∧ ∀ (reqs : List (String × Timestamp)) (log : RequestLog),
          decisionsOf identifier reqs (rateLimitRun maxRequests windowMs log reqs).1
            = (rateLimitRun maxRequests windowMs log
                ((timesOf identifier reqs).map (Prod.mk identifier))).1 := by
  have hch : List.Chain (· ≤ ·) 0 times := by
    rw [List.chain_iff_pairwise, List.pairwise_cons]
    exact ⟨fun _ _ => Nat.zero_le _, hs⟩
  have hflags : (rateLimitRun maxRequests windowMs RequestLog.empty
      (times.map (Prod.mk identifier))).1 = specDecisions maxRequests windowMs [] times :=
    rateLimitRun_spec maxRequests windowMs identifier times RequestLog.empty [] 0
      (fun _ _ => rfl) hch
  rw [hflags]
  refine ⟨specDecisions_length _ _ _ _, ?_, ?_, ?_, ?_⟩
  · intro pre t post e
    subst e
    have hg := specDecisions_get maxRequests windowMs pre [] t post
    simp only [List.nil_append] at hg
    rw [hg]
    simp
  · intro t
    have hw := specDecisions_window maxRequests windowMs times [] (fun _ => Nat.zero_le _) t
    simpa using hw
  · intro log t
    rw [rateLimit_eq]
    split_ifs with h
    · right
      refine ⟨by rw [retryAfter_ceil], ?_⟩
      cases h1 : log identifier with
      | none => simp [h1]
      | some l => simp
    · left
      exact ⟨rfl, by simp⟩
  · intro reqs log
    rw [← filter_identifier]
    exact rateLimitRun_others maxRequests windowMs identifier reqs log log rfl

/-- Witness of C20: at most two requests a second. Of five requests of one client the third
is refused, and no second holds more than two requests that were passed on. -/
theorem rateLimit_window_witness :
    (rateLimitRun 2 1000 RequestLog.empty (burst.map (Prod.mk "client"))).1
        = [true, true, false, true, true]
      ∧ ∀ t : Int,
          ((acceptedTimes burst (rateLimitRun 2 1000 RequestLog.empty
            (burst.map (Prod.mk "client"))).1).filter (inWindow 1000 t)).length ≤ 2 :=
  ⟨by decide!, (rateLimit_window 2 1000 "client" burst (by decide)).2.2.1⟩

/-- C21, the code at the failing input. The pizza has one picture, which is its primary
image. Seller A updates the pizza, removing that picture and uploading two new ones. The
update is answered 200, and the stored product has two images that both have `isPrimary`
true: the route gives every uploaded image the value of "the product has no image left",
which is the same for all of them. The create route, given the same two pictures, marks
the first of them alone. -/
theorem updateProduct_two_primary :
    (picturedPizza.images.filter fun img => img.isPrimary).length = 1
      ∧ (updateProduct env1 sellerA 10 replacePictures twoPictures picturedWorld).1.status = 200
      ∧ ((updateProduct env1 sellerA 10 replacePictures twoPictures picturedWorld).2.db.findProduct
          10).map Product.images
          = some [{ url := "https://media.example/pizza-2.jpg", publicId := "pizza-2"
                    isPrimary := true },
                  { url := "https://media.example/pizza-3.jpg", publicId := "pizza-3"
                    isPrimary := true }]
      ∧ ((updateProduct env1 sellerA 10 replacePictures twoPictures picturedWorld).2.db.findProduct
          10).map (fun p => (p.images.filter fun img => img.isPrimary).length) = some 2
      ∧ (createProduct env1 sellerA garlicBread twoPictures picturedWorld).1.status = 201
      ∧ ((createProduct env1 sellerA garlicBread twoPictures picturedWorld).1.product).map
          (fun p => p.images.map Image.isPrimary) = some [true, false] := by
  refine ⟨by decide, by decide!, by decide!, by decide!, by decide!, by decide!⟩

/-- C22, the code at the failing input. The order buyer B places in the scenario is stored
under the number the pre-save hook of the model builds from the clock and the count of
stored orders, not under the number with the random part the route has built; with one
order stored the next number ends in 0002. The number of the hook is the same for any two
new orders on which it runs with the same clock reading and the same count, and an insert
of the second of two such orders is rejected by the unique index. -/
theorem orderNumber_from_count :
    (newOrder env1 buyerB orderBody pizza sellerA).orderNumber = "ORD-1001-K3J9X2A1B"
      ∧ (shopOrdered.findOrder 100).map Order.orderNumber = some "ORD10020001"
      ∧ ((createOrder env2 buyerC orderBody shopOrdered).2.findOrder 101).map Order.orderNumber
          = some "ORD20020002"
      ∧ (∀ (o1 o2 : Order) (m1 m2 : Bool) (hookNow : Timestamp) (count : Nat),
          (o1.preSave true m1 hookNow count).orderNumber
            = (o2.preSave true m2 hookNow count).orderNumber)
      ∧ ((shop.insertOrder ((newOrder env1 buyerB orderBody pizza sellerA).preSave true true
            1002 shop.orders.length)).orders.any fun x =>
          decide (x._id = ((newOrder env2 buyerC orderBody pizza sellerA).preSave true true
              1002 shop.orders.length)._id)
            || decide (x.orderNumber = ((newOrder env2 buyerC orderBody pizza sellerA).preSave
              true true 1002 shop.orders.length).orderNumber)) = true := by
  refine ⟨by decide!, by decide!, by decide!, ?_, by decide!⟩
  intro o1 o2 m1 m2 hookNow count
  cases m1 <;> cases m2 <;> rfl

/-- C23. A stored order keeps its terms. After every sequence of requests to the routes
that write (the status, payment and cancel routes of orders among them, and the update of
the product the order refers to, with a new price or not), the order is still stored, with
the order number, the buyer, the seller, the product, the quantity, the unit price and the
total amount it had. -/
theorem order_terms_kept (lib : Lib) (w : World) (calls : List (Env × Call)) (id : ObjectId)
    (o : Order) (hf : w.db.findOrder id = some o) :
    ∃ o1, (serveAll lib w calls).db.findOrder id = some o1
      ∧ o1.orderNumber = o.orderNumber ∧ o1.buyer = o.buyer ∧ o1.seller = o.seller
      ∧ o1.product = o.product ∧ o1.quantity = o.quantity ∧ o1.unitPrice = o.unitPrice
      ∧ o1.totalAmount = o.totalAmount := by
  obtain ⟨o1, h1, h2⟩ := serveAll_order lib id calls w o hf
  exact ⟨o1, h1, h2⟩

/-- Witness of C23: seller A raises the price of the pizza from 18.99 to 25, then buyer B
pays the order of three pizzas. The pizza is stored at 25 and the order is paid, with its
unit price of 18.99 and its total of 56.97 (the doubles of these names). -/
theorem order_terms_kept_witness :
    ((serveAll demoLib marketWorld priceThenPay).db.findProduct 10).map Product.price = some 25
      ∧ ∃ o1, (serveAll demoLib marketWorld priceThenPay).db.findOrder 100 = some o1
          ∧ o1.unitPrice = toDouble 18.99 ∧ o1.totalAmount = toDouble 56.97 :=
  have h := order_terms_kept demoLib marketWorld priceThenPay 100 placedOrder (by decide!)
  ⟨by decide!, h.elim fun o1 h1 => ⟨o1, h1.1, h1.2.2.2.2.2.2.1.trans (by decide!),
    h1.2.2.2.2.2.2.2.trans (by decide!)⟩⟩

/-- C24. Let the deactivation of an account be answered 200, for the principal `user` in a
store with unique identifiers, and let `later` be the world after any sequence of requests
that follows. In `later` the user is stored with `isActive` false: no request sets it back.
A login whose email finds that user is refused without a token and without a write: with
401 "Account has been deactivated. Please contact support." when the body passes
`loginValidation` (a valid email text, a password that is not empty), whatever the
password, and with 400 otherwise. And `authenticate`, for a request whose token verifies
to that user, answers 401 "Account has been deactivated". -/
theorem account_stays_deactivated (lib : Lib) (env : Env) (auth : AuthRequest)
    (body : DeleteAccountBody) (w : World) (user : User) (calls : List (Env × Call))
    (later : World) (hn : (w.db.users.map User._id).Nodup)
    (ha : authenticate lib.verify auth w.db = Outcome.next user)
    (hd : (serve lib env (Call.deleteAccount auth body) w).1.status = 200)
    (hl : later = serveAll lib (serve lib env (Call.deleteAccount auth body) w).2 calls) :
    (∃ u, later.db.findUser user._id = some u ∧ u.isActive = false)
      ∧ (∀ (env1 : Env) (b : LoginBody) (u : User),
          later.db.findByEmail (lib.normalizeEmail b.email) = some u → u._id = user._id →
          (login lib env1 b later.db).1.success = false
            ∧ (login lib env1 b later.db).1.token = none
            ∧ (login lib env1 b later.db).2 = later.db
            ∧ (loginValidation lib b = true → (login lib env1 b later.db).1
                = Response.error 401 "Account has been deactivated. Please contact support.")
            ∧ (loginValidation lib b = false →
                (login lib env1 b later.db).1 = validationFailed))
      ∧ ∀ (req : AuthRequest) (token : String), requestToken req = some token → token ≠ "" →
          lib.verify token = some user._id →
          authenticate lib.verify req later.db
            = Outcome.respond (Response.error 401 "Account has been deactivated") := by
  have hstart : Deactivated user._id (serve lib env (Call.deleteAccount auth body) w).2.db := by
    have e : serve lib env (Call.deleteAccount auth body) w
        = onDb (deleteAccount lib env user body) w := by
      simp only [serve, withAuth, ha]
    rw [e] at hd ⊢
    exact deleteAccount_ok lib env body hn (authenticate_next ha).1 hd
  have hlater : Deactivated user._id later.db := by
    rw [hl]
    exact serveAll_deactivated lib user._id calls _ hstart
  obtain ⟨hnod, u0, hf0, hu0⟩ := hlater
  refine ⟨⟨u0, hf0, hu0⟩, ?_, ?_⟩
  · intro env1 b u hfe hid
    have hu : u = u0 := by
      have h1 := Db.findUser_of_mem hnod (Db.findByEmail_mem hfe)
      rw [hid, hf0] at h1
      exact (Option.some.inj h1).symm
    subst hu
    rw [login_refused lib env1 b hfe hu0]
    cases hv : loginValidation lib b
    · exact ⟨rfl, rfl, rfl, (fun h => by cases h), fun _ => rfl⟩
    · exact ⟨rfl, rfl, rfl, (fun _ => rfl), fun h => by cases h⟩
  · intro req token ht hne hv
    have hid : u0._id = user._id := Db.findUser_id hf0
    exact authenticate_refused ht hne (by rw [hid]; exact hv) (by rw [hid]; exact hf0) hu0

/-- Witness of C24: buyer G deactivates the account; afterwards buyer G tries to log in and
another user registers. A login of buyer G with the right password is then answered 401,
and so is a request with the token of buyer G. -/
theorem account_stays_deactivated_witness :
    (login demoLib env2 { email := "g@example.org", password := "Secret1" }
        (serveAll demoLib
          (serve demoLib env1 (Call.deleteAccount requestOfG { password := "Secret1" })
            marketWorld).2 afterwards).db).1
        = Response.error 401 "Account has been deactivated. Please contact support."
      ∧ authenticate demoLib.verify requestOfG
          (serveAll demoLib
            (serve demoLib env1 (Call.deleteAccount requestOfG { password := "Secret1" })
              marketWorld).2 afterwards).db
          = Outcome.respond (Response.error 401 "Account has been deactivated") :=
  have h := account_stays_deactivated demoLib env1 requestOfG { password := "Secret1" }
    marketWorld buyerG afterwards _ (by decide!) (by decide!) (by decide!) rfl
  ⟨(h.2.1 env2 { email := "g@example.org", password := "Secret1" }
      { buyerG with isActive := false } (by decide!) rfl).2.2.2.1 (by decide!),
    h.2.2 requestOfG "token-of-G" (by decide!) (by decide) (by decide!)⟩

/-- C25. For a query that passes the validators of its list route (a page of at least 1, a
limit from 1 to 50), with `T` the count of the documents that match, the route answers 200
with `totalPages` the ceiling of `T / limit`, `hasPrevPage` true exactly when the page is
greater than 1 and `hasNextPage` true exactly when `page * limit < T`, which is exactly when
a matching document lies behind the page. The documents of the answer are those that
follow the first `(page - 1) * limit` matching documents in the sort order, `limit` of them
at most. This holds for the product list and for the order list. -/
theorem list_pagination (q : ProductQuery) (rest : Product → Bool) (user : User)
    (oq : OrderQuery) (db : Db) (hq : productQueryValidation q = true)
    (hoq : orderQueryValidation oq = true) :
    ((listProducts q rest db).status = 200 ∧ (listProducts q rest db).success = true
        ∧ (∃ pg, (listProducts q rest db).pagination = some pg
            ∧ pg.total = (db.products.filter (productFilter q rest)).length
            ∧ pg.currentPage = q.pageNumber
            ∧ pg.totalPages = ⌈(pg.total : ℚ) / (q.pageSize : ℚ)⌉₊
            ∧ (pg.hasPrevPage = true ↔ 1 < q.pageNumber)
            ∧ (pg.hasNextPage = true ↔ q.pageNumber * q.pageSize < pg.total)
            ∧ (pg.hasNextPage = true ↔
                (foundProducts q rest db).drop (q.pageNumber * q.pageSize) ≠ []))
        ∧ (listProducts q rest db).items
            = ((foundProducts q rest db).drop ((q.pageNumber - 1) * q.pageSize)).take q.pageSize
        ∧ (listProducts q rest db).items.length ≤ q.pageSize
        ∧ foundProducts q rest db
            = (foundProducts q rest db).take ((q.pageNumber - 1) * q.pageSize)
              ++ (listProducts q rest db).items
              ++ (foundProducts q rest db).drop (q.pageNumber * q.pageSize))
      ∧ ((listOrders user oq db).status = 200 ∧ (listOrders user oq db).success = true
        ∧ (∃ pg, (listOrders user oq db).pagination = some pg
            ∧ pg.total = (db.orders.filter (orderFilter user oq.status)).length
            ∧ pg.currentPage = oq.pageNumber
            ∧ pg.totalPages = ⌈(pg.total : ℚ) / (oq.pageSize : ℚ)⌉₊
            ∧ (pg.hasPrevPage = true ↔ 1 < oq.pageNumber)
            ∧ (pg.hasNextPage = true ↔ oq.pageNumber * oq.pageSize < pg.total)
            ∧ (pg.hasNextPage = true ↔
                (foundOrders user oq db).drop (oq.pageNumber * oq.pageSize) ≠ []))
        ∧ (listOrders user oq db).items
            = ((foundOrders user oq db).drop ((oq.pageNumber - 1) * oq.pageSize)).take oq.pageSize
        ∧ (listOrders user oq db).items.length ≤ oq.pageSize
        ∧ foundOrders user oq db
            = (foundOrders user oq db).take ((oq.pageNumber - 1) * oq.pageSize)
              ++ (listOrders user oq db).items
              ++ (foundOrders user oq db).drop (oq.pageNumber * oq.pageSize)) := by
  constructor
  · obtain ⟨hp, hl, _⟩ := productQuery_bounds hq
    obtain ⟨h1, h2, h3, h4, h5⟩ := paginate_spec q.pageNumber q.pageSize
      (db.products.filter (productFilter q rest)).length hl
    obtain ⟨g1, _, g3, g4⟩ := page_spec (foundProducts q rest db) q.pageNumber q.pageSize hp
    rw [listProducts_eq hq]
    refine ⟨rfl, rfl, ⟨_, rfl, h5, h4, ?_, h2, ?_, ?_⟩, rfl, g1, g3⟩
    · rw [h5]; exact h1
    · rw [h5]; exact h3
    · rw [h3, ← foundProducts_length]; exact g4
  · obtain ⟨hp, hl, _⟩ := orderQuery_bounds hoq
    obtain ⟨h1, h2, h3, h4, h5⟩ := paginate_spec oq.pageNumber oq.pageSize
      (db.orders.filter (orderFilter user oq.status)).length hl
    obtain ⟨g1, _, g3, g4⟩ := page_spec (foundOrders user oq db) oq.pageNumber oq.pageSize hp
    rw [listOrders_eq hoq]
    refine ⟨rfl, rfl, ⟨_, rfl, h5, h4, ?_, h2, ?_, ?_⟩, rfl, g1, g3⟩
    · rw [h5]; exact h1
    · rw [h5]; exact h3
    · rw [h3, ← foundOrders_length]; exact g4

/-- Witness of C25: buyer B has five orders and asks for the second page, two orders a
page. The answer holds the third and the fourth newest order, counts three pages and says
that a page comes before and a page comes after. -/
theorem list_pagination_witness :
    (listOrders buyerB secondPage shopFiveOrders).items.map Order._id = [102, 101]
      ∧ (listOrders buyerB secondPage shopFiveOrders).pagination
          = some { currentPage := 2, totalPages := 3, total := 5, hasNextPage := true
                   hasPrevPage := true }
      ∧ (listOrders buyerB secondPage shopFiveOrders).items.length ≤ 2 :=
  ⟨by decide!, by decide!,
    (list_pagination {} (fun _ => true) buyerB secondPage shopFiveOrders (by decide)
      (by decide)).2.2.2.2.2.1⟩

/-- C26. A save of a product whose name is modified stores the slug `s`, a hyphen and the
identifier, where `s` is derived from the name alone by `slugify`; a save that does not
modify the name stores the slug as it was; a product that passes the schema validators is
saved. The text `s` consists of small ASCII letters, digits and hyphens, has no two hyphens
in a row, neither starts nor ends with a hyphen, and deriving it again from `s` gives `s`. -/
theorem save_slug (nameModified : Bool) (env : Env) (p : Product) (db : Db) :
    (∀ p1 db1, p.save nameModified env db = some (p1, db1) →
        p1.slug = if nameModified then slugify p.name ++ "-" ++ toString p._id else p.slug)
      ∧ (p.validate = true → ∃ p1 db1, p.save nameModified env db = some (p1, db1))
      ∧ (∀ c ∈ (slugify p.name).toList, isSlugChar c = true)
      ∧ ¬ ['-', '-'] <:+: (slugify p.name).toList
      ∧ (slugify p.name).toList.head? ≠ some '-'
      ∧ (slugify p.name).toList.getLast? ≠ some '-'
      ∧ slugify (slugify p.name) = slugify p.name := by
  obtain ⟨h1, h2, h3, h4, h5⟩ := slugify_spec p.name
  refine ⟨?_, ?_, h1, noTwoHyphens_pair h2, h3, h4, h5⟩
  · intro p1 db1 hs
    rw [Product.save_eq] at hs
    split_ifs at hs with hv
    have e := (Prod.mk.inj (Option.some.inj hs)).1
    rw [← e, Product.preSave_slug]
  · intro hv
    rw [Product.save_eq, if_pos hv]
    exact ⟨_, _, rfl⟩

/-- Witness of C26: saved with its name modified, the pizza gets the slug of its name and
its identifier. -/
theorem save_slug_witness :
    slugify "  Fresh & Ripe   Mangoes (1kg)! " = "fresh-ripe-mangoes-1kg"
      ∧ ∃ p1 db1, pizza.save true env1 shop = some (p1, db1)
          ∧ p1.slug = "margherita-pizza-10" :=
  have h := save_slug true env1 pizza shop
  ⟨by decide!, (h.2.1 (by decide!)).elim fun p1 h1 => h1.elim fun db1 e =>
    ⟨p1, db1, e, (h.1 p1 db1 e).trans (by decide!)⟩⟩

/-- C27. The delete route, for the seller who owns the stored product, releases the images
of the product at the media host in list order. When the host refuses none of them, the
answer is 200, the product is no longer stored and every image of the product is released.
When the host refuses the image that follows the images `pre` in the list, and none of
`pre`, the answer is 500, the store is as before and the product with it, the images of
`pre` are released and no other image is: every image the host held that is not among `pre`
is still held. -/
theorem deleteProduct_release (user : User) (id : ObjectId) (w : World) (p : Product)
    (hr : user.role = Role.seller) (hf : w.db.findProduct id = some p)
    (hs : p.seller = user._id) :
    ((∀ x ∈ p.images.map Image.publicId, x ∉ w.cloud.failing) →
        (deleteProduct user id w).1
            = { status := 200, success := true, message := some "Product deleted successfully" }
          ∧ (deleteProduct user id w).2.db = w.db.deleteProduct p._id
          ∧ (deleteProduct user id w).2.db.findProduct id = none
          ∧ (deleteProduct user id w).2.cloud.images
              = w.cloud.images.filter fun i => decide (i ∉ p.images.map Image.publicId))
      ∧ ∀ (pre : List String) (k : String) (post : List String),
          p.images.map Image.publicId = pre ++ k :: post →
          (∀ x ∈ pre, x ∉ w.cloud.failing) → k ∈ w.cloud.failing →
          (deleteProduct user id w).1 = Response.error 500 "Server error while deleting product"
            ∧ (deleteProduct user id w).2.db = w.db
            ∧ (deleteProduct user id w).2.db.findProduct id = some p
            ∧ (deleteProduct user id w).2.cloud.images
                = w.cloud.images.filter (fun i => decide (i ∉ pre))
            ∧ ∀ i ∈ w.cloud.images, i ∉ pre → i ∈ (deleteProduct user id w).2.cloud.images := by
  rw [deleteProduct_eq hr hf hs]
  constructor
  · intro hok
    rw [deleteImages_ok _ _ hok]
    refine ⟨rfl, rfl, ?_, rfl⟩
    have e : p._id = id := Db.findProduct_id hf
    show (w.db.deleteProduct p._id).findProduct id = none
    rw [e]
    exact Db.findProduct_deleteProduct _ _
  · intro pre k post hids hpre hk
    rw [hids, deleteImages_fail pre k post _ hpre hk]
    refine ⟨rfl, rfl, hf, rfl, ?_⟩
    intro i hi hnot
    show i ∈ w.cloud.images.filter (fun i => decide (i ∉ pre))
    simp [hi, hnot]

/-- Witness of C27: of the three pictures of the gallery pizza the media host refuses to
release the second. Seller A is answered 500, the pizza is still stored, the first picture
is released and the second and third are still held. -/
theorem deleteProduct_release_witness :
    (deleteProduct sellerA 10 galleryWorld).1
        = Response.error 500 "Server error while deleting product"
      ∧ (deleteProduct sellerA 10 galleryWorld).2.db.findProduct 10 = some galleryPizza
      ∧ (deleteProduct sellerA 10 galleryWorld).2.cloud.images = ["b", "c"] :=
  have h := (deleteProduct_release sellerA 10 galleryWorld galleryPizza rfl (by decide!)
    (by decide)).2 ["a"] "b" ["c"] (by decide) (by decide) (by decide)
  ⟨h.1, h.2.2.1, h.2.2.2.1.trans (by decide)⟩

/-- C28, the code at the failing input. Seller F is an active seller with the business name
"Green Valley Farm". The search for that name is answered 500 with `success` false and no
vendor, whatever the pattern match is: the route calls `User.findByBusinessName`, a method
the model does not have (the schema defines `findSellerByBusinessName`). So is every
search with a query of length two or more once trimmed, in UTF-16 code units as the
property `length` counts; a shorter query is answered 400. -/
theorem searchVendors_fails :
    findSellerByBusinessName sameText shopWithF "Green Valley Farm" = some sellerF
      ∧ (searchVendors sameText (some "Green Valley Farm") shopWithF).status = 500
      ∧ (searchVendors sameText (some "Green Valley Farm") shopWithF).success = false
      ∧ (searchVendors sameText (some "Green Valley Farm") shopWithF).items = []
      ∧ (∀ (regexTest : String → String → Bool) (q : String) (db : Db),
          2 ≤ utf16Length (trim q) →
          (searchVendors regexTest (some q) db).status = 500
            ∧ (searchVendors regexTest (some q) db).success = false
            ∧ (searchVendors regexTest (some q) db).message
                = some "Server error while searching vendors"
            ∧ (searchVendors regexTest (some q) db).items = [])
      ∧ ∀ (regexTest : String → String → Bool) (q : Option String) (db : Db),
          (q = none ∨ ∃ s, q = some s ∧ utf16Length (trim s) < 2) →
          (searchVendors regexTest q db).status = 400
            ∧ (searchVendors regexTest q db).success = false := by
  refine ⟨by decide!, by decide!, by decide!, by decide!, ?_, ?_⟩
  · intro regexTest q db hq
    have hne : q ≠ "" := by
      intro h
      subst h
      revert hq
      decide!
    have h1 : (!truthy (some q) || decide (utf16Length (trim ((some q).getD "")) < 2))
        = false := by
      simp [truthy, hne, hq]
    have h2 : userStatic regexTest "findByBusinessName" = none := by
      unfold userStatic
      rw [if_neg (by decide)]
    unfold searchVendors
    rw [h1, h2]
    exact ⟨rfl, rfl, rfl, rfl⟩
  · rintro regexTest q db (hq | ⟨s, hq, hs⟩)
    · subst hq
      exact ⟨rfl, rfl⟩
    · subst hq
      have h1 : (!truthy (some s) || decide (utf16Length (trim ((some s).getD "")) < 2))
          = true := by
        simp [hs]
      unfold searchVendors
      rw [h1]
      exact ⟨rfl, rfl⟩

/-- C29. Stock is not reserved when an order is created. The pizza has 50 pieces in stock;
buyer B and buyer C each order 30, and both orders are created (201). Both payments are
answered 200 and both orders end paid, although 30 + 30 exceeds 50; the stock is 20 after
the first payment and 0 after the second. -/
theorem stock_not_reserved :
    (shop.findProduct 10).map Product.stockQuantity = some 50
      ∧ (createOrder env1 buyerB thirtyPizzas shop).1.status = 201
      ∧ (createOrder env2 buyerC thirtyPizzas (createOrder env1 buyerB thirtyPizzas shop).2).1.status
          = 201
      ∧ (shopTwoOrders.findOrder 100).map Order.quantity = some 30
      ∧ (shopTwoOrders.findOrder 101).map Order.quantity = some 30
      ∧ (shopTwoOrders.findProduct 10).map Product.stockQuantity = some 50
      ∧ (processPayment env1 buyerB 100 payBody shopTwoOrders).1.status = 200
      ∧ ((processPayment env1 buyerB 100 payBody shopTwoOrders).2.findProduct 10).map
          Product.stockQuantity = some 20
      ∧ (processPayment env2 buyerC 101 payBody
          (processPayment env1 buyerB 100 payBody shopTwoOrders).2).1.status = 200
      ∧ (shopTwoPaid.findOrder 100).map Order.paymentStatus = some PaymentStatus.completed
      ∧ (shopTwoPaid.findOrder 101).map Order.paymentStatus = some PaymentStatus.completed
      ∧ (shopTwoPaid.findProduct 10).map Product.stockQuantity = some 0
      ∧ (30 : Int) + 30 > 50 := by
  refine ⟨by decide!, by decide!, by decide!, by decide!, by decide!, by decide!, by decide!,
    by decide!, by decide!, by decide!, by decide!, by decide!, by decide⟩

/-- C30. The payment route does not look at the status of the order. For a stored order
that is cancelled or delivered and not yet paid, a payment by its buyer with a body that
passes validation, on documents that pass the schema validators, is answered 200: the
order is stored with `paymentStatus` completed and its status as before, and the stock of
its product is lowered by the quantity of the order, floored at 0. The cancel route, for
every stored order and caller, leaves `paymentStatus` of the order and the whole products
collection as they were; for a paid order that can be cancelled, a party to it is answered
200 and the order is stored cancelled and still paid. -/
theorem processPayment_ignores_status :
    (∀ (env : Env) (user : User) (id : ObjectId) (body : PaymentDetails) (db : Db) (o : Order)
        (p : Product),
        db.findOrder id = some o → o.buyer = user._id →
        o.paymentStatus ≠ PaymentStatus.completed →
        (o.status = OrderStatus.cancelled ∨ o.status = OrderStatus.delivered) →
        paymentValidation body = true → o.validate = true →
        db.findProduct o.product = some p → p.validate = true →
        (processPayment env user id body db).1.status = 200
          ∧ (processPayment env user id body db).1.success = true
          ∧ (∃ o1, (processPayment env user id body db).2.findOrder id = some o1
              ∧ o1.paymentStatus = PaymentStatus.completed ∧ o1.status = o.status)
          ∧ ∃ p1, (processPayment env user id body db).2.findProduct o.product = some p1
              ∧ p1.stockQuantity = max 0 (p.stockQuantity - o.quantity))
      ∧ ∀ (env : Env) (user : User) (id : ObjectId) (body : CancelBody) (db : Db) (o : Order),
          db.findOrder id = some o →
          (∃ o1, (cancelOrder env user id body db).2.findOrder id = some o1
              ∧ o1.paymentStatus = o.paymentStatus)
            ∧ (cancelOrder env user id body db).2.products = db.products
            ∧ (o.paymentStatus = PaymentStatus.completed →
                (o.buyer = user._id ∨ o.seller = user._id) →
                o.status ≠ OrderStatus.delivered → o.status ≠ OrderStatus.cancelled →
                (o.withStatus env.now OrderStatus.cancelled (cancelNotes body.reason)).validate
                  = true →
                (cancelOrder env user id body db).1.status = 200
                  ∧ ∃ o1, (cancelOrder env user id body db).2.findOrder id = some o1
                      ∧ o1.status = OrderStatus.cancelled
                      ∧ o1.paymentStatus = PaymentStatus.completed) := by
  constructor
  · intro env user id body db o p hf hb hp hs hv hov hfp hpv
    have hst : (processPayment env user id body db).1.status = 200 := by
      rw [processPayment_eq hv hf hb hp]
      simp only [hov, if_true, hfp, Product.withStock_validate hpv]
    obtain ⟨h1, h2⟩ := processPayment_after hf hst
    refine ⟨hst, ?_, ⟨_, h1, ?_, ?_⟩, h2 p hfp⟩
    · rw [processPayment_eq hv hf hb hp]
      simp only [hov, if_true, hfp, Product.withStock_validate hpv]
    · exact (Order.withPayment_frame body.sanitize o).2.2.2.2.2.2.2.2.2.2.1
    · rw [(Order.withPayment_frame body.sanitize o).2.2.2.2.2.2.2.2.2.2.2]
      rcases hs with hs | hs <;> simp [hs]
  · intro env user id body db o hf
    have hid : (o.withStatus env.now OrderStatus.cancelled (cancelNotes body.reason))._id = id :=
      (Order.withStatus_frame _ _ _ o).1.trans (Db.findOrder_id hf)
    have hpay : (o.withStatus env.now OrderStatus.cancelled (cancelNotes body.reason)).paymentStatus
        = o.paymentStatus := (Order.withStatus_frame _ _ _ o).2.2.2.2.2.2.2.2.1
    have hstat : (o.withStatus env.now OrderStatus.cancelled (cancelNotes body.reason)).status
        = OrderStatus.cancelled := (Order.withStatus_frame _ _ _ o).2.2.2.2.2.2.2.2.2.1
    have hself : (db.replaceOrder
        (o.withStatus env.now OrderStatus.cancelled (cancelNotes body.reason))).findOrder id
        = some (o.withStatus env.now OrderStatus.cancelled (cancelNotes body.reason)) :=
      (Db.findOrder_replaceOrder_self hf hid).trans
        (congrArg some (Order.hydrate_of_status hstat))
    rw [cancelOrder_eq hf]
    refine ⟨⟨?_, ?_⟩, ?_, ?_⟩
    · exact if ¬ (o.buyer = user._id ∨ o.seller = user._id) then o
        else if o.status = OrderStatus.delivered ∨ o.status = OrderStatus.cancelled then o
        else if (o.withStatus env.now OrderStatus.cancelled (cancelNotes body.reason)).validate
          then o.withStatus env.now OrderStatus.cancelled (cancelNotes body.reason)
        else o
    · split_ifs <;> first
        | exact ⟨hf, rfl⟩
        | exact ⟨hself, hpay⟩
    · split_ifs <;> rfl
    · intro hpaid hparty hd hc hval
      have hparty1 : ¬ ¬ (o.buyer = user._id ∨ o.seller = user._id) := not_not.mpr hparty
      have hdc : ¬ (o.status = OrderStatus.delivered ∨ o.status = OrderStatus.cancelled) := by
        rintro (h | h)
        · exact hd h
        · exact hc h
      rw [if_neg hparty1, if_neg hdc, if_pos hval]
      exact ⟨rfl, _, hself, hstat, hpay.trans hpaid⟩

/-- Witness of C30: buyer B cancels the order of three pizzas before paying and pays it
afterwards; the payment is answered 200, the order stays cancelled and the stock goes from
50 to 47. -/
theorem processPayment_ignores_status_witness :
    (shopCancelled.findOrder 100).map Order.status = some OrderStatus.cancelled
      ∧ (processPayment env2 buyerB 100 payBody shopCancelled).1.status = 200
      ∧ ∃ p1, (processPayment env2 buyerB 100 payBody shopCancelled).2.findProduct 10 = some p1
          ∧ p1.stockQuantity = max 0 (50 - 3) :=
  have h := processPayment_ignores_status.1 env2 buyerB 100 payBody shopCancelled
    { placedOrder with status := OrderStatus.cancelled, notes := some "Order cancelled by user" }
    pizza (by decide!) (by decide) (by decide) (Or.inl rfl) (by decide!) (by decide!) (by decide!)
    (by decide!)
  ⟨by decide!, h.1, h.2.2.2⟩

end Marketplace
